import Mathlib

/-! Ercole: license compliance and standby license propagation.

A shallow embedding of

* `api-service/service/oracle_database_parts.go`
  (`GetOracleDatabaseAgreementPartsMap`, `GetOraclePart`,
  `GetOracleDatabaseLicensesCompliance`),
* `data-service/service/oracle_databases.go`
  (`oracleDatabasesChecks`, `addLicensesToSecondaryDbs`,
  `getPrimaryOpenOracleDatabases`, `removeFromDBs`),
* `api-service/database/stats_databases.go`
  (`GetDatabaseLicenseComplianceStatusStats`),
* `api-service/controller/oracle_database_license_types.go`
  (the handlers that delete, add and update a license type),
* `utils/utils.go` (`Difference`, `Remove`, `Str2int`),
* `thunder-service/service/oci_loadbalancers.go` (`GetOciUnusedLoadBalancers`).

Conventions of the embedding.

* Go `float64` quantities (license counts, core factors, ratios) are exact
  rationals `ℚ`; Go `int` is `Int`.
* A Go `map[string]V` is an association list in order of first insertion
  (`GoMap`).  The order in which `range` visits a map is not fixed by Go, so it
  is a parameter (`MapOrder`) that may be any rearrangement of the entries.
* Calls to collaborators (the store, the HTTP endpoints) are represented by
  their outcomes, collected in a record that is passed to the function.
-/

namespace Ercole

/-! ## Go maps -/

/-- A Go map with string keys: association list, first insertion first. -/
abbrev GoMap (V : Type) := List (String × V)

namespace GoMap

/-- Keys of the map, in insertion order. -/
def keys {V : Type} (m : GoMap V) : List String := m.map Prod.fst

/-- Go `v, ok := m[k]`. -/
def get? {V : Type} : GoMap V → String → Option V
  | [], _ => none
  | (k', v') :: m, k => if k' = k then some v' else get? m k

/-- Go `m[k] = v`. -/
def set {V : Type} : GoMap V → String → V → GoMap V
  | [], k, v => [(k, v)]
  | (k', v') :: m, k, v => if k' = k then (k', v) :: m else (k', v') :: set m k v

end GoMap

/-! ## api-service: license compliance -/

/-- Modelled from the spec: `utils.AdvancedErrorInterface` is not among the
sources; an error carries the wrapped error text and its class. -/
structure AdvancedError where
  /-- The wrapped Go `error`; `none` is a nil error. -/
  Err : Option String
  Class : String
  deriving DecidableEq, Repr

/-- Go `utils.NewAdvancedErrorPtr(err, class)`. -/
def NewAdvancedErrorPtr (err : Option String) (cls : String) : AdvancedError :=
  { Err := err, Class := cls }

/-- Modelled from the spec: `model.OracleDatabasePart` is not among the sources;
the fields read by the service are kept. -/
structure OracleDatabasePart where
  PartID : String := ""
  ItemDescription : String := ""
  Metric : String := ""
  deriving DecidableEq, Repr

/-- Modelled from the spec: the associated host of an agreement
(`dto`, not among the sources), with the covered count that
`GetOracleDatabaseLicensesCompliance` sums. -/
structure OracleDatabaseAgreementAssociatedHostFE where
  Hostname : String := ""
  CoveredLicensesCount : ℚ := 0
  deriving DecidableEq

/-- Modelled from the spec: an agreement (contract) as listed by the store
(`dto`, not among the sources). -/
structure OracleDatabaseAgreementFE where
  PartID : String := ""
  Unlimited : Bool := false
  Hosts : List OracleDatabaseAgreementAssociatedHostFE := []
  deriving DecidableEq

/-- Modelled from the spec: a host usage record (`dto`, not among the
sources): one host consuming licenses of one part. -/
structure HostUsingOracleDatabaseLicenses where
  Name : String := ""
  PartID : String := ""
  OriginalCount : ℚ := 0
  deriving DecidableEq

/-- Modelled from the spec: the per-part record returned by
`GetOracleDatabaseLicensesCompliance` (`dto`, not among the sources). A Go
composite literal leaves the fields it does not name at their zero value. -/
structure OracleDatabaseLicenseUsage where
  PartID : String := ""
  ItemDescription : String := ""
  Metric : String := ""
  Consumed : ℚ := 0
  Covered : ℚ := 0
  Compliance : ℚ := 0
  Unlimited : Bool := false
  deriving DecidableEq

/-- The order in which `for _, license := range licenses` visits the entries of
the map: some rearrangement of them. -/
structure MapOrder where
  iter : List OracleDatabaseLicenseUsage → List OracleDatabaseLicenseUsage
  perm : ∀ l, (iter l).Perm l

/-- Visit in insertion order. -/
def MapOrder.insertion : MapOrder := ⟨id, fun l => List.Perm.refl l⟩

/-- Visit in reverse insertion order. -/
def MapOrder.reversed : MapOrder := ⟨List.reverse, fun l => List.reverse_perm l⟩

/-- What the collaborators of the service answer during one call. -/
structure APIService where
  /-- Go `as.Database.ListOracleDatabaseAgreements()`. -/
  ListOracleDatabaseAgreements : Except AdvancedError (List OracleDatabaseAgreementFE)
  /-- Go `as.Database.ListHostUsingOracleDatabaseLicenses()`. -/
  ListHostUsingOracleDatabaseLicenses :
    Except AdvancedError (List HostUsingOracleDatabaseLicenses)
  /-- Go `as.assignOracleDatabaseAgreementsToHosts(agreements, hosts)` (not among
  the sources): it fails, or leaves the two slices updated in place. -/
  assignOracleDatabaseAgreementsToHosts :
    List OracleDatabaseAgreementFE → List HostUsingOracleDatabaseLicenses →
      Except String (List OracleDatabaseAgreementFE × List HostUsingOracleDatabaseLicenses)
  /-- Go `as.Database.GetOracleDatabaseParts()`. -/
  GetOracleDatabaseParts : Except String (List OracleDatabasePart)

/-- Go `GetOracleDatabaseAgreementPartsMap`. -/
def GetOracleDatabaseAgreementPartsMap (as : APIService) :
    Except AdvancedError (GoMap OracleDatabasePart) :=
  match as.GetOracleDatabaseParts with
  | .error err => .error (NewAdvancedErrorPtr (some err) "DB ERROR")
  | .ok parts => .ok (parts.foldl (fun partsMap part => partsMap.set part.PartID part) [])

/-- Go `parts[k]` read without the `ok` flag: the zero value when `k` is absent. -/
def partsAt (parts : GoMap OracleDatabasePart) (k : String) : OracleDatabasePart :=
  (parts.get? k).getD {}

/-- Body of the first loop of `GetOracleDatabaseLicensesCompliance`
(`for _, host := range hosts`). -/
def consumeHost (licenses : GoMap OracleDatabaseLicenseUsage)
    (host : HostUsingOracleDatabaseLicenses) : GoMap OracleDatabaseLicenseUsage :=
  match licenses.get? host.PartID with
  | some license =>
      licenses.set host.PartID { license with Consumed := license.Consumed + host.OriginalCount }
  | none =>
      let license : OracleDatabaseLicenseUsage := { PartID := host.PartID }
      licenses.set license.PartID { license with Consumed := license.Consumed + host.OriginalCount }

/-- Inner loop `for _, host := range agreement.Hosts { license.Covered += ... }`. -/
def addCovered (license : OracleDatabaseLicenseUsage)
    (hosts : List OracleDatabaseAgreementAssociatedHostFE) : OracleDatabaseLicenseUsage :=
  hosts.foldl (fun l host => { l with Covered := l.Covered + host.CoveredLicensesCount }) license

/-- The statement `if agreement.Unlimited { license.Unlimited = true }`. -/
def markUnlimited (license : OracleDatabaseLicenseUsage)
    (agreement : OracleDatabaseAgreementFE) : OracleDatabaseLicenseUsage :=
  if agreement.Unlimited then { license with Unlimited := true } else license

/-- Body of the second loop of `GetOracleDatabaseLicensesCompliance`
(`for _, agreement := range agreements`). -/
def coverAgreement (licenses : GoMap OracleDatabaseLicenseUsage)
    (agreement : OracleDatabaseAgreementFE) : GoMap OracleDatabaseLicenseUsage :=
  match licenses.get? agreement.PartID with
  | some license =>
      licenses.set agreement.PartID (addCovered (markUnlimited license agreement) agreement.Hosts)
  | none =>
      let license : OracleDatabaseLicenseUsage := { PartID := agreement.PartID }
      licenses.set license.PartID (addCovered (markUnlimited license agreement) agreement.Hosts)

/-- The map `licenses` after the two loops. -/
def licensesMap (agreements : List OracleDatabaseAgreementFE)
    (hosts : List HostUsingOracleDatabaseLicenses) : GoMap OracleDatabaseLicenseUsage :=
  agreements.foldl coverAgreement (hosts.foldl consumeHost [])

/-- Body of the last loop: the ratio, then description and metric from the
parts catalogue. -/
def finishLicense (parts : GoMap OracleDatabasePart)
    (license : OracleDatabaseLicenseUsage) : OracleDatabaseLicenseUsage :=
  let license : OracleDatabaseLicenseUsage :=
    if license.Consumed = 0 then { license with Compliance := 1 }
    else { license with Compliance := license.Covered / license.Consumed }
  { license with
    ItemDescription := (partsAt parts license.PartID).ItemDescription
    Metric := (partsAt parts license.PartID).Metric }

/-- Go `GetOracleDatabaseLicensesCompliance`. -/
def GetOracleDatabaseLicensesCompliance (as : APIService) (order : MapOrder) :
    Except AdvancedError (List OracleDatabaseLicenseUsage) :=
  match as.ListOracleDatabaseAgreements with
  | .error err => .error err
  | .ok agreements0 =>
    match as.ListHostUsingOracleDatabaseLicenses with
    | .error err => .error err
    | .ok hosts0 =>
      match as.assignOracleDatabaseAgreementsToHosts agreements0 hosts0 with
      | .error err2 => .error (NewAdvancedErrorPtr (some err2) "DB ERROR")
      | .ok (agreements, hosts) =>
        let licenses := licensesMap agreements hosts
        match GetOracleDatabaseAgreementPartsMap as with
        | .error err => .error err
        | .ok parts =>
          .ok ((order.iter (licenses.map Prod.snd)).map (finishLicense parts))

/-! ## data-service: standby license propagation -/

/-- Modelled from the spec: `model.OracleDatabaseLicense` is not among the
sources; a license entry of a database is a name and a consumed count. -/
structure OracleDatabaseLicense where
  Name : String := ""
  Count : ℚ := 0
  deriving DecidableEq

/-- Modelled from the spec: `model.OracleDatabase` is not among the sources;
identity (engine id and name), role, status and license entries. -/
structure OracleDatabase where
  Name : String := ""
  DbID : Nat := 0
  Role : String := ""
  Status : String := ""
  Licenses : List OracleDatabaseLicense := []
  deriving DecidableEq

/-- Modelled from the spec: `model.OracleDatabaseFeature` is not among the
sources. -/
structure OracleDatabaseFeature where
  Databases : List OracleDatabase := []
  deriving DecidableEq

/-- Modelled from the spec: `model.OracleFeature` is not among the sources. -/
structure OracleFeature where
  Database : OracleDatabaseFeature := {}
  deriving DecidableEq

/-- Modelled from the spec: `model.Host` is not among the sources; the
attributes read by the propagation. -/
structure Host where
  Hostname : String := ""
  CPUCores : Int := 0
  CPUSockets : Int := 0
  CPUThreads : Int := 0
  HardwareAbstractionTechnology : String := ""
  deriving DecidableEq

/-- Modelled from the spec: the constant `model.OracleDatabaseStatusOpen`
is not among the sources. -/
def OracleDatabaseStatusOpen : String := "OPEN"

/-- Modelled from the spec: the constant `model.OracleDatabaseStatusMounted`
is not among the sources. -/
def OracleDatabaseStatusMounted : String := "MOUNTED"

/-- Modelled from the spec: the constant `model.OracleDatabaseRolePrimary`
is not among the sources. -/
def OracleDatabaseRolePrimary : String := "PRIMARY"

/-- Modelled from the spec: `model.Alert` is not among the sources; the fields
set by `addLicensesToSecondaryDbs` (`OtherInfo` holds `hostname` and
`dbname`). -/
structure Alert where
  AlertCategory : String
  AlertCode : String
  AlertSeverity : String
  AlertStatus : String
  Description : String
  Date : Nat
  OtherInfoHostname : String
  OtherInfoDbname : String
  deriving DecidableEq

/-- Answer to an HTTP `GET` of the databases: status code and the outcome of
decoding the body as a list of databases. -/
structure DatabasesResponse where
  StatusCode : Int
  Decode : Except String (List OracleDatabase)

/-- What the collaborators of the data service answer during one call of
`addLicensesToSecondaryDbs`. -/
structure HostDataService where
  /-- Go `http.Get(url)` of `/hosts/technologies/oracle/databases`. -/
  Get : Except String DatabasesResponse
  /-- Go `json.Marshal(alert)`. -/
  Marshal : Alert → Except String String
  /-- Go `http.Post(url, "application/json", body)`: an error or a status code. -/
  Post : String → Except String Int
  /-- Go `hds.TimeNow()`. -/
  TimeNow : Nat

/-- What a call leaves behind besides the updated database. -/
inductive Event where
  /-- Go `utils.LogErr(hds.Log, err)`. -/
  | logErr (err : AdvancedError)
  /-- The alert service accepted (status 200..299) the posted body. -/
  | alertDelivered (body : String)
  deriving DecidableEq

/-- Go `removeFromDBs`: `s[i] = s[len(s)-1]; return s[:len(s)-1]`. -/
def removeFromDBs (s : List OracleDatabase) (i : Nat) : List OracleDatabase :=
  match s.getLast? with
  | none => s
  | some last => (s.set i last).dropLast

/-- The loop `for i := 0; i < len(dbs); { ... }` of
`getPrimaryOpenOracleDatabases`, from index `i`. -/
def filterPrimaryOpen (dbs : List OracleDatabase) (i : Nat) : List OracleDatabase :=
  if h : i < dbs.length then
    let db := dbs[i]
    if db.Role = OracleDatabaseRolePrimary ∧ db.Status = OracleDatabaseStatusOpen then
      filterPrimaryOpen dbs (i + 1)
    else
      filterPrimaryOpen (removeFromDBs dbs i) i
  else dbs
termination_by dbs.length - i
decreasing_by
  · omega
  · have hlen : (removeFromDBs dbs i).length = dbs.length - 1 := by
      unfold removeFromDBs
      cases hl : dbs.getLast? with
      | none =>
        have hnil : dbs = [] := by simpa using hl
        subst hnil
        simp at h
      | some last => simp
    rw [hlen]
    omega

/-- Go `getPrimaryOpenOracleDatabases`. -/
def getPrimaryOpenOracleDatabases (hds : HostDataService) :
    Except AdvancedError (List OracleDatabase) :=
  match hds.Get with
  | .error err => .error (NewAdvancedErrorPtr (some err) "Can't retrieve databases")
  | .ok resp =>
    if resp.StatusCode < 200 ∨ resp.StatusCode > 299 then
      .error (NewAdvancedErrorPtr none "Can't retrieve databases")
    else
      match resp.Decode with
      | .error err => .error (NewAdvancedErrorPtr (some err) "Can't decode databases")
      | .ok dbs => .ok (filterPrimaryOpen dbs 0)

/-- The search loop of `addLicensesToSecondaryDbs` (first database of `dbs`
with the `DbID` and the `Name` of the secondary). -/
def findPrimaryDb : List OracleDatabase → OracleDatabase → Option OracleDatabase
  | [], _ => none
  | db :: dbs, secondaryDb =>
    if db.DbID = secondaryDb.DbID ∧ db.Name = secondaryDb.Name then some db
    else findPrimaryDb dbs secondaryDb

/-- The inner loop `for i := range secondaryDb.Licenses`: the count of the first
entry called `name` is set to `count`; `none` when the loop ends without a
match. -/
def overwriteCount : List OracleDatabaseLicense → String → ℚ →
    Option (List OracleDatabaseLicense)
  | [], _, _ => none
  | l :: ls, name, count =>
    if l.Name = name then some ({ l with Count := count } :: ls)
    else (overwriteCount ls name count).map (fun ls2 => l :: ls2)

/-- Body of the loop `primaryDbLicensesCycle` for one license of the primary;
`count` is `float64(hostInfo.CPUCores) * coreFactor`. -/
def propagateLicense (count : ℚ) (licenses : List OracleDatabaseLicense)
    (primaryDbLicense : OracleDatabaseLicense) : List OracleDatabaseLicense :=
  if primaryDbLicense.Count > 0 then
    match overwriteCount licenses primaryDbLicense.Name count with
    | some licenses2 => licenses2
    | none => licenses ++ [{ Name := primaryDbLicense.Name, Count := count }]
  else licenses

/-- The alert built when no primary is found. -/
def missingPrimaryAlert (hds : HostDataService) (hostInfo : Host)
    (secondaryDb : OracleDatabase) : Alert :=
  { AlertCategory := "ENGINE"
    AlertCode := "MISSING_PRIMARY_DATABASE"
    AlertSeverity := "WARNING"
    AlertStatus := "NEW"
    Description := "Missing primary database on standby database: " ++ secondaryDb.Name
    Date := hds.TimeNow
    OtherInfoHostname := hostInfo.Hostname
    OtherInfoDbname := secondaryDb.Name }

/-- Go `addLicensesToSecondaryDbs`: the secondary database after the call and
the events of the call. `CoreFactor` is the method `OracleDatabase.CoreFactor`
of the model, which is not among the sources. -/
def addLicensesToSecondaryDbs (CoreFactor : OracleDatabase → Host → ℚ)
    (hds : HostDataService) (hostInfo : Host) (secondaryDb : OracleDatabase) :
    OracleDatabase × List Event :=
  match getPrimaryOpenOracleDatabases hds with
  | .error err => (secondaryDb, [Event.logErr err])
  | .ok dbs =>
    match findPrimaryDb dbs secondaryDb with
    | none =>
      let alert := missingPrimaryAlert hds hostInfo secondaryDb
      match hds.Marshal alert with
      | .error err =>
        (secondaryDb, [Event.logErr (NewAdvancedErrorPtr (some err) "Can't marshal alert")])
      | .ok alertBytes =>
        match hds.Post alertBytes with
        | .error err =>
          (secondaryDb, [Event.logErr (NewAdvancedErrorPtr (some err) "Can't throw new alert")])
        | .ok statusCode =>
          if statusCode < 200 ∨ statusCode > 299 then
            (secondaryDb, [Event.logErr (NewAdvancedErrorPtr none "Can't throw new alert")])
          else (secondaryDb, [Event.alertDelivered alertBytes])
    | some primaryDb =>
      let coreFactor := CoreFactor secondaryDb hostInfo
      ({ secondaryDb with
          Licenses := primaryDb.Licenses.foldl
            (propagateLicense ((hostInfo.CPUCores : ℚ) * coreFactor)) secondaryDb.Licenses },
        [])

/-- The loop of `oracleDatabasesChecks` over the databases from index `i` on:
the databases after the loop and, for each call of `addLicensesToSecondaryDbs`
in order, the index of the database it was called on and the events of the call.
`hds i` holds the answers of the collaborators while database `i` is handled. -/
def oracleDatabasesChecksFrom (CoreFactor : OracleDatabase → Host → ℚ)
    (hds : Nat → HostDataService) (hostInfo : Host) :
    Nat → List OracleDatabase → List OracleDatabase × List (Nat × List Event)
  | _, [] => ([], [])
  | i, db :: rest =>
    let tail := oracleDatabasesChecksFrom CoreFactor hds hostInfo (i + 1) rest
    if db.Status = OracleDatabaseStatusMounted ∧ db.Role ≠ OracleDatabaseRolePrimary then
      let r := addLicensesToSecondaryDbs CoreFactor (hds i) hostInfo db
      (r.1 :: tail.1, (i, r.2) :: tail.2)
    else (db :: tail.1, tail.2)

/-- Go `oracleDatabasesChecks`: the feature with its databases updated in place,
and the calls of `addLicensesToSecondaryDbs` that were made. -/
def oracleDatabasesChecks (CoreFactor : OracleDatabase → Host → ℚ)
    (hds : Nat → HostDataService) (hostInfo : Host) (oracleFeature : OracleFeature) :
    OracleFeature × List (Nat × List Event) :=
  let r := oracleDatabasesChecksFrom CoreFactor hds hostInfo 0 oracleFeature.Database.Databases
  ({ oracleFeature with Database := { oracleFeature.Database with Databases := r.1 } }, r.2)

/-! ## api-service: license compliance statistics

`GetDatabaseLicenseComplianceStatusStats` (`api-service/database/stats_databases.go`)
runs an aggregation pipeline on the collection `licenses`.  Each stage of the
pipeline is a function on the documents it receives; numbers are rationals, a
field that is null or missing is `none`.  The operators follow the aggregation
language of the store: `$cond` takes null and 0 for false and every other number
and every string for true, the accumulator `$max` skips null values, a comparison
with a missing value fails. -/

/-- Modelled from the spec: a document of the collection `licenses` (its schema
is not among the sources): `_id` is the name of the license, `count` the number
of licenses held. -/
structure LicenseDocument where
  id : String
  count : ℚ
  deriving DecidableEq

/-- Modelled from the spec: an element of `extra.databases` of a host document
(schema not among the sources). -/
structure HostDatabaseDocument where
  name : String := ""
  licenses : List OracleDatabaseLicense := []
  deriving DecidableEq

/-- Modelled from the spec: a document of the collection `hosts` (schema not
among the sources); `databases` is the field `extra.databases`. -/
structure HostDocument where
  hostname : String
  archived : Bool := false
  databases : List HostDatabaseDocument := []
  deriving DecidableEq

/-- Modelled from the spec: the field `cluster` of a document of the collection
`currentClusters` (schema not among the sources): name, aggregate CPU figure
(`none` when null or missing) and the hostnames of its virtual machines. -/
structure ClusterDocument where
  name : String
  cpu : Option ℚ := none
  vms : List String := []
  deriving DecidableEq

/-- The expression under `"count"` of the `$map`: the count of the first license
of the database whose name is `license_name`; missing when there is none. -/
def licenseCountOf (license_name : String) (db : HostDatabaseDocument) : Option ℚ :=
  (db.licenses.find? (fun lic => decide (lic.Name = license_name))).map (fun lic => lic.Count)

/-- The `$filter` over the mapped databases: the counts that are greater
than 0. -/
def positiveCounts (license_name : String) (host : HostDocument) : List ℚ :=
  host.databases.filterMap (fun db =>
    (licenseCountOf license_name db).filter (fun count => decide (count > 0)))

/-- The field `databases.count` computed by the `$reduce`: from 0, the maximum
with each positive count. -/
def databasesCount (license_name : String) (host : HostDocument) : ℚ :=
  (positiveCounts license_name host).foldl (fun value this => max value this) 0

/-- A host document after `$unset cluster`: hostname, `databases.count`,
`cluster_name` and `cluster_cpu`. -/
structure HostUsage where
  hostname : String
  count : ℚ
  cluster_name : Option String := none
  cluster_cpu : Option ℚ := none
  deriving DecidableEq

/-- The `$lookup` into `currentClusters` followed by `$arrayElemAt 0`: the first
cluster one of whose virtual machines has the hostname. -/
def lookupCluster (clusters : List ClusterDocument) (hostname : String) :
    Option ClusterDocument :=
  clusters.find? (fun cluster => decide (hostname ∈ cluster.vms))

/-- The stages from the `$lookup` into `currentClusters` to `$unset cluster`, on
a projected host (hostname and `databases.count`). -/
def attachCluster (clusters : List ClusterDocument) (projected : String × ℚ) : HostUsage :=
  { hostname := projected.1
    count := projected.2
    cluster_name := (lookupCluster clusters projected.1).map (fun cluster => cluster.name)
    cluster_cpu := (lookupCluster clusters projected.1).bind (fun cluster => cluster.cpu) }

/-- The inner pipeline up to `$unset cluster`: hosts that are not archived,
projected, kept when `databases.count > 0`, with the cluster fields attached. -/
def hostUsages (license_name : String) (hosts : List HostDocument)
    (clusters : List ClusterDocument) : List HostUsage :=
  ((((hosts.filter (fun host => host.archived = false)).map
      (fun host => (host.hostname, databasesCount license_name host))).filter
      (fun projected => decide (projected.2 > 0))).map (attachCluster clusters))

/-- The `_id` of the first `$group`: `$cond` on `cluster_name`, which holds for
every string. -/
def groupKey (usage : HostUsage) : String :=
  match usage.cluster_name with
  | some cluster_name => "cluster_§$#$§_" ++ cluster_name
  | none => "hostname_§$#$§_" ++ usage.hostname

/-- The accumulator `$max` on a field that may be null: null values are
skipped. -/
def maxSkippingNull : Option ℚ → Option ℚ → Option ℚ
  | none, b => b
  | some a, none => some a
  | some a, some b => some (max a b)

/-- A document produced by the first `$group`, without its `_id`. -/
structure UsageGroup where
  license : ℚ
  cluster_cpu : Option ℚ
  deriving DecidableEq

/-- The first `$group`, one host at a time: the groups are kept under their
`_id`, `license` and `cluster_cpu` accumulate with `$max`. -/
def addToGroup (groups : GoMap UsageGroup) (usage : HostUsage) : GoMap UsageGroup :=
  match groups.get? (groupKey usage) with
  | none =>
    groups.set (groupKey usage) { license := usage.count, cluster_cpu := usage.cluster_cpu }
  | some group =>
    groups.set (groupKey usage)
      { license := max group.license usage.count
        cluster_cpu := maxSkippingNull group.cluster_cpu usage.cluster_cpu }

/-- The first `$group` of the inner pipeline. -/
def groupUsages (usages : List HostUsage) : GoMap UsageGroup :=
  usages.foldl addToGroup []

/-- The `$set` after the first `$group`: `$cond` on `cluster_cpu` (false for
null and for 0) chooses `cluster_cpu / 2` or the accumulated `license`. -/
def groupLicense (group : UsageGroup) : ℚ :=
  match group.cluster_cpu with
  | some cluster_cpu => if cluster_cpu ≠ 0 then cluster_cpu / 2 else group.license
  | none => group.license

/-- The groups of a license with their consumption (the inner pipeline before
its last `$group`). -/
def licenseGroups (license_name : String) (hosts : List HostDocument)
    (clusters : List ClusterDocument) : GoMap UsageGroup :=
  groupUsages (hostUsages license_name hosts clusters)

/-- The last `$group` of the inner pipeline: no document when there is no group,
else one document whose `value` is the sum of the consumptions. -/
def usedValue (license_name : String) (hosts : List HostDocument)
    (clusters : List ClusterDocument) : Option ℚ :=
  match licenseGroups license_name hosts clusters with
  | [] => none
  | groups => some ((groups.map (fun keyed => groupLicense keyed.2)).sum)

/-- The two `$set` of `used`: `$ifNull($ceil("$used.value"), 0)`. -/
def usedOf (license_name : String) (hosts : List HostDocument)
    (clusters : List ClusterDocument) : ℚ :=
  match usedValue license_name hosts clusters with
  | some value => ((⌈value⌉ : ℤ) : ℚ)
  | none => 0

/-- A license document after the `$set` of `compliance`. -/
structure LicenseCompliance where
  count : ℚ
  used : ℚ
  compliance : Bool
  deriving DecidableEq

/-- The outer stages up to the `$set` of `compliance`, on one license
document. -/
def licenseCompliance (hosts : List HostDocument) (clusters : List ClusterDocument)
    (license : LicenseDocument) : LicenseCompliance :=
  { count := license.count
    used := usedOf license.id hosts clusters
    compliance := decide (license.count ≥ usedOf license.id hosts clusters) }

/-- The value returned by `GetDatabaseLicenseComplianceStatusStats`. -/
structure ComplianceStats where
  count : ℚ
  used : ℚ
  compliant : Bool
  deriving DecidableEq

/-- The last `$group` and the `$project`: no document when there is no license,
else the sums and the comparison of `licenses_number` with
`compliant_licenses_number`. -/
def aggregateStats (docs : List LicenseCompliance) : Option ComplianceStats :=
  match docs with
  | [] => none
  | _ =>
    some
      { count := (docs.map (fun doc => doc.count)).sum
        used := (docs.map (fun doc => doc.used)).sum
        compliant := decide ((docs.map (fun _ => 1)).sum =
          (docs.map (fun doc => if doc.compliance then 1 else 0)).sum) }

/-- The store as `GetDatabaseLicenseComplianceStatusStats` sees it: the three
collections, and the failures of running the pipeline and of decoding its
document. -/
structure MongoDatabase where
  licenses : List LicenseDocument
  hosts : List HostDocument
  currentClusters : List ClusterDocument
  AggregateError : Option String := none
  DecodeError : Option String := none

/-- Go `GetDatabaseLicenseComplianceStatusStats`; the parameters `location`,
`environment` and `olderThan` are not used by the pipeline. -/
def GetDatabaseLicenseComplianceStatusStats (md : MongoDatabase) :
    Except AdvancedError ComplianceStats :=
  match md.AggregateError with
  | some err => .error (NewAdvancedErrorPtr (some err) "DB ERROR")
  | none =>
    match aggregateStats (md.licenses.map (licenseCompliance md.hosts md.currentClusters)) with
    | none => .ok { count := 0, used := 0, compliant := true }
    | some doc =>
      match md.DecodeError with
      | some err => .error (NewAdvancedErrorPtr (some err) "DB ERROR")
      | none => .ok doc

/-! ## Auxiliary definitions used in the statements -/

/-- The entry of the map `licenses` under the key `k`, or the record the loops
would create for `k` when there is none yet. -/
def usageAt (licenses : GoMap OracleDatabaseLicenseUsage) (k : String) :
    OracleDatabaseLicenseUsage :=
  (licenses.get? k).getD { PartID := k }

/-- Sum of `OriginalCount` over the host usage records of part `k`. -/
def consumedOf (hosts : List HostUsingOracleDatabaseLicenses) (k : String) : ℚ :=
  ((hosts.filter (fun h => h.PartID = k)).map (fun h => h.OriginalCount)).sum

/-- Sum of `CoveredLicensesCount` over the associated hosts of an agreement. -/
def coveredByAgreement (agreement : OracleDatabaseAgreementFE) : ℚ :=
  (agreement.Hosts.map (fun h => h.CoveredLicensesCount)).sum

/-- Sum of `CoveredLicensesCount` over the associated hosts of the agreements of
part `k`. -/
def coveredOf (agreements : List OracleDatabaseAgreementFE) (k : String) : ℚ :=
  ((agreements.filter (fun a => a.PartID = k)).map coveredByAgreement).sum

/-- Whether some agreement of part `k` is unlimited. -/
def unlimitedOf (agreements : List OracleDatabaseAgreementFE) (k : String) : Bool :=
  agreements.any (fun a => decide (a.PartID = k) && a.Unlimited)

/-! ## Example inputs -/

/-- The assignment step that leaves agreements and host records as they are. -/
def assignNothing (agreements : List OracleDatabaseAgreementFE)
    (hosts : List HostUsingOracleDatabaseLicenses) :
    Except String (List OracleDatabaseAgreementFE × List HostUsingOracleDatabaseLicenses) :=
  .ok (agreements, hosts)

/-- One agreement covering 10 units of part A90611, two hosts consuming 5 and 7. -/
def exampleService : APIService where
  ListOracleDatabaseAgreements := .ok
    [{ PartID := "A90611", Hosts := [{ Hostname := "h1", CoveredLicensesCount := 10 }] }]
  ListHostUsingOracleDatabaseLicenses := .ok
    [{ Name := "h1", PartID := "A90611", OriginalCount := 5 },
     { Name := "h2", PartID := "A90611", OriginalCount := 7 }]
  assignOracleDatabaseAgreementsToHosts := assignNothing
  GetOracleDatabaseParts := .ok
    [{ PartID := "A90611", ItemDescription := "Oracle Database Enterprise Edition",
       Metric := "Processor Perpetual" }]

/-- The result entry of `exampleService`. -/
def exampleUsage : OracleDatabaseLicenseUsage :=
  { PartID := "A90611", ItemDescription := "Oracle Database Enterprise Edition",
    Metric := "Processor Perpetual", Consumed := 12, Covered := 10, Compliance := 10 / 12 }

/-- An unlimited agreement of part A90611 associated with host h1, whose 3 units
it covers; host h2, outside the agreement, consumes 2 more units of the part. -/
def unlimitedService : APIService where
  ListOracleDatabaseAgreements := .ok
    [{ PartID := "A90611", Unlimited := true,
       Hosts := [{ Hostname := "h1", CoveredLicensesCount := 3 }] }]
  ListHostUsingOracleDatabaseLicenses := .ok
    [{ Name := "h1", PartID := "A90611", OriginalCount := 3 },
     { Name := "h2", PartID := "A90611", OriginalCount := 2 }]
  assignOracleDatabaseAgreementsToHosts := assignNothing
  GetOracleDatabaseParts := .ok []

/-- The result entry of `unlimitedService`. -/
def unlimitedUsage : OracleDatabaseLicenseUsage :=
  { PartID := "A90611", Consumed := 5, Covered := 3, Compliance := 3 / 5, Unlimited := true }

/-- No agreement at all, one host consuming 4 units of part A90611. -/
def uncoveredService : APIService where
  ListOracleDatabaseAgreements := .ok []
  ListHostUsingOracleDatabaseLicenses := .ok
    [{ Name := "h1", PartID := "A90611", OriginalCount := 4 }]
  assignOracleDatabaseAgreementsToHosts := assignNothing
  GetOracleDatabaseParts := .ok []

/-- The result entry of `uncoveredService`. -/
def uncoveredUsage : OracleDatabaseLicenseUsage :=
  { PartID := "A90611", Consumed := 4, Covered := 0, Compliance := 0 }

/-- A host with 8 cores. -/
def hostB : Host := { Hostname := "hostB", CPUCores := 8 }

/-- A host reporting no core. -/
def hostNoCores : Host := { Hostname := "hostC", CPUCores := 0 }

/-- A core factor of 0.5 for every database and host. -/
def coreFactorHalf : OracleDatabase → Host → ℚ := fun _ _ => 1 / 2

/-- Open primary database ERCOLE (id 1) holding license L1 with count 2. -/
def primaryErcole : OracleDatabase :=
  { Name := "ERCOLE", DbID := 1, Role := "PRIMARY", Status := "OPEN",
    Licenses := [{ Name := "L1", Count := 2 }] }

/-- Mounted standby database ERCOLE (id 1) without license entries. -/
def standbyErcole : OracleDatabase :=
  { Name := "ERCOLE", DbID := 1, Role := "PHYSICAL STANDBY", Status := "MOUNTED" }

/-- Mounted standby database ERCOLE (id 1) holding L1 with count 3 and L2 with
count 1. -/
def standbyLicensed : OracleDatabase :=
  { Name := "ERCOLE", DbID := 1, Role := "PHYSICAL STANDBY", Status := "MOUNTED",
    Licenses := [{ Name := "L1", Count := 3 }, { Name := "L2", Count := 1 }] }

/-- Standby database ERCOLE (id 1) that is open (read only). -/
def standbyOpen : OracleDatabase :=
  { Name := "ERCOLE", DbID := 1, Role := "PHYSICAL STANDBY", Status := "OPEN" }

/-- Mounted standby database of another name, holding L1 with count 3. -/
def standbyOrphan : OracleDatabase :=
  { Name := "ORPHAN", DbID := 7, Role := "PHYSICAL STANDBY", Status := "MOUNTED",
    Licenses := [{ Name := "L1", Count := 3 }] }

/-- The inventory answers with the single open primary `primaryErcole`; alerts
are marshalled and accepted. -/
def exampleDataService : HostDataService where
  Get := .ok { StatusCode := 200, Decode := .ok [primaryErcole] }
  Marshal := fun alert => .ok alert.Description
  Post := fun _ => .ok 200
  TimeNow := 0

/-- Count of the first license entry called `name`, if there is one. -/
def firstCount : List OracleDatabaseLicense → String → Option ℚ
  | [], _ => none
  | l :: ls, name => if l.Name = name then some l.Count else firstCount ls name

/-- A second open primary database ERCOLE (id 1), holding license L9 with
count 1. -/
def primaryErcoleTwin : OracleDatabase :=
  { Name := "ERCOLE", DbID := 1, Role := "PRIMARY", Status := "OPEN",
    Licenses := [{ Name := "L9", Count := 1 }] }

/-- An open primary database of another identity. -/
def primaryOther : OracleDatabase :=
  { Name := "OTHER", DbID := 2, Role := "PRIMARY", Status := "OPEN",
    Licenses := [{ Name := "L5", Count := 6 }] }

/-- The open primaries answered by `twinDataService`. -/
def twinPrimaries : List OracleDatabase := [primaryOther, primaryErcole, primaryErcoleTwin]

/-- The inventory answers with an open primary of another identity and two open
primaries of the same identity, `primaryErcole` before `primaryErcoleTwin`. -/
def twinDataService : HostDataService where
  Get := .ok { StatusCode := 200, Decode := .ok twinPrimaries }
  Marshal := fun alert => .ok alert.Description
  Post := fun _ => .ok 200
  TimeNow := 0

/-- The inventory answers with a mounted standby, an open primary and an open
standby. -/
def mixedDataService : HostDataService where
  Get := .ok { StatusCode := 200, Decode := .ok [standbyErcole, primaryErcole, standbyOpen] }
  Marshal := fun alert => .ok alert.Description
  Post := fun _ => .ok 200
  TimeNow := 0

/-- As `exampleService`, but the parts catalogue cannot be read. -/
def failingPartsService : APIService where
  ListOracleDatabaseAgreements := exampleService.ListOracleDatabaseAgreements
  ListHostUsingOracleDatabaseLicenses := exampleService.ListHostUsingOracleDatabaseLicenses
  assignOracleDatabaseAgreementsToHosts := assignNothing
  GetOracleDatabaseParts := .error "connection closed"

/-- As `exampleService`, but the catalogue only knows another part. -/
def uncataloguedService : APIService where
  ListOracleDatabaseAgreements := exampleService.ListOracleDatabaseAgreements
  ListHostUsingOracleDatabaseLicenses := exampleService.ListHostUsingOracleDatabaseLicenses
  assignOracleDatabaseAgreementsToHosts := assignNothing
  GetOracleDatabaseParts := .ok
    [{ PartID := "L76084", ItemDescription := "Real Application Clusters One Node",
       Metric := "Processor Perpetual" }]

/-- The group after one more host: what `addToGroup` stores under the key of
the host, given what was stored before. -/
def mergeGroup (stored : Option UsageGroup) (usage : HostUsage) : UsageGroup :=
  match stored with
  | none => { license := usage.count, cluster_cpu := usage.cluster_cpu }
  | some group =>
    { license := max group.license usage.count
      cluster_cpu := maxSkippingNull group.cluster_cpu usage.cluster_cpu }

/-- The group accumulated from the hosts `members`, starting from `stored`. -/
def accumulateGroup (stored : Option UsageGroup) (members : List HostUsage) :
    Option UsageGroup :=
  members.foldl (fun acc usage => some (mergeGroup acc usage)) stored

/-- Host `h1` with one database holding license L1 with count 3. -/
def hostThree : HostDocument :=
  { hostname := "h1"
    databases := [{ name := "db1", licenses := [{ Name := "L1", Count := 3 }] }] }

/-- Host `h2` with one database holding license L1 with count 5. -/
def hostFive : HostDocument :=
  { hostname := "h2"
    databases := [{ name := "db2", licenses := [{ Name := "L1", Count := 5 }] }] }

/-- Cluster X of `h1` and `h2` with an aggregate CPU figure of 16. -/
def clusterSixteen : ClusterDocument := { name := "X", cpu := some 16, vms := ["h1", "h2"] }

/-- Cluster X of `h1` and `h2` whose aggregate CPU figure is 0. -/
def clusterZero : ClusterDocument := { name := "X", cpu := some 0, vms := ["h1", "h2"] }

/-- Cluster X of `h1` and `h2` without aggregate CPU figure. -/
def clusterBare : ClusterDocument := { name := "X", cpu := none, vms := ["h1", "h2"] }

/-- The two hosts of the examples as they leave the inner pipeline, for a
cluster X with the CPU figure `cpu`. -/
def usagesInCluster (cpu : Option ℚ) : List HostUsage :=
  [{ hostname := "h1", count := 3, cluster_name := some "X", cluster_cpu := cpu },
   { hostname := "h2", count := 5, cluster_name := some "X", cluster_cpu := cpu }]

/-- A store holding 10 licenses L1, the hosts `h1` and `h2` and the given
clusters. -/
def statsStore (clusters : List ClusterDocument) : MongoDatabase :=
  { licenses := [{ id := "L1", count := 10 }]
    hosts := [hostThree, hostFive]
    currentClusters := clusters }

/-- Two hosts consuming two different parts, no agreement. -/
def twoPartsService : APIService where
  ListOracleDatabaseAgreements := .ok []
  ListHostUsingOracleDatabaseLicenses := .ok
    [{ Name := "h1", PartID := "A90611", OriginalCount := 4 },
     { Name := "h2", PartID := "L76084", OriginalCount := 2 }]
  assignOracleDatabaseAgreementsToHosts := assignNothing
  GetOracleDatabaseParts := .ok []

/-- The entry of part L76084 in the result of `twoPartsService`. -/
def secondUsage : OracleDatabaseLicenseUsage :=
  { PartID := "L76084", Consumed := 2, Covered := 0, Compliance := 0 }

/-! ## api-service: looking up one part -/

/-- Modelled from the spec: the value of the constant
`utils.AerrOracleDatabaseAgreementInvalidPartID` is not among the sources. -/
def AerrOracleDatabaseAgreementInvalidPartID : AdvancedError :=
  { Err := some "Invalid PartID", Class := "Invalid agreement" }

/-- The loop of `GetOraclePart`: the first part of the catalogue whose `PartID`
is `partID`. -/
def findPart : List OracleDatabasePart → String → Option OracleDatabasePart
  | [], _ => none
  | part :: parts, partID => if partID = part.PartID then some part else findPart parts partID

/-- Go `GetOraclePart`. -/
def GetOraclePart (as : APIService) (partID : String) :
    Except AdvancedError OracleDatabasePart :=
  match as.GetOracleDatabaseParts with
  | .error err => .error (NewAdvancedErrorPtr (some err) "DB ERROR")
  | .ok parts =>
    match findPart parts partID with
    | some part => .ok part
    | none => .error AerrOracleDatabaseAgreementInvalidPartID

/-- The last part of the catalogue whose `PartID` is `partID`. -/
def lastPart : List OracleDatabasePart → String → Option OracleDatabasePart
  | [], _ => none
  | part :: parts, partID =>
    match lastPart parts partID with
    | some later => some later
    | none => if part.PartID = partID then some part else none

/-- The catalogue of `exampleService`. -/
def exampleCatalogue : List OracleDatabasePart :=
  [{ PartID := "A90611", ItemDescription := "Oracle Database Enterprise Edition",
     Metric := "Processor Perpetual" }]

/-- A catalogue listing part A90611 twice, with two metrics. -/
def duplicateCatalogue : List OracleDatabasePart :=
  [{ PartID := "A90611", ItemDescription := "Oracle Database Enterprise Edition",
     Metric := "Processor Perpetual" },
   { PartID := "A90611", ItemDescription := "Oracle Database Enterprise Edition",
     Metric := "Named User Plus Perpetual" }]

/-- A service whose catalogue is `duplicateCatalogue`. -/
def duplicateCatalogueService : APIService where
  ListOracleDatabaseAgreements := .ok []
  ListHostUsingOracleDatabaseLicenses := .ok []
  assignOracleDatabaseAgreementsToHosts := assignNothing
  GetOracleDatabaseParts := .ok duplicateCatalogue

/-! ## utils -/

/-- Modelled from the spec: `utils.NewError` is not among the sources; it wraps
an error with a message. -/
def NewError (err : String) (msg : String) : AdvancedError :=
  { Err := some err, Class := msg }

/-- Go `Difference`: the set `mb` of the elements of `b`, then the elements of
`a` that are not found in it. -/
def Difference (a b : List String) : List String :=
  let mb := b.foldl (fun (mb : GoMap Unit) x => mb.set x ()) []
  a.foldl (fun diff x =>
    match mb.get? x with
    | some _ => diff
    | none => diff ++ [x]) []

/-- Go `Remove`: `append(slice[:i], slice[i+1:]...)`; `none` when one of the two
slice expressions panics, that is unless `0 <= i < len(slice)`. The call also
overwrites the backing array of `slice`; only the returned slice is described. -/
def Remove (slice : List String) (i : Int) : Option (List String) :=
  if 0 ≤ i ∧ i < slice.length then
    some (slice.take i.toNat ++ slice.drop (i.toNat + 1))
  else none

/-- The value of a decimal digit, `none` for any other character. -/
def digitValue (c : Char) : Option Nat :=
  if '0' ≤ c ∧ c ≤ '9' then some (c.toNat - '0'.toNat) else none

/-- The digit loop of Go `strconv.ParseUint` in base 10, without the bound:
`none` on a character that is not a decimal digit. -/
def parseDigits : List Char → Nat → Option Nat
  | [], n => some n
  | c :: cs, n =>
    match digitValue c with
    | some d => parseDigits cs (n * 10 + d)
    | none => none

/-- Go `strconv.ParseInt(s, 10, 32)` (standard library): an optional sign, then
at least one decimal digit, and a value between -2^31 and 2^31 - 1; a syntax
error or a range error otherwise. -/
def ParseInt (s : String) : Except String Int :=
  let parse (neg : Bool) (digits : List Char) : Except String Int :=
    match digits with
    | [] => .error "invalid syntax"
    | _ =>
      match parseDigits digits 0 with
      | none => .error "invalid syntax"
      | some un =>
        if !neg ∧ un ≥ 2 ^ 31 then .error "value out of range"
        else if neg ∧ un > 2 ^ 31 then .error "value out of range"
        else .ok (if neg then -(un : Int) else (un : Int))
  match s.data with
  | [] => .error "invalid syntax"
  | '+' :: digits => parse false digits
  | '-' :: digits => parse true digits
  | digits => parse false digits

/-- Go `Str2int`: the value and the error (`none` is a nil error). -/
def Str2int (str : String) (defaultValue : Int) : Int × Option AdvancedError :=
  if str = "" then (defaultValue, none)
  else
    match ParseInt str with
    | .error err => (-1, some (NewError err "Unable to parse string to int"))
    | .ok val => (val, none)

/-! ## api-service: the controller of the license types -/

/-- Modelled from the spec: `model.OracleDatabaseLicenseType` is not among the
sources. -/
structure OracleDatabaseLicenseType where
  ID : String := ""
  ItemDescription : String := ""
  Metric : String := ""
  deriving DecidableEq

/-- What `ctrl.Service.DeleteOracleDatabaseLicenseType` answers: nil, an error
for which `errors.Is(err, utils.ErrOracleDatabaseLicenseTypeIDNotFound)` holds,
or another error. -/
inductive DeleteOutcome where
  | done
  | idNotFound (err : AdvancedError)
  | failed (err : AdvancedError)
  deriving DecidableEq

/-- The operations of the service on the license types (their code is not among
the sources): each one answers and leaves a new state of the store `σ`. -/
structure LicenseTypeService (σ : Type) where
  DeleteOracleDatabaseLicenseType : String → σ → DeleteOutcome × σ
  AddOracleDatabaseLicenseType :
    OracleDatabaseLicenseType → σ → Except AdvancedError OracleDatabaseLicenseType × σ
  UpdateOracleDatabaseLicenseType :
    OracleDatabaseLicenseType → σ → Except AdvancedError OracleDatabaseLicenseType × σ

/-- The controller: `Config.APIService.ReadOnly` and the service. -/
structure APIController (σ : Type) where
  ReadOnly : Bool
  Service : LicenseTypeService σ

/-- What a handler reads of the request: the route variable `id` and the outcome
of decoding the body as a license type. -/
structure LicenseTypeRequest where
  id : String := ""
  Body : Except String OracleDatabaseLicenseType := .error "EOF"

/-- A call of an operation of the service. -/
inductive ServiceCall where
  | delete (id : String)
  | add (req : OracleDatabaseLicenseType)
  | update (req : OracleDatabaseLicenseType)
  deriving DecidableEq

/-- What is written to the response. -/
inductive ResponseBody where
  /-- Go `utils.WriteAndLogError(ctrl.Log, w, status, err)`. -/
  | error (err : AdvancedError)
  /-- Go `utils.WriteJSONResponse(w, status, lt)`. -/
  | licenseType (lt : OracleDatabaseLicenseType)
  /-- Go `utils.WriteJSONResponse(w, status, nil)`. -/
  | null
  deriving DecidableEq

/-- The outcome of a handler: status and body of the response, the calls of the
service it made, and the state of the store afterwards. -/
structure HandlerOutcome (σ : Type) where
  Status : Nat
  Body : ResponseBody
  Calls : List ServiceCall
  Store : σ

/-- The error written by the three handlers in read-only mode. -/
def readOnlyError : AdvancedError :=
  NewError "The API is disabled because the service is put in read-only mode"
    "FORBIDDEN_REQUEST"

/-- Go `DeleteOracleDatabaseLicenseType` of the controller. -/
def APIController.DeleteOracleDatabaseLicenseType {σ : Type} (ctrl : APIController σ)
    (r : LicenseTypeRequest) (store : σ) : HandlerOutcome σ :=
  if ctrl.ReadOnly then
    { Status := 403, Body := .error readOnlyError, Calls := [], Store := store }
  else
    let id := r.id
    match ctrl.Service.DeleteOracleDatabaseLicenseType id store with
    | (.idNotFound err, store2) =>
      { Status := 404, Body := .error err, Calls := [.delete id], Store := store2 }
    | (.failed err, store2) =>
      { Status := 500, Body := .error err, Calls := [.delete id], Store := store2 }
    | (.done, store2) =>
      { Status := 200, Body := .null, Calls := [.delete id], Store := store2 }

/-- Go `AddOracleDatabaseLicenseType` of the controller. -/
def APIController.AddOracleDatabaseLicenseType {σ : Type} (ctrl : APIController σ)
    (r : LicenseTypeRequest) (store : σ) : HandlerOutcome σ :=
  if ctrl.ReadOnly then
    { Status := 403, Body := .error readOnlyError, Calls := [], Store := store }
  else
    match r.Body with
    | .error err =>
      { Status := 400, Body := .error (NewError err "Bad Request"), Calls := [], Store := store }
    | .ok req =>
      match ctrl.Service.AddOracleDatabaseLicenseType req store with
      | (.error err, store2) =>
        { Status := 500, Body := .error err, Calls := [.add req], Store := store2 }
      | (.ok lt, store2) =>
        { Status := 200, Body := .licenseType lt, Calls := [.add req], Store := store2 }

/-- Go `UpdateOracleDatabaseLicenseType` of the controller. -/
def APIController.UpdateOracleDatabaseLicenseType {σ : Type} (ctrl : APIController σ)
    (r : LicenseTypeRequest) (store : σ) : HandlerOutcome σ :=
  if ctrl.ReadOnly then
    { Status := 403, Body := .error readOnlyError, Calls := [], Store := store }
  else
    match r.Body with
    | .error err =>
      { Status := 400, Body := .error (NewError err "Bad Request"), Calls := [], Store := store }
    | .ok req =>
      match ctrl.Service.UpdateOracleDatabaseLicenseType req store with
      | (.error err, store2) =>
        { Status := 500, Body := .error err, Calls := [.update req], Store := store2 }
      | (.ok lt, store2) =>
        { Status := 200, Body := .licenseType lt, Calls := [.update req], Store := store2 }

/-- A service on a store that is the list of the license types: delete by `ID`,
add at the end, replace by `ID`. -/
def listService : LicenseTypeService (List OracleDatabaseLicenseType) where
  DeleteOracleDatabaseLicenseType := fun id store =>
    if store.any (fun lt => decide (lt.ID = id)) then
      (.done, store.filter (fun lt => decide (lt.ID ≠ id)))
    else (.idNotFound (NewError "not found" "NOT_FOUND"), store)
  AddOracleDatabaseLicenseType := fun req store => (.ok req, store ++ [req])
  UpdateOracleDatabaseLicenseType := fun req store =>
    (.ok req, store.map (fun lt => if lt.ID = req.ID then req else lt))

/-- A store of one license type. -/
def oneLicenseType : List OracleDatabaseLicenseType :=
  [{ ID := "A90611", ItemDescription := "Oracle Database Enterprise Edition",
     Metric := "Processor Perpetual" }]

/-! ## thunder-service: unused load balancers -/

/-- Modelled from the spec: `model.OciCompartment` is not among the sources. -/
structure OciCompartment where
  CompartmentId : String := ""
  Name : String := ""
  deriving DecidableEq

/-- Modelled from the spec: `model.OciErcoleRecommendation` is not among the
sources; the fields set by `GetOciUnusedLoadBalancers`. -/
structure OciErcoleRecommendation where
  /-- The field `Type` of the Go structure. -/
  RecommendationType : String := ""
  CompartmentID : String := ""
  Name : String := ""
  ResourceID : String := ""
  deriving DecidableEq

/-- Modelled from the spec: the constant `model.RecommendationTypeUnusedResource`
is not among the sources. -/
def RecommendationTypeUnusedResource : String := "Unused Resource"

/-- An item of the answer of `ListLoadBalancerHealths` (OCI SDK). -/
structure LoadBalancerHealthSummary where
  LoadBalancerId : String
  Status : String
  deriving DecidableEq

/-- An item of the answer of `ListLoadBalancers` (OCI SDK). -/
structure LoadBalancer where
  Id : String
  DisplayName : String
  deriving DecidableEq

/-- What the collaborators of `GetOciUnusedLoadBalancers` answer. -/
structure ThunderService where
  /-- Go `as.GetOciCompartments(profiles)`. -/
  GetOciCompartments : List String → Except String (List OciCompartment)
  /-- Go `loadbalancer.NewLoadBalancerClientWithConfigurationProvider(...)`:
  `some err` when the client cannot be built. -/
  NewLoadBalancerClient : Option String
  /-- Go `lbClient.ListLoadBalancerHealths` for a compartment. -/
  ListLoadBalancerHealths : String → Except String (List LoadBalancerHealthSummary)
  /-- Go `lbClient.ListLoadBalancers` for a compartment. -/
  ListLoadBalancers : String → Except String (List LoadBalancer)

/-- The variables `tempListRec`, `listRec` and `merr` (the errors appended so
far; the empty list is a nil error). -/
structure UnusedLoadBalancersState where
  tempListRec : GoMap OciErcoleRecommendation := []
  listRec : List OciErcoleRecommendation := []
  merr : List String := []

/-- The loop `for _, s := range resp.Items` for one item. -/
def recordUnhealthy (compartment : OciCompartment) (state : UnusedLoadBalancersState)
    (s : LoadBalancerHealthSummary) : UnusedLoadBalancersState :=
  if s.Status = "CRITICAL" ∨ s.Status = "UNKNOWN" then
    let recommendation : OciErcoleRecommendation :=
      { RecommendationType := RecommendationTypeUnusedResource
        CompartmentID := compartment.CompartmentId
        Name := ""
        ResourceID := s.LoadBalancerId }
    { state with
      tempListRec := state.tempListRec.set s.LoadBalancerId recommendation
      listRec := state.listRec ++ [recommendation] }
  else state

/-- The loop `for _, r := range resp1.Items` for one item. -/
def nameRecorded (state : UnusedLoadBalancersState) (r : LoadBalancer) :
    UnusedLoadBalancersState :=
  match state.tempListRec.get? r.Id with
  | some rec => { state with listRec := state.listRec ++ [{ rec with Name := r.DisplayName }] }
  | none => state

/-- The body of the loop over the compartments. -/
def visitCompartment (as : ThunderService) (state : UnusedLoadBalancersState)
    (compartment : OciCompartment) : UnusedLoadBalancersState :=
  match as.ListLoadBalancerHealths compartment.CompartmentId with
  | .error err => { state with merr := state.merr ++ [err] }
  | .ok items =>
    let state1 := items.foldl (recordUnhealthy compartment) state
    match as.ListLoadBalancers compartment.CompartmentId with
    | .error err => { state1 with merr := state1.merr ++ [err] }
    | .ok items1 => items1.foldl nameRecorded state1

/-- Go `GetOciUnusedLoadBalancers`: the list returned (`none` is nil) and the
errors collected in `merr`. -/
def GetOciUnusedLoadBalancers (as : ThunderService) (profiles : List String) :
    Option (List OciErcoleRecommendation) × List String :=
  match as.GetOciCompartments profiles with
  | .error err => (none, [err])
  | .ok listCompartments =>
    match as.NewLoadBalancerClient with
    | some err => (none, [err])
    | none =>
      let state := listCompartments.foldl (visitCompartment as) {}
      (some state.listRec, state.merr)

/-- One compartment `c1` with the load balancer `lb1`, called `frontend`, whose
health is CRITICAL, and the load balancer `lb2`, called `backend`, whose health
is OK. -/
def oneCompartmentService : ThunderService where
  GetOciCompartments := fun _ => .ok [{ CompartmentId := "c1", Name := "main" }]
  NewLoadBalancerClient := none
  ListLoadBalancerHealths := fun _ =>
    .ok [{ LoadBalancerId := "lb1", Status := "CRITICAL" },
         { LoadBalancerId := "lb2", Status := "OK" }]
  ListLoadBalancers := fun _ =>
    .ok [{ Id := "lb1", DisplayName := "frontend" }, { Id := "lb2", DisplayName := "backend" }]

/-! ## Go maps: basic facts -/

namespace GoMap

theorem get?_set_self {V : Type} (m : GoMap V) (k : String) (v : V) :
    (m.set k v).get? k = some v := by
  induction m with
  | nil => simp [set, get?]
  | cons p m ih =>
    obtain ⟨k', v'⟩ := p
    by_cases h : k' = k
    · simp [set, get?, h]
    · simp [set, get?, h, ih]

theorem get?_set_ne {V : Type} (m : GoMap V) (k k2 : String) (v : V) (hne : k ≠ k2) :
    (m.set k v).get? k2 = m.get? k2 := by
  induction m with
  | nil => simp [set, get?, hne]
  | cons p m ih =>
    obtain ⟨k', v'⟩ := p
    by_cases h : k' = k
    · subst h
      simp [set, get?, hne]
    · by_cases h2 : k' = k2
      · subst h2
        simp [set, get?, h]
      · simp [set, get?, h, h2, ih]

theorem keys_set {V : Type} (m : GoMap V) (k : String) (v : V) :
    (m.set k v).keys = if k ∈ m.keys then m.keys else m.keys ++ [k] := by
  induction m with
  | nil => simp [set, keys]
  | cons p m ih =>
    obtain ⟨k', v'⟩ := p
    by_cases h : k' = k
    · subst h
      simp [set, keys]
    · have hk : ¬ k = k' := fun e => h e.symm
      simp only [keys] at ih
      by_cases hm : k ∈ List.map Prod.fst m
      · simp [set, keys, h, hk, hm, ih]
      · simp [set, keys, h, hk, hm, ih]

theorem keys_set_nodup {V : Type} (m : GoMap V) (k : String) (v : V)
    (h : m.keys.Nodup) : (m.set k v).keys.Nodup := by
  rw [keys_set]
  split
  · exact h
  · rename_i hk
    exact List.Nodup.append h (List.nodup_singleton k) (by simpa using hk)

theorem get?_of_mem {V : Type} (m : GoMap V) (h : m.keys.Nodup) (p : String × V)
    (hp : p ∈ m) : m.get? p.1 = some p.2 := by
  induction m with
  | nil => simp at hp
  | cons q m ih =>
    obtain ⟨k', v'⟩ := q
    simp only [keys, List.map_cons, List.nodup_cons] at h
    rcases List.mem_cons.mp hp with hq | hq
    · subst hq
      simp [get?]
    · have hne : ¬ k' = p.1 := by
        intro e
        apply h.1
        rw [e]
        exact List.mem_map_of_mem Prod.fst hq
      simp only [get?, hne, if_false]
      exact ih h.2 hq

theorem mem_keys_iff_get? {V : Type} (m : GoMap V) (k : String) :
    k ∈ m.keys ↔ ∃ v, m.get? k = some v := by
  induction m with
  | nil => simp [keys, get?]
  | cons q m ih =>
    obtain ⟨k', v'⟩ := q
    by_cases h : k' = k
    · simp [keys, get?, h]
    · have hk : ¬ k = k' := fun e => h e.symm
      simp only [keys] at ih
      simp [keys, get?, h, hk, ih]

end GoMap

/-! ## License compliance: the map after the two loops -/

theorem usageAt_set (m : GoMap OracleDatabaseLicenseUsage) (k k2 : String)
    (v : OracleDatabaseLicenseUsage) :
    usageAt (m.set k v) k2 = if k = k2 then v else usageAt m k2 := by
  by_cases h : k = k2
  · subst h
    simp [usageAt, GoMap.get?_set_self]
  · simp [usageAt, GoMap.get?_set_ne m k k2 v h, h]

theorem consumeHost_eq (m : GoMap OracleDatabaseLicenseUsage)
    (host : HostUsingOracleDatabaseLicenses) :
    consumeHost m host = m.set host.PartID
      { usageAt m host.PartID with
        Consumed := (usageAt m host.PartID).Consumed + host.OriginalCount } := by
  unfold consumeHost usageAt
  cases m.get? host.PartID <;> rfl

theorem coverAgreement_eq (m : GoMap OracleDatabaseLicenseUsage)
    (agreement : OracleDatabaseAgreementFE) :
    coverAgreement m agreement = m.set agreement.PartID
      (addCovered (markUnlimited (usageAt m agreement.PartID) agreement) agreement.Hosts) := by
  unfold coverAgreement usageAt
  cases m.get? agreement.PartID <;> rfl

theorem addCovered_eq (license : OracleDatabaseLicenseUsage)
    (hosts : List OracleDatabaseAgreementAssociatedHostFE) :
    addCovered license hosts =
      { license with
        Covered := license.Covered + (hosts.map (fun h => h.CoveredLicensesCount)).sum } := by
  unfold addCovered
  induction hosts generalizing license with
  | nil => simp
  | cons h hs ih =>
    rw [List.foldl_cons, ih]
    simp [add_assoc]

theorem usageAt_consumeHosts (hosts : List HostUsingOracleDatabaseLicenses)
    (m : GoMap OracleDatabaseLicenseUsage) (k : String) :
    usageAt (hosts.foldl consumeHost m) k =
      { usageAt m k with Consumed := (usageAt m k).Consumed + consumedOf hosts k } := by
  induction hosts generalizing m with
  | nil => simp [consumedOf]
  | cons h hs ih =>
    rw [List.foldl_cons, ih, consumeHost_eq, usageAt_set]
    by_cases hk : h.PartID = k
    · subst hk
      simp [consumedOf, add_assoc]
    · simp [consumedOf, hk]

theorem usageAt_coverAgreements (agreements : List OracleDatabaseAgreementFE)
    (m : GoMap OracleDatabaseLicenseUsage) (k : String) :
    usageAt (agreements.foldl coverAgreement m) k =
      { usageAt m k with
        Covered := (usageAt m k).Covered + coveredOf agreements k
        Unlimited := (usageAt m k).Unlimited || unlimitedOf agreements k } := by
  induction agreements generalizing m with
  | nil => simp [coveredOf, unlimitedOf]
  | cons a as ih =>
    rw [List.foldl_cons, ih, coverAgreement_eq, usageAt_set]
    by_cases hk : a.PartID = k
    · subst hk
      rw [addCovered_eq]
      cases hu : a.Unlimited <;>
        simp [coveredOf, unlimitedOf, markUnlimited, coveredByAgreement, hu, add_assoc]
    · simp [coveredOf, unlimitedOf, hk]

/-- The entry of part `k` after the two loops. -/
theorem usageAt_licensesMap (agreements : List OracleDatabaseAgreementFE)
    (hosts : List HostUsingOracleDatabaseLicenses) (k : String) :
    usageAt (licensesMap agreements hosts) k =
      { PartID := k, Consumed := consumedOf hosts k, Covered := coveredOf agreements k,
        Unlimited := unlimitedOf agreements k } := by
  unfold licensesMap
  rw [usageAt_coverAgreements, usageAt_consumeHosts]
  simp [usageAt, GoMap.get?]

theorem consumeHosts_keys_nodup (hosts : List HostUsingOracleDatabaseLicenses)
    (m : GoMap OracleDatabaseLicenseUsage) (h : m.keys.Nodup) :
    (hosts.foldl consumeHost m).keys.Nodup := by
  induction hosts generalizing m with
  | nil => simpa using h
  | cons x xs ih =>
    rw [List.foldl_cons]
    apply ih
    rw [consumeHost_eq]
    exact GoMap.keys_set_nodup _ _ _ h

theorem coverAgreements_keys_nodup (agreements : List OracleDatabaseAgreementFE)
    (m : GoMap OracleDatabaseLicenseUsage) (h : m.keys.Nodup) :
    (agreements.foldl coverAgreement m).keys.Nodup := by
  induction agreements generalizing m with
  | nil => simpa using h
  | cons x xs ih =>
    rw [List.foldl_cons]
    apply ih
    rw [coverAgreement_eq]
    exact GoMap.keys_set_nodup _ _ _ h

theorem licensesMap_keys_nodup (agreements : List OracleDatabaseAgreementFE)
    (hosts : List HostUsingOracleDatabaseLicenses) :
    (licensesMap agreements hosts).keys.Nodup := by
  unfold licensesMap
  apply coverAgreements_keys_nodup
  apply consumeHosts_keys_nodup
  simp [GoMap.keys]

/-- Every value stored in the map after the two loops is the record of its
part: its identifier, the consumed total, the covered total and the unlimited
flag of that part. -/
theorem licensesMap_value (agreements : List OracleDatabaseAgreementFE)
    (hosts : List HostUsingOracleDatabaseLicenses) (l : OracleDatabaseLicenseUsage)
    (hl : l ∈ (licensesMap agreements hosts).map Prod.snd) :
    l = { PartID := l.PartID, Consumed := consumedOf hosts l.PartID,
          Covered := coveredOf agreements l.PartID,
          Unlimited := unlimitedOf agreements l.PartID } := by
  obtain ⟨p, hp, rfl⟩ := List.mem_map.mp hl
  have hget := GoMap.get?_of_mem _ (licensesMap_keys_nodup agreements hosts) p hp
  have hu := usageAt_licensesMap agreements hosts p.1
  simp only [usageAt, hget, Option.getD_some] at hu
  have hid : p.2.PartID = p.1 := by rw [hu]
  rw [hid]
  exact hu

/-- The entries of a successful result are the finished values of the map built
from the agreements and host usage records left by the assignment step. -/
theorem mem_result (as : APIService) (order : MapOrder)
    (result : List OracleDatabaseLicenseUsage)
    (hres : GetOracleDatabaseLicensesCompliance as order = .ok result)
    (agreements0 : List OracleDatabaseAgreementFE)
    (hosts0 : List HostUsingOracleDatabaseLicenses)
    (hags : as.ListOracleDatabaseAgreements = .ok agreements0)
    (hhs : as.ListHostUsingOracleDatabaseLicenses = .ok hosts0)
    (agreements : List OracleDatabaseAgreementFE)
    (hosts : List HostUsingOracleDatabaseLicenses)
    (hassign : as.assignOracleDatabaseAgreementsToHosts agreements0 hosts0 =
      .ok (agreements, hosts))
    (e : OracleDatabaseLicenseUsage) (he : e ∈ result) :
    ∃ parts l, l ∈ (licensesMap agreements hosts).map Prod.snd ∧ e = finishLicense parts l := by
  unfold GetOracleDatabaseLicensesCompliance at hres
  rw [hags, hhs] at hres
  simp only [hassign] at hres
  cases hp : GetOracleDatabaseAgreementPartsMap as with
  | error err => simp [hp] at hres
  | ok parts =>
    simp only [hp, Except.ok.injEq] at hres
    subst hres
    obtain ⟨l, hl, rfl⟩ := List.mem_map.mp he
    exact ⟨parts, l, (order.perm _).mem_iff.mp hl, rfl⟩

theorem mem_keys_set {V : Type} (m : GoMap V) (k k2 : String) (v : V) :
    k2 ∈ (m.set k v).keys ↔ k2 ∈ m.keys ∨ k2 = k := by
  rw [GoMap.keys_set]
  split
  · rename_i hk
    constructor
    · exact Or.inl
    · rintro (h | h)
      · exact h
      · rw [h]; exact hk
  · simp

theorem mem_keys_consumeHosts (hosts : List HostUsingOracleDatabaseLicenses)
    (m : GoMap OracleDatabaseLicenseUsage) (k : String) :
    k ∈ (hosts.foldl consumeHost m).keys ↔ k ∈ m.keys ∨ ∃ h ∈ hosts, h.PartID = k := by
  induction hosts generalizing m with
  | nil => simp
  | cons x xs ih =>
    rw [List.foldl_cons, ih, consumeHost_eq, mem_keys_set]
    simp only [List.mem_cons, exists_eq_or_imp]
    constructor
    · rintro ((h | h) | h)
      · exact Or.inl h
      · exact Or.inr (Or.inl h.symm)
      · exact Or.inr (Or.inr h)
    · rintro (h | h | h)
      · exact Or.inl (Or.inl h)
      · exact Or.inl (Or.inr h.symm)
      · exact Or.inr h

theorem mem_keys_coverAgreements (agreements : List OracleDatabaseAgreementFE)
    (m : GoMap OracleDatabaseLicenseUsage) (k : String) :
    k ∈ (agreements.foldl coverAgreement m).keys ↔
      k ∈ m.keys ∨ ∃ a ∈ agreements, a.PartID = k := by
  induction agreements generalizing m with
  | nil => simp
  | cons x xs ih =>
    rw [List.foldl_cons, ih, coverAgreement_eq, mem_keys_set]
    simp only [List.mem_cons, exists_eq_or_imp]
    constructor
    · rintro ((h | h) | h)
      · exact Or.inl h
      · exact Or.inr (Or.inl h.symm)
      · exact Or.inr (Or.inr h)
    · rintro (h | h | h)
      · exact Or.inl (Or.inl h)
      · exact Or.inl (Or.inr h.symm)
      · exact Or.inr h

/-- The keys of the map after the two loops are the part identifiers of the host
usage records and of the agreements. -/
theorem mem_keys_licensesMap (agreements : List OracleDatabaseAgreementFE)
    (hosts : List HostUsingOracleDatabaseLicenses) (k : String) :
    k ∈ (licensesMap agreements hosts).keys ↔
      (∃ h ∈ hosts, h.PartID = k) ∨ ∃ a ∈ agreements, a.PartID = k := by
  unfold licensesMap
  rw [mem_keys_coverAgreements, mem_keys_consumeHosts]
  simp [GoMap.keys]

/-- A part identifier occurring among the host usage records or the agreements
has a value in the map whose `PartID` is that identifier. -/
theorem licensesMap_has_value (agreements : List OracleDatabaseAgreementFE)
    (hosts : List HostUsingOracleDatabaseLicenses) (k : String)
    (hk : (∃ h ∈ hosts, h.PartID = k) ∨ ∃ a ∈ agreements, a.PartID = k) :
    ∃ l ∈ (licensesMap agreements hosts).map Prod.snd, l.PartID = k := by
  have hmem := (mem_keys_licensesMap agreements hosts k).mpr hk
  obtain ⟨p, hp, hpk⟩ := List.mem_map.mp hmem
  refine ⟨p.2, List.mem_map_of_mem Prod.snd hp, ?_⟩
  have hget := GoMap.get?_of_mem _ (licensesMap_keys_nodup agreements hosts) p hp
  have hu := usageAt_licensesMap agreements hosts p.1
  simp only [usageAt, hget, Option.getD_some] at hu
  rw [hu]
  exact hpk

theorem finishLicense_fields (parts : GoMap OracleDatabasePart)
    (l : OracleDatabaseLicenseUsage) :
    (finishLicense parts l).PartID = l.PartID ∧
    (finishLicense parts l).Consumed = l.Consumed ∧
    (finishLicense parts l).Covered = l.Covered ∧
    (finishLicense parts l).Unlimited = l.Unlimited ∧
    (finishLicense parts l).Compliance =
      if l.Consumed = 0 then 1 else l.Covered / l.Consumed := by
  unfold finishLicense
  by_cases h : l.Consumed = 0 <;> simp [h]

/-- Every entry of a successful result is a finished record. -/
theorem result_finished (as : APIService) (order : MapOrder)
    (result : List OracleDatabaseLicenseUsage)
    (hres : GetOracleDatabaseLicensesCompliance as order = .ok result)
    (e : OracleDatabaseLicenseUsage) (he : e ∈ result) :
    ∃ parts l, e = finishLicense parts l := by
  unfold GetOracleDatabaseLicensesCompliance at hres
  split at hres
  · simp at hres
  · split at hres
    · simp at hres
    · split at hres
      · simp at hres
      · split at hres
        · simp at hres
        · rename_i parts _
          simp only [Except.ok.injEq] at hres
          subst hres
          obtain ⟨l, _, rfl⟩ := List.mem_map.mp he
          exact ⟨parts, l, rfl⟩

/-- Every finished value of the map occurs in a successful result. -/
theorem result_complete (as : APIService) (order : MapOrder)
    (result : List OracleDatabaseLicenseUsage)
    (hres : GetOracleDatabaseLicensesCompliance as order = .ok result)
    (agreements0 : List OracleDatabaseAgreementFE)
    (hosts0 : List HostUsingOracleDatabaseLicenses)
    (hags : as.ListOracleDatabaseAgreements = .ok agreements0)
    (hhs : as.ListHostUsingOracleDatabaseLicenses = .ok hosts0)
    (agreements : List OracleDatabaseAgreementFE)
    (hosts : List HostUsingOracleDatabaseLicenses)
    (hassign : as.assignOracleDatabaseAgreementsToHosts agreements0 hosts0 =
      .ok (agreements, hosts))
    (l : OracleDatabaseLicenseUsage) (hl : l ∈ (licensesMap agreements hosts).map Prod.snd) :
    ∃ parts, finishLicense parts l ∈ result := by
  unfold GetOracleDatabaseLicensesCompliance at hres
  rw [hags, hhs] at hres
  simp only [hassign] at hres
  cases hp : GetOracleDatabaseAgreementPartsMap as with
  | error err => simp [hp] at hres
  | ok parts =>
    simp only [hp, Except.ok.injEq] at hres
    subst hres
    exact ⟨parts, List.mem_map_of_mem _ ((order.perm _).mem_iff.mpr hl)⟩

theorem exampleService_result :
    GetOracleDatabaseLicensesCompliance exampleService MapOrder.insertion =
      .ok [exampleUsage] := by
  simp [GetOracleDatabaseLicensesCompliance, exampleService, exampleUsage, assignNothing,
    MapOrder.insertion, licensesMap,
    consumeHost, coverAgreement, addCovered, markUnlimited, finishLicense, partsAt,
    GetOracleDatabaseAgreementPartsMap, GoMap.get?, GoMap.set]
  norm_num

theorem unlimitedService_result :
    GetOracleDatabaseLicensesCompliance unlimitedService MapOrder.insertion =
      .ok [unlimitedUsage] := by
  simp [GetOracleDatabaseLicensesCompliance, unlimitedService, unlimitedUsage, assignNothing,
    MapOrder.insertion, licensesMap,
    consumeHost, coverAgreement, addCovered, markUnlimited, finishLicense, partsAt,
    GetOracleDatabaseAgreementPartsMap, GoMap.get?, GoMap.set]
  norm_num

theorem uncoveredService_result :
    GetOracleDatabaseLicensesCompliance uncoveredService MapOrder.insertion =
      .ok [uncoveredUsage] := by
  simp [GetOracleDatabaseLicensesCompliance, uncoveredService, uncoveredUsage, assignNothing,
    MapOrder.insertion, licensesMap,
    consumeHost, coverAgreement, addCovered, markUnlimited, finishLicense, partsAt,
    GetOracleDatabaseAgreementPartsMap, GoMap.get?, GoMap.set]

/-- Every entry of a successful result carries the identifier of its part, the
consumed and covered totals of that part and its unlimited flag. -/
theorem result_entry (as : APIService) (order : MapOrder)
    (result : List OracleDatabaseLicenseUsage)
    (hres : GetOracleDatabaseLicensesCompliance as order = .ok result)
    (agreements0 : List OracleDatabaseAgreementFE)
    (hosts0 : List HostUsingOracleDatabaseLicenses)
    (hags : as.ListOracleDatabaseAgreements = .ok agreements0)
    (hhs : as.ListHostUsingOracleDatabaseLicenses = .ok hosts0)
    (agreements : List OracleDatabaseAgreementFE)
    (hosts : List HostUsingOracleDatabaseLicenses)
    (hassign : as.assignOracleDatabaseAgreementsToHosts agreements0 hosts0 =
      .ok (agreements, hosts))
    (e : OracleDatabaseLicenseUsage) (he : e ∈ result) :
    e.Consumed = consumedOf hosts e.PartID ∧ e.Covered = coveredOf agreements e.PartID ∧
    e.Unlimited = unlimitedOf agreements e.PartID ∧
    e.Compliance = (if e.Consumed = 0 then 1 else e.Covered / e.Consumed) ∧
    ((∃ h ∈ hosts, h.PartID = e.PartID) ∨ ∃ a ∈ agreements, a.PartID = e.PartID) := by
  obtain ⟨parts, l, hl, rfl⟩ :=
    mem_result as order result hres agreements0 hosts0 hags hhs agreements hosts hassign e he
  obtain ⟨hid, hc, hv, hu, hr⟩ := finishLicense_fields parts l
  have hval := licensesMap_value agreements hosts l hl
  have hkey : l.PartID ∈ (licensesMap agreements hosts).keys := by
    obtain ⟨p, hp, rfl⟩ := List.mem_map.mp hl
    have hget := GoMap.get?_of_mem _ (licensesMap_keys_nodup agreements hosts) p hp
    have hu2 := usageAt_licensesMap agreements hosts p.1
    simp only [usageAt, hget, Option.getD_some] at hu2
    have hpid : p.2.PartID = p.1 := by rw [hu2]
    rw [hpid]
    exact List.mem_map_of_mem Prod.fst hp
  rw [hid, hc, hv, hu, hr]
  refine ⟨?_, ?_, ?_, rfl, (mem_keys_licensesMap agreements hosts l.PartID).mp hkey⟩
  · exact congrArg OracleDatabaseLicenseUsage.Consumed hval
  · exact congrArg OracleDatabaseLicenseUsage.Covered hval
  · exact congrArg OracleDatabaseLicenseUsage.Unlimited hval

/-- A part identifier occurring among the host usage records or the agreements
has an entry in a successful result. -/
theorem result_has_entry (as : APIService) (order : MapOrder)
    (result : List OracleDatabaseLicenseUsage)
    (hres : GetOracleDatabaseLicensesCompliance as order = .ok result)
    (agreements0 : List OracleDatabaseAgreementFE)
    (hosts0 : List HostUsingOracleDatabaseLicenses)
    (hags : as.ListOracleDatabaseAgreements = .ok agreements0)
    (hhs : as.ListHostUsingOracleDatabaseLicenses = .ok hosts0)
    (agreements : List OracleDatabaseAgreementFE)
    (hosts : List HostUsingOracleDatabaseLicenses)
    (hassign : as.assignOracleDatabaseAgreementsToHosts agreements0 hosts0 =
      .ok (agreements, hosts))
    (k : String)
    (hk : (∃ h ∈ hosts, h.PartID = k) ∨ ∃ a ∈ agreements, a.PartID = k) :
    ∃ e ∈ result, e.PartID = k := by
  obtain ⟨l, hl, hlk⟩ := licensesMap_has_value agreements hosts k hk
  obtain ⟨parts, hmem⟩ :=
    result_complete as order result hres agreements0 hosts0 hags hhs agreements hosts hassign l hl
  exact ⟨_, hmem, by rw [(finishLicense_fields parts l).1, hlk]⟩

/-! ## Claims on `GetOracleDatabaseLicensesCompliance` -/

/-- C1: every entry of the result of `GetOracleDatabaseLicensesCompliance` has
`Compliance = 1` when its `Consumed` is 0 and `Compliance = Covered / Consumed`
otherwise. -/
theorem C1_compliance_ratio (as : APIService) (order : MapOrder)
    (result : List OracleDatabaseLicenseUsage)
    (hres : GetOracleDatabaseLicensesCompliance as order = .ok result)
    (e : OracleDatabaseLicenseUsage) (he : e ∈ result) :
    (e.Consumed = 0 → e.Compliance = 1) ∧
    (e.Consumed ≠ 0 → e.Compliance = e.Covered / e.Consumed) := by
  obtain ⟨parts, l, rfl⟩ := result_finished as order result hres e he
  obtain ⟨_, hc, hv, _, hr⟩ := finishLicense_fields parts l
  rw [hc, hv, hr]
  constructor
  · intro h0
    simp [h0]
  · intro h0
    simp [h0]

/-- C1 at the scenario of the specification: covered 10 and consumed 12 give the
ratio 10/12. -/
theorem C1_compliance_ratio_witness :
    GetOracleDatabaseLicensesCompliance exampleService MapOrder.insertion = .ok [exampleUsage] ∧
    exampleUsage ∈ [exampleUsage] ∧
    exampleUsage.Consumed = 12 ∧ exampleUsage.Covered = 10 ∧
    ((exampleUsage.Consumed = 0 → exampleUsage.Compliance = 1) ∧
     (exampleUsage.Consumed ≠ 0 →
        exampleUsage.Compliance = exampleUsage.Covered / exampleUsage.Consumed)) :=
  ⟨exampleService_result, List.mem_singleton.mpr rfl, rfl, rfl,
    C1_compliance_ratio exampleService MapOrder.insertion [exampleUsage]
      exampleService_result exampleUsage (List.mem_singleton.mpr rfl)⟩

/-- C2 (as stated, refuted): with an unlimited agreement of part A90611 covering
the 3 units of its host and another host consuming 2 units, the entry of the part
is flagged unlimited but its compliance is 3/5, not full compliance. -/
theorem C2_unlimited_counterexample :
    unlimitedService.ListOracleDatabaseAgreements = .ok
      [{ PartID := "A90611", Unlimited := true,
         Hosts := [{ Hostname := "h1", CoveredLicensesCount := 3 }] }] ∧
    GetOracleDatabaseLicensesCompliance unlimitedService MapOrder.insertion =
      .ok [unlimitedUsage] ∧
    unlimitedUsage.PartID = "A90611" ∧ unlimitedUsage.Unlimited = true ∧
    unlimitedUsage.Compliance = 3 / 5 ∧ unlimitedUsage.Compliance ≠ 1 := by
  refine ⟨rfl, unlimitedService_result, rfl, rfl, rfl, ?_⟩
  simp only [unlimitedUsage]
  norm_num

/-- C2 (amended): when an agreement of a part is unlimited, the result has an
entry for that part, and every entry of that part has `Unlimited = true`; its
`Compliance` is still 1 when `Consumed` is 0 and `Covered / Consumed`
otherwise. -/
theorem C2_unlimited_flag (as : APIService) (order : MapOrder)
    (result : List OracleDatabaseLicenseUsage)
    (hres : GetOracleDatabaseLicensesCompliance as order = .ok result)
    (agreements0 : List OracleDatabaseAgreementFE)
    (hosts0 : List HostUsingOracleDatabaseLicenses)
    (hags : as.ListOracleDatabaseAgreements = .ok agreements0)
    (hhs : as.ListHostUsingOracleDatabaseLicenses = .ok hosts0)
    (agreements : List OracleDatabaseAgreementFE)
    (hosts : List HostUsingOracleDatabaseLicenses)
    (hassign : as.assignOracleDatabaseAgreementsToHosts agreements0 hosts0 =
      .ok (agreements, hosts))
    (a : OracleDatabaseAgreementFE) (ha : a ∈ agreements) (hu : a.Unlimited = true) :
    (∃ e ∈ result, e.PartID = a.PartID) ∧
    ∀ e ∈ result, e.PartID = a.PartID →
      e.Unlimited = true ∧
      e.Compliance = (if e.Consumed = 0 then 1 else e.Covered / e.Consumed) := by
  constructor
  · exact result_has_entry as order result hres agreements0 hosts0 hags hhs agreements hosts
      hassign a.PartID (Or.inr ⟨a, ha, rfl⟩)
  · intro e he hid
    obtain ⟨_, _, hunl, hr, _⟩ :=
      result_entry as order result hres agreements0 hosts0 hags hhs agreements hosts hassign e he
    refine ⟨?_, hr⟩
    rw [hunl, hid]
    unfold unlimitedOf
    rw [List.any_eq_true]
    exact ⟨a, ha, by simp [hu]⟩

/-- C2 (amended) on the unlimited agreement of `unlimitedService`. -/
theorem C2_unlimited_flag_witness :
    (∃ e ∈ [unlimitedUsage], e.PartID = "A90611") ∧
    ∀ e ∈ [unlimitedUsage], e.PartID = "A90611" →
      e.Unlimited = true ∧
      e.Compliance = (if e.Consumed = 0 then 1 else e.Covered / e.Consumed) :=
  C2_unlimited_flag unlimitedService MapOrder.insertion [unlimitedUsage]
    unlimitedService_result _ _ rfl rfl _ _ rfl
    { PartID := "A90611", Unlimited := true,
      Hosts := [{ Hostname := "h1", CoveredLicensesCount := 3 }] }
    (List.mem_singleton.mpr rfl) rfl

/-- C3: every entry of the result has `Covered` equal to the sum of
`CoveredLicensesCount` over the associated hosts of the agreements of its part;
every consumed part has an entry, and an entry whose part has no agreement has
`Covered = 0` and, when `Consumed > 0`, `Compliance = 0`. -/
theorem C3_covered_sum (as : APIService) (order : MapOrder)
    (result : List OracleDatabaseLicenseUsage)
    (hres : GetOracleDatabaseLicensesCompliance as order = .ok result)
    (agreements0 : List OracleDatabaseAgreementFE)
    (hosts0 : List HostUsingOracleDatabaseLicenses)
    (hags : as.ListOracleDatabaseAgreements = .ok agreements0)
    (hhs : as.ListHostUsingOracleDatabaseLicenses = .ok hosts0)
    (agreements : List OracleDatabaseAgreementFE)
    (hosts : List HostUsingOracleDatabaseLicenses)
    (hassign : as.assignOracleDatabaseAgreementsToHosts agreements0 hosts0 =
      .ok (agreements, hosts)) :
    (∀ h ∈ hosts, ∃ e ∈ result, e.PartID = h.PartID) ∧
    ∀ e ∈ result,
      e.Covered =
        ((agreements.filter (fun a => a.PartID = e.PartID)).map
          (fun a => (a.Hosts.map (fun h => h.CoveredLicensesCount)).sum)).sum ∧
      ((∀ a ∈ agreements, a.PartID ≠ e.PartID) →
        e.Covered = 0 ∧ (e.Consumed > 0 → e.Compliance = 0)) := by
  constructor
  · intro h hh
    exact result_has_entry as order result hres agreements0 hosts0 hags hhs agreements hosts
      hassign h.PartID (Or.inl ⟨h, hh, rfl⟩)
  · intro e he
    obtain ⟨_, hcov, _, hr, _⟩ :=
      result_entry as order result hres agreements0 hosts0 hags hhs agreements hosts hassign e he
    refine ⟨hcov, ?_⟩
    intro hnone
    have hfil : agreements.filter (fun a => a.PartID = e.PartID) = [] := by
      rw [List.filter_eq_nil_iff]
      intro a ha
      simpa using hnone a ha
    have h0 : e.Covered = 0 := by
      rw [hcov]
      unfold coveredOf
      rw [hfil]
      rfl
    refine ⟨h0, ?_⟩
    intro hpos
    rw [hr, if_neg (ne_of_gt hpos), h0, zero_div]

/-- C3 at the scenario of the specification: a consumed part without agreement
has `Covered = 0` and `Compliance = 0`. -/
theorem C3_covered_sum_witness :
    (∀ h ∈ [({ Name := "h1", PartID := "A90611", OriginalCount := 4 } :
        HostUsingOracleDatabaseLicenses)], ∃ e ∈ [uncoveredUsage], e.PartID = h.PartID) ∧
    ∀ e ∈ [uncoveredUsage],
      e.Covered =
        ((([] : List OracleDatabaseAgreementFE).filter (fun a => a.PartID = e.PartID)).map
          (fun a => (a.Hosts.map (fun h => h.CoveredLicensesCount)).sum)).sum ∧
      ((∀ a ∈ ([] : List OracleDatabaseAgreementFE), a.PartID ≠ e.PartID) →
        e.Covered = 0 ∧ (e.Consumed > 0 → e.Compliance = 0)) :=
  C3_covered_sum uncoveredService MapOrder.insertion [uncoveredUsage]
    uncoveredService_result _ _ rfl rfl _ _ rfl

/-- C4: every entry of the result has `Consumed` equal to the sum of
`OriginalCount` over the host usage records of its part, which is 0 when there is
none and is not negative when no host usage record has a negative
`OriginalCount`. -/
theorem C4_consumed_sum (as : APIService) (order : MapOrder)
    (result : List OracleDatabaseLicenseUsage)
    (hres : GetOracleDatabaseLicensesCompliance as order = .ok result)
    (agreements0 : List OracleDatabaseAgreementFE)
    (hosts0 : List HostUsingOracleDatabaseLicenses)
    (hags : as.ListOracleDatabaseAgreements = .ok agreements0)
    (hhs : as.ListHostUsingOracleDatabaseLicenses = .ok hosts0)
    (agreements : List OracleDatabaseAgreementFE)
    (hosts : List HostUsingOracleDatabaseLicenses)
    (hassign : as.assignOracleDatabaseAgreementsToHosts agreements0 hosts0 =
      .ok (agreements, hosts))
    (e : OracleDatabaseLicenseUsage) (he : e ∈ result) :
    e.Consumed =
      ((hosts.filter (fun h => h.PartID = e.PartID)).map (fun h => h.OriginalCount)).sum ∧
    ((∀ h ∈ hosts, h.PartID ≠ e.PartID) → e.Consumed = 0) ∧
    ((∀ h ∈ hosts, 0 ≤ h.OriginalCount) → 0 ≤ e.Consumed) := by
  obtain ⟨hcons, _, _, _, _⟩ :=
    result_entry as order result hres agreements0 hosts0 hags hhs agreements hosts hassign e he
  refine ⟨hcons, ?_, ?_⟩
  · intro hnone
    have hfil : hosts.filter (fun h => h.PartID = e.PartID) = [] := by
      rw [List.filter_eq_nil_iff]
      intro h hh
      simpa using hnone h hh
    rw [hcons]
    unfold consumedOf
    rw [hfil]
    rfl
  · intro hnn
    rw [hcons]
    unfold consumedOf
    apply List.sum_nonneg
    intro x hx
    obtain ⟨h, hh, rfl⟩ := List.mem_map.mp hx
    exact hnn h (List.mem_of_mem_filter hh)

/-- C4 on `exampleService`: two records of 5 and 7 units give `Consumed = 12`. -/
theorem C4_consumed_sum_witness :
    exampleUsage.Consumed =
      ((([{ Name := "h1", PartID := "A90611", OriginalCount := 5 },
          { Name := "h2", PartID := "A90611", OriginalCount := 7 }] :
          List HostUsingOracleDatabaseLicenses).filter
            (fun h => h.PartID = exampleUsage.PartID)).map (fun h => h.OriginalCount)).sum ∧
    ((∀ h ∈ ([{ Name := "h1", PartID := "A90611", OriginalCount := 5 },
          { Name := "h2", PartID := "A90611", OriginalCount := 7 }] :
          List HostUsingOracleDatabaseLicenses), h.PartID ≠ exampleUsage.PartID) →
        exampleUsage.Consumed = 0) ∧
    ((∀ h ∈ ([{ Name := "h1", PartID := "A90611", OriginalCount := 5 },
          { Name := "h2", PartID := "A90611", OriginalCount := 7 }] :
          List HostUsingOracleDatabaseLicenses), 0 ≤ h.OriginalCount) →
        0 ≤ exampleUsage.Consumed) :=
  C4_consumed_sum exampleService MapOrder.insertion [exampleUsage]
    exampleService_result _ _ rfl rfl _ _ rfl exampleUsage (List.mem_singleton.mpr rfl)

/-! ## Standby license propagation: the loop over the primary's licenses -/

theorem filterPrimaryOpen_primaryErcole : filterPrimaryOpen [primaryErcole] 0 = [primaryErcole] := by
  rw [filterPrimaryOpen]
  simp [primaryErcole, OracleDatabaseRolePrimary, OracleDatabaseStatusOpen]
  rw [filterPrimaryOpen]
  simp

theorem exampleDataService_primaries :
    getPrimaryOpenOracleDatabases exampleDataService = .ok [primaryErcole] := by
  simp [getPrimaryOpenOracleDatabases, exampleDataService, filterPrimaryOpen_primaryErcole]

theorem overwriteCount_none (ls : List OracleDatabaseLicense) (name : String) (c : ℚ)
    (h : name ∉ ls.map (fun l => l.Name)) : overwriteCount ls name c = none := by
  induction ls with
  | nil => rfl
  | cons l ls ih =>
    simp only [List.map_cons, List.mem_cons, not_or] at h
    have hne : ¬ l.Name = name := fun e => h.1 e.symm
    simp [overwriteCount, hne, ih h.2]

theorem overwriteCount_some (ls : List OracleDatabaseLicense) (name : String) (c : ℚ)
    (h : name ∈ ls.map (fun l => l.Name)) :
    ∃ pre l post, ls = pre ++ l :: post ∧ l.Name = name ∧
      name ∉ pre.map (fun x => x.Name) ∧
      overwriteCount ls name c = some (pre ++ { l with Count := c } :: post) := by
  induction ls with
  | nil => simp at h
  | cons l ls ih =>
    by_cases hl : l.Name = name
    · exact ⟨[], l, ls, rfl, hl, by simp, by simp [overwriteCount, hl]⟩
    · have h2 : name ∈ ls.map (fun l => l.Name) := by
        simp only [List.map_cons, List.mem_cons] at h
        rcases h with h | h
        · exact absurd h.symm hl
        · exact h
      obtain ⟨pre, x, post, hls, hx, hpre, hov⟩ := ih h2
      refine ⟨l :: pre, x, post, by simp [hls], hx, ?_, ?_⟩
      · simp only [List.map_cons, List.mem_cons, not_or]
        exact ⟨fun e => hl e.symm, hpre⟩
      · simp [overwriteCount, hl, hov]

/-- Entry by entry, the inner loop keeps the name and either keeps the entry or
sets its count. -/
theorem overwriteCount_get (ls : List OracleDatabaseLicense) (name : String) (c : ℚ)
    (ls2 : List OracleDatabaseLicense) (h : overwriteCount ls name c = some ls2)
    (i : Nat) (a : OracleDatabaseLicense) (ha : ls[i]? = some a) :
    ∃ b, ls2[i]? = some b ∧ b.Name = a.Name ∧ (b = a ∨ (a.Name = name ∧ b.Count = c)) := by
  induction ls generalizing ls2 i with
  | nil => simp at ha
  | cons l ls ih =>
    by_cases hl : l.Name = name
    · simp only [overwriteCount, hl, if_true, Option.some.injEq] at h
      subst h
      cases i with
      | zero =>
        simp only [List.getElem?_cons_zero, Option.some.injEq] at ha
        subst ha
        exact ⟨{ l with Count := c }, by simp [hl], rfl, Or.inr ⟨hl, rfl⟩⟩
      | succ j =>
        simp only [List.getElem?_cons_succ] at ha
        exact ⟨a, by simpa using ha, rfl, Or.inl rfl⟩
    · simp only [overwriteCount, hl, if_false, Option.map_eq_some'] at h
      obtain ⟨ls3, h3, rfl⟩ := h
      cases i with
      | zero =>
        simp only [List.getElem?_cons_zero, Option.some.injEq] at ha
        subst ha
        exact ⟨l, by simp, rfl, Or.inl rfl⟩
      | succ j =>
        simp only [List.getElem?_cons_succ] at ha
        obtain ⟨b, hb, hn, hc⟩ := ih ls3 h3 j ha
        exact ⟨b, by simpa using hb, hn, hc⟩

/-- One step of the loop, entry by entry. -/
theorem propagateLicense_get (c : ℚ) (ls : List OracleDatabaseLicense)
    (pl : OracleDatabaseLicense) (i : Nat) (a : OracleDatabaseLicense)
    (ha : ls[i]? = some a) :
    ∃ b, (propagateLicense c ls pl)[i]? = some b ∧ b.Name = a.Name ∧
      (b = a ∨ (0 < pl.Count ∧ pl.Name = a.Name ∧ b.Count = c)) := by
  unfold propagateLicense
  by_cases hpos : pl.Count > 0
  · rw [if_pos hpos]
    cases hov : overwriteCount ls pl.Name c with
    | none =>
      refine ⟨a, ?_, rfl, Or.inl rfl⟩
      have hi : i < ls.length := by
        by_contra hcon
        rw [List.getElem?_eq_none (by omega)] at ha
        simp at ha
      simp only
      rw [List.getElem?_append_left hi]
      exact ha
    | some ls2 =>
      obtain ⟨b, hb, hn, hc⟩ := overwriteCount_get ls pl.Name c ls2 hov i a ha
      refine ⟨b, hb, hn, ?_⟩
      rcases hc with hc | hc
      · exact Or.inl hc
      · exact Or.inr ⟨hpos, hc.1.symm, hc.2⟩
  · rw [if_neg hpos]
    exact ⟨a, ha, rfl, Or.inl rfl⟩

/-- The whole loop, entry by entry. -/
theorem propagate_get (c : ℚ) (prim : List OracleDatabaseLicense)
    (ls : List OracleDatabaseLicense) (i : Nat) (a : OracleDatabaseLicense)
    (ha : ls[i]? = some a) :
    ∃ b, (prim.foldl (propagateLicense c) ls)[i]? = some b ∧ b.Name = a.Name ∧
      (b = a ∨ (b.Count = c ∧ ∃ pl ∈ prim, 0 < pl.Count ∧ pl.Name = a.Name)) := by
  induction prim generalizing ls a with
  | nil => exact ⟨a, by simpa using ha, rfl, Or.inl rfl⟩
  | cons pl pls ih =>
    obtain ⟨b, hb, hbn, hbc⟩ := propagateLicense_get c ls pl i a ha
    obtain ⟨d, hd, hdn, hdc⟩ := ih (propagateLicense c ls pl) b hb
    refine ⟨d, by simpa using hd, hdn.trans hbn, ?_⟩
    rcases hdc with hdc | ⟨hdc, pl2, hpl2, hpos2, hname2⟩
    · subst hdc
      rcases hbc with hbc | ⟨hpos, hname, hcount⟩
      · exact Or.inl hbc
      · exact Or.inr ⟨hcount, pl, List.mem_cons_self _ _, hpos, hname⟩
    · exact Or.inr ⟨hdc, pl2, List.mem_cons_of_mem _ hpl2, hpos2, hname2.trans hbn⟩

/-- After its step, a license of the primary with a positive count has an entry
of its name with the computed count. -/
theorem propagateLicense_has (c : ℚ) (ls : List OracleDatabaseLicense)
    (pl : OracleDatabaseLicense) (hpos : 0 < pl.Count) :
    ∃ (i : Nat) (b : OracleDatabaseLicense),
      (propagateLicense c ls pl)[i]? = some b ∧ b.Name = pl.Name ∧ b.Count = c := by
  unfold propagateLicense
  rw [if_pos hpos]
  by_cases hmem : pl.Name ∈ ls.map (fun l => l.Name)
  · obtain ⟨pre, l, post, _, hl, _, hov⟩ := overwriteCount_some ls pl.Name c hmem
    rw [hov]
    refine ⟨pre.length, { l with Count := c }, ?_, hl, rfl⟩
    rw [List.getElem?_append_right (le_refl _)]
    simp
  · rw [overwriteCount_none ls pl.Name c hmem]
    exact ⟨ls.length, { Name := pl.Name, Count := c }, by simp, rfl, rfl⟩

/-- After the loop, every license of the primary with a positive count has an
entry of its name with the computed count. -/
theorem propagate_has (c : ℚ) (prim : List OracleDatabaseLicense)
    (ls : List OracleDatabaseLicense) (pl : OracleDatabaseLicense) (hpl : pl ∈ prim)
    (hpos : 0 < pl.Count) :
    ∃ b ∈ prim.foldl (propagateLicense c) ls, b.Name = pl.Name ∧ b.Count = c := by
  induction prim generalizing ls with
  | nil => simp at hpl
  | cons q qs ih =>
    rcases List.mem_cons.mp hpl with hq | hq
    · subst hq
      obtain ⟨i, b, hb, hbn, hbc⟩ := propagateLicense_has c ls pl hpos
      obtain ⟨d, hd, hdn, hdc⟩ := propagate_get c qs (propagateLicense c ls pl) i b hb
      refine ⟨d, ?_, hdn.trans hbn, ?_⟩
      · rw [List.foldl_cons]
        exact List.mem_iff_getElem?.mpr ⟨i, hd⟩
      · rcases hdc with hdc | hdc
        · rw [hdc]; exact hbc
        · exact hdc.1
    · rw [List.foldl_cons]
      exact ih (propagateLicense c ls q) hq

theorem propagateLicense_absent (c : ℚ) (ls : List OracleDatabaseLicense)
    (pl : OracleDatabaseLicense) (hpos : 0 < pl.Count)
    (hmem : pl.Name ∉ ls.map (fun l => l.Name)) :
    propagateLicense c ls pl = ls ++ [{ Name := pl.Name, Count := c }] := by
  unfold propagateLicense
  rw [if_pos hpos, overwriteCount_none ls pl.Name c hmem]

theorem propagateLicense_present (c : ℚ) (ls : List OracleDatabaseLicense)
    (pl : OracleDatabaseLicense) (hpos : 0 < pl.Count)
    (hmem : pl.Name ∈ ls.map (fun l => l.Name)) :
    ∃ pre l post, ls = pre ++ l :: post ∧ l.Name = pl.Name ∧
      pl.Name ∉ pre.map (fun x => x.Name) ∧
      propagateLicense c ls pl = pre ++ { l with Count := c } :: post := by
  obtain ⟨pre, l, post, hls, hl, hpre, hov⟩ := overwriteCount_some ls pl.Name c hmem
  refine ⟨pre, l, post, hls, hl, hpre, ?_⟩
  unfold propagateLicense
  rw [if_pos hpos, hov]

/-- Names after one step of the loop. -/
theorem propagateLicense_names (c : ℚ) (ls : List OracleDatabaseLicense)
    (pl : OracleDatabaseLicense) :
    (propagateLicense c ls pl).map (fun l => l.Name) =
      if 0 < pl.Count ∧ pl.Name ∉ ls.map (fun l => l.Name)
      then ls.map (fun l => l.Name) ++ [pl.Name] else ls.map (fun l => l.Name) := by
  by_cases hpos : 0 < pl.Count
  · by_cases hmem : pl.Name ∈ ls.map (fun l => l.Name)
    · obtain ⟨pre, l, post, hls, _, _, hres⟩ := propagateLicense_present c ls pl hpos hmem
      rw [if_neg (fun h => h.2 hmem), hres, hls]
      simp
    · rw [if_pos ⟨hpos, hmem⟩, propagateLicense_absent c ls pl hpos hmem]
      simp
  · rw [if_neg (fun h => hpos h.1)]
    unfold propagateLicense
    rw [if_neg hpos]

/-- Names after the loop: the previous names, then each absent name of a
positive-count license of the primary, once. -/
theorem propagate_names (c : ℚ) (prim : List OracleDatabaseLicense)
    (ls : List OracleDatabaseLicense) :
    ∃ added : List String,
      (prim.foldl (propagateLicense c) ls).map (fun l => l.Name) =
        ls.map (fun l => l.Name) ++ added ∧
      added.Nodup ∧
      ∀ n, n ∈ added ↔
        (n ∉ ls.map (fun l => l.Name) ∧ ∃ pl ∈ prim, 0 < pl.Count ∧ pl.Name = n) := by
  induction prim generalizing ls with
  | nil => exact ⟨[], by simp, List.nodup_nil, by simp⟩
  | cons pl pls ih =>
    obtain ⟨added, hnames, hnodup, hmem⟩ := ih (propagateLicense c ls pl)
    rw [List.foldl_cons, hnames, propagateLicense_names]
    by_cases hcond : 0 < pl.Count ∧ pl.Name ∉ ls.map (fun l => l.Name)
    · rw [propagateLicense_names, if_pos hcond] at hmem
      rw [if_pos hcond]
      refine ⟨pl.Name :: added, by simp, ?_, ?_⟩
      · rw [List.nodup_cons]
        refine ⟨?_, hnodup⟩
        intro hin
        have := ((hmem pl.Name).mp hin).1
        simp at this
      · intro n
        rw [List.mem_cons, hmem]
        constructor
        · rintro (h | ⟨h1, q, hq, hqpos, hqn⟩)
          · subst h
            exact ⟨hcond.2, pl, List.mem_cons_self _ _, hcond.1, rfl⟩
          · refine ⟨?_, q, List.mem_cons_of_mem _ hq, hqpos, hqn⟩
            intro hin
            exact h1 (List.mem_append_left _ hin)
        · rintro ⟨h1, q, hq, hqpos, hqn⟩
          by_cases hn : n = pl.Name
          · exact Or.inl hn
          · right
            refine ⟨?_, ?_⟩
            · intro hin
              rcases List.mem_append.mp hin with hin | hin
              · exact h1 hin
              · exact hn (by simpa using hin)
            · rcases List.mem_cons.mp hq with hq | hq
              · subst hq
                exact absurd hqn.symm hn
              · exact ⟨q, hq, hqpos, hqn⟩
    · rw [propagateLicense_names, if_neg hcond] at hmem
      rw [if_neg hcond]
      refine ⟨added, rfl, hnodup, ?_⟩
      intro n
      rw [hmem]
      constructor
      · rintro ⟨h1, q, hq, hqpos, hqn⟩
        exact ⟨h1, q, List.mem_cons_of_mem _ hq, hqpos, hqn⟩
      · rintro ⟨h1, q, hq, hqpos, hqn⟩
        refine ⟨h1, ?_⟩
        rcases List.mem_cons.mp hq with hq | hq
        · subst hq
          exfalso
          apply hcond
          refine ⟨hqpos, ?_⟩
          rw [hqn]
          exact h1
        · exact ⟨q, hq, hqpos, hqn⟩

/-! ## Standby license propagation: `addLicensesToSecondaryDbs` -/

theorem findPrimaryDb_none_iff (dbs : List OracleDatabase) (secondaryDb : OracleDatabase) :
    findPrimaryDb dbs secondaryDb = none ↔
      ∀ db ∈ dbs, ¬ (db.DbID = secondaryDb.DbID ∧ db.Name = secondaryDb.Name) := by
  induction dbs with
  | nil => simp [findPrimaryDb]
  | cons db dbs ih =>
    by_cases h : db.DbID = secondaryDb.DbID ∧ db.Name = secondaryDb.Name
    · simp only [findPrimaryDb, h, and_self, if_true, List.mem_cons, forall_eq_or_imp]
      simp
    · simp only [findPrimaryDb, h, if_false, List.mem_cons, forall_eq_or_imp, ih]
      simp

/-- With a matching primary, the call runs the loop over the licenses of the
primary and produces no event. -/
theorem addLicenses_found (CoreFactor : OracleDatabase → Host → ℚ) (hds : HostDataService)
    (hostInfo : Host) (secondaryDb : OracleDatabase) (dbs : List OracleDatabase)
    (primaryDb : OracleDatabase)
    (hdbs : getPrimaryOpenOracleDatabases hds = .ok dbs)
    (hfound : findPrimaryDb dbs secondaryDb = some primaryDb) :
    addLicensesToSecondaryDbs CoreFactor hds hostInfo secondaryDb =
      ({ secondaryDb with
          Licenses := primaryDb.Licenses.foldl
            (propagateLicense ((hostInfo.CPUCores : ℚ) * CoreFactor secondaryDb hostInfo))
            secondaryDb.Licenses }, []) := by
  unfold addLicensesToSecondaryDbs
  rw [hdbs]
  simp only [hfound]

/-- Without a matching primary, the database is returned as it was. -/
theorem addLicenses_not_found (CoreFactor : OracleDatabase → Host → ℚ)
    (hds : HostDataService) (hostInfo : Host) (secondaryDb : OracleDatabase)
    (dbs : List OracleDatabase)
    (hdbs : getPrimaryOpenOracleDatabases hds = .ok dbs)
    (hnone : findPrimaryDb dbs secondaryDb = none) :
    (addLicensesToSecondaryDbs CoreFactor hds hostInfo secondaryDb).1 = secondaryDb := by
  unfold addLicensesToSecondaryDbs
  rw [hdbs]
  simp only [hnone]
  split
  · rfl
  · split
    · rfl
    · split <;> rfl

/-- When the primaries cannot be fetched, the database is returned as it was and
the error is logged. -/
theorem addLicenses_fetch_error (CoreFactor : OracleDatabase → Host → ℚ)
    (hds : HostDataService) (hostInfo : Host) (secondaryDb : OracleDatabase)
    (err : AdvancedError)
    (hdbs : getPrimaryOpenOracleDatabases hds = .error err) :
    addLicensesToSecondaryDbs CoreFactor hds hostInfo secondaryDb =
      (secondaryDb, [Event.logErr err]) := by
  unfold addLicensesToSecondaryDbs
  rw [hdbs]

theorem findPrimaryDb_example (secondaryDb : OracleDatabase)
    (hid : secondaryDb.DbID = 1) (hname : secondaryDb.Name = "ERCOLE") :
    findPrimaryDb [primaryErcole] secondaryDb = some primaryErcole := by
  simp [findPrimaryDb, primaryErcole, hid, hname]

theorem cores_times_factor_hostB :
    (hostB.CPUCores : ℚ) * coreFactorHalf standbyErcole hostB = 4 := by
  norm_num [hostB, coreFactorHalf]

theorem propagation_standbyErcole :
    (addLicensesToSecondaryDbs coreFactorHalf exampleDataService hostB standbyErcole).1.Licenses
      = [{ Name := "L1", Count := 4 }] := by
  rw [addLicenses_found coreFactorHalf exampleDataService hostB standbyErcole [primaryErcole]
    primaryErcole exampleDataService_primaries (findPrimaryDb_example _ rfl rfl)]
  simp [primaryErcole, standbyErcole, hostB, coreFactorHalf, propagateLicense, overwriteCount]
  norm_num

theorem propagation_standbyLicensed :
    (addLicensesToSecondaryDbs coreFactorHalf exampleDataService hostB standbyLicensed).1.Licenses
      = [{ Name := "L1", Count := 4 }, { Name := "L2", Count := 1 }] := by
  rw [addLicenses_found coreFactorHalf exampleDataService hostB standbyLicensed [primaryErcole]
    primaryErcole exampleDataService_primaries (findPrimaryDb_example _ rfl rfl)]
  simp [primaryErcole, standbyLicensed, hostB, coreFactorHalf, propagateLicense, overwriteCount]
  norm_num

theorem propagation_noCores :
    (addLicensesToSecondaryDbs coreFactorHalf exampleDataService hostNoCores
        standbyLicensed).1.Licenses
      = [{ Name := "L1", Count := 0 }, { Name := "L2", Count := 1 }] := by
  rw [addLicenses_found coreFactorHalf exampleDataService hostNoCores standbyLicensed
    [primaryErcole] primaryErcole exampleDataService_primaries (findPrimaryDb_example _ rfl rfl)]
  simp [primaryErcole, standbyLicensed, hostNoCores, coreFactorHalf, propagateLicense,
    overwriteCount]

/-! ## Claims on `addLicensesToSecondaryDbs` -/

/-- C5: when `addLicensesToSecondaryDbs` finds a matching primary, every license
of the primary with `Count > 0` has, in the secondary database after the call, an
entry of the same name whose `Count` is the `CPUCores` of the secondary host
times the core factor of the secondary database on that host, whatever the count
of the primary. -/
theorem C5_propagated_count (CoreFactor : OracleDatabase → Host → ℚ)
    (hds : HostDataService) (hostInfo : Host) (secondaryDb : OracleDatabase)
    (dbs : List OracleDatabase) (primaryDb : OracleDatabase)
    (hdbs : getPrimaryOpenOracleDatabases hds = .ok dbs)
    (hfound : findPrimaryDb dbs secondaryDb = some primaryDb)
    (primaryDbLicense : OracleDatabaseLicense)
    (hmem : primaryDbLicense ∈ primaryDb.Licenses) (hpos : 0 < primaryDbLicense.Count) :
    ∃ l ∈ (addLicensesToSecondaryDbs CoreFactor hds hostInfo secondaryDb).1.Licenses,
      l.Name = primaryDbLicense.Name ∧
      l.Count = (hostInfo.CPUCores : ℚ) * CoreFactor secondaryDb hostInfo := by
  rw [addLicenses_found CoreFactor hds hostInfo secondaryDb dbs primaryDb hdbs hfound]
  exact propagate_has _ primaryDb.Licenses secondaryDb.Licenses primaryDbLicense hmem hpos

/-- C5 at the scenario of the specification: a standby on an 8-core host with
core factor 0.5 gains L1 with count 4 although the primary holds count 2. -/
theorem C5_propagated_count_witness :
    (hostB.CPUCores : ℚ) * coreFactorHalf standbyErcole hostB = 4 ∧
    (addLicensesToSecondaryDbs coreFactorHalf exampleDataService hostB standbyErcole).1.Licenses
      = [{ Name := "L1", Count := 4 }] ∧
    ∃ l ∈ (addLicensesToSecondaryDbs coreFactorHalf exampleDataService hostB
        standbyErcole).1.Licenses,
      l.Name = "L1" ∧ l.Count = (hostB.CPUCores : ℚ) * coreFactorHalf standbyErcole hostB :=
  ⟨cores_times_factor_hostB, propagation_standbyErcole,
    C5_propagated_count coreFactorHalf exampleDataService hostB standbyErcole [primaryErcole]
      primaryErcole exampleDataService_primaries (findPrimaryDb_example _ rfl rfl)
      { Name := "L1", Count := 2 } (List.mem_singleton.mpr rfl) (by norm_num)⟩

/-- C6: with a matching primary, the licenses of the secondary after the call are
the result of the loop over the licenses of the primary; a step for a license
with `Count > 0` whose name the secondary lists overwrites the count of the first
entry of that name and adds nothing, a step for one whose name it does not list
appends exactly one entry of that name at the end; and the names after the call
are the previous names in their order followed by each absent name of a
positive-count license of the primary, once. -/
theorem C6_overwrite_or_append (CoreFactor : OracleDatabase → Host → ℚ)
    (hds : HostDataService) (hostInfo : Host) (secondaryDb : OracleDatabase)
    (dbs : List OracleDatabase) (primaryDb : OracleDatabase)
    (hdbs : getPrimaryOpenOracleDatabases hds = .ok dbs)
    (hfound : findPrimaryDb dbs secondaryDb = some primaryDb) :
    (addLicensesToSecondaryDbs CoreFactor hds hostInfo secondaryDb).1.Licenses =
      primaryDb.Licenses.foldl
        (propagateLicense ((hostInfo.CPUCores : ℚ) * CoreFactor secondaryDb hostInfo))
        secondaryDb.Licenses ∧
    (∀ (c : ℚ) (ls : List OracleDatabaseLicense) (pl : OracleDatabaseLicense),
      0 < pl.Count → pl.Name ∈ ls.map (fun l => l.Name) →
      ∃ pre l post, ls = pre ++ l :: post ∧ l.Name = pl.Name ∧
        pl.Name ∉ pre.map (fun x => x.Name) ∧
        propagateLicense c ls pl = pre ++ { l with Count := c } :: post) ∧
    (∀ (c : ℚ) (ls : List OracleDatabaseLicense) (pl : OracleDatabaseLicense),
      0 < pl.Count → pl.Name ∉ ls.map (fun l => l.Name) →
      propagateLicense c ls pl = ls ++ [{ Name := pl.Name, Count := c }]) ∧
    ∃ added : List String,
      (addLicensesToSecondaryDbs CoreFactor hds hostInfo secondaryDb).1.Licenses.map
          (fun l => l.Name) =
        secondaryDb.Licenses.map (fun l => l.Name) ++ added ∧
      added.Nodup ∧
      ∀ n, n ∈ added ↔
        (n ∉ secondaryDb.Licenses.map (fun l => l.Name) ∧
          ∃ pl ∈ primaryDb.Licenses, 0 < pl.Count ∧ pl.Name = n) := by
  rw [addLicenses_found CoreFactor hds hostInfo secondaryDb dbs primaryDb hdbs hfound]
  exact ⟨rfl, fun c ls pl => propagateLicense_present c ls pl,
    fun c ls pl => propagateLicense_absent c ls pl,
    propagate_names _ primaryDb.Licenses secondaryDb.Licenses⟩

/-- C6 on a standby holding L1 and L2 whose primary holds L1: the names stay
L1, L2 and nothing is appended. -/
theorem C6_overwrite_or_append_witness :
    (addLicensesToSecondaryDbs coreFactorHalf exampleDataService hostB standbyLicensed).1.Licenses
      = [{ Name := "L1", Count := 4 }, { Name := "L2", Count := 1 }] ∧
    ∃ added : List String,
      (addLicensesToSecondaryDbs coreFactorHalf exampleDataService hostB
          standbyLicensed).1.Licenses.map (fun l => l.Name) =
        standbyLicensed.Licenses.map (fun l => l.Name) ++ added ∧
      added.Nodup ∧
      ∀ n, n ∈ added ↔
        (n ∉ standbyLicensed.Licenses.map (fun l => l.Name) ∧
          ∃ pl ∈ primaryErcole.Licenses, 0 < pl.Count ∧ pl.Name = n) :=
  ⟨propagation_standbyLicensed,
    (C6_overwrite_or_append coreFactorHalf exampleDataService hostB standbyLicensed
      [primaryErcole] primaryErcole exampleDataService_primaries
      (findPrimaryDb_example _ rfl rfl)).2.2.2⟩

/-- C7 (as stated, refuted): on a host reporting 0 cores, the standby entry L1
with count 3 is reduced to 0 although the matched primary holds L1 with
count 2. -/
theorem C7_reduced_to_zero_counterexample :
    getPrimaryOpenOracleDatabases exampleDataService = .ok [primaryErcole] ∧
    findPrimaryDb [primaryErcole] standbyLicensed = some primaryErcole ∧
    primaryErcole.Licenses = [{ Name := "L1", Count := 2 }] ∧
    standbyLicensed.Licenses = [{ Name := "L1", Count := 3 }, { Name := "L2", Count := 1 }] ∧
    (addLicensesToSecondaryDbs coreFactorHalf exampleDataService hostNoCores
        standbyLicensed).1.Licenses
      = [{ Name := "L1", Count := 0 }, { Name := "L2", Count := 1 }] :=
  ⟨exampleDataService_primaries, findPrimaryDb_example _ rfl rfl, rfl, rfl, propagation_noCores⟩

/-- C7 (amended): with a matching primary, an entry of the secondary with a
non-zero count has count zero after the call only if `CPUCores` times the core
factor is zero and the primary holds a license of that name with `Count > 0`. -/
theorem C7_reduced_to_zero_only_by_product (CoreFactor : OracleDatabase → Host → ℚ)
    (hds : HostDataService) (hostInfo : Host) (secondaryDb : OracleDatabase)
    (dbs : List OracleDatabase) (primaryDb : OracleDatabase)
    (hdbs : getPrimaryOpenOracleDatabases hds = .ok dbs)
    (hfound : findPrimaryDb dbs secondaryDb = some primaryDb)
    (i : Nat) (before after : OracleDatabaseLicense)
    (hbefore : secondaryDb.Licenses[i]? = some before)
    (hafter : (addLicensesToSecondaryDbs CoreFactor hds hostInfo secondaryDb).1.Licenses[i]?
      = some after)
    (hnonzero : before.Count ≠ 0) (hzero : after.Count = 0) :
    (hostInfo.CPUCores : ℚ) * CoreFactor secondaryDb hostInfo = 0 ∧
    ∃ pl ∈ primaryDb.Licenses, 0 < pl.Count ∧ pl.Name = before.Name := by
  rw [addLicenses_found CoreFactor hds hostInfo secondaryDb dbs primaryDb hdbs hfound] at hafter
  obtain ⟨b, hb, _, hcase⟩ :=
    propagate_get ((hostInfo.CPUCores : ℚ) * CoreFactor secondaryDb hostInfo)
      primaryDb.Licenses secondaryDb.Licenses i before hbefore
  have hba : b = after := by
    simp only at hafter
    rw [hb] at hafter
    exact Option.some.inj hafter
  subst hba
  rcases hcase with hcase | ⟨hcount, hpl⟩
  · rw [hcase] at hzero
    exact absurd hzero hnonzero
  · exact ⟨hcount.symm.trans hzero, hpl⟩

/-- C7 (amended) on the host reporting 0 cores. -/
theorem C7_reduced_to_zero_only_by_product_witness :
    (hostNoCores.CPUCores : ℚ) * coreFactorHalf standbyLicensed hostNoCores = 0 ∧
    ∃ pl ∈ primaryErcole.Licenses, 0 < pl.Count ∧ pl.Name = "L1" :=
  C7_reduced_to_zero_only_by_product coreFactorHalf exampleDataService hostNoCores
    standbyLicensed [primaryErcole] primaryErcole exampleDataService_primaries
    (findPrimaryDb_example _ rfl rfl) 0 { Name := "L1", Count := 3 }
    { Name := "L1", Count := 0 } rfl (by rw [propagation_noCores]; rfl) (by norm_num) rfl

/-- C8: every license entry the secondary held before `addLicensesToSecondaryDbs`
is present afterwards at the same position under the same name, and it is
unchanged unless a primary was matched that holds a license of that name with
`Count > 0`. -/
theorem C8_entries_kept (CoreFactor : OracleDatabase → Host → ℚ)
    (hds : HostDataService) (hostInfo : Host) (secondaryDb : OracleDatabase)
    (i : Nat) (before : OracleDatabaseLicense)
    (hbefore : secondaryDb.Licenses[i]? = some before) :
    ∃ after,
      (addLicensesToSecondaryDbs CoreFactor hds hostInfo secondaryDb).1.Licenses[i]?
        = some after ∧
      after.Name = before.Name ∧
      ((∀ dbs primaryDb, getPrimaryOpenOracleDatabases hds = .ok dbs →
          findPrimaryDb dbs secondaryDb = some primaryDb →
          ∀ pl ∈ primaryDb.Licenses, 0 < pl.Count → pl.Name ≠ before.Name) →
        after = before) := by
  cases hdbs : getPrimaryOpenOracleDatabases hds with
  | error err =>
    rw [addLicenses_fetch_error CoreFactor hds hostInfo secondaryDb err hdbs]
    exact ⟨before, hbefore, rfl, fun _ => rfl⟩
  | ok dbs =>
    cases hfound : findPrimaryDb dbs secondaryDb with
    | none =>
      rw [addLicenses_not_found CoreFactor hds hostInfo secondaryDb dbs hdbs hfound]
      exact ⟨before, hbefore, rfl, fun _ => rfl⟩
    | some primaryDb =>
      rw [addLicenses_found CoreFactor hds hostInfo secondaryDb dbs primaryDb hdbs hfound]
      obtain ⟨b, hb, hname, hcase⟩ :=
        propagate_get ((hostInfo.CPUCores : ℚ) * CoreFactor secondaryDb hostInfo)
          primaryDb.Licenses secondaryDb.Licenses i before hbefore
      refine ⟨b, hb, hname, ?_⟩
      intro hno
      rcases hcase with hcase | ⟨_, pl, hpl, hpos, hn⟩
      · exact hcase
      · exact absurd hn (hno dbs primaryDb rfl hfound pl hpl hpos)

/-- C8 on a standby holding L1 and L2 whose primary holds L1 only: L2 stays at
position 1 with its count. -/
theorem C8_entries_kept_witness :
    standbyLicensed.Licenses[1]? = some { Name := "L2", Count := 1 } ∧
    ∃ after,
      (addLicensesToSecondaryDbs coreFactorHalf exampleDataService hostB
          standbyLicensed).1.Licenses[1]? = some after ∧
      after.Name = "L2" ∧
      ((∀ dbs primaryDb, getPrimaryOpenOracleDatabases exampleDataService = .ok dbs →
          findPrimaryDb dbs standbyLicensed = some primaryDb →
          ∀ pl ∈ primaryDb.Licenses, 0 < pl.Count → pl.Name ≠ "L2") →
        after = { Name := "L2", Count := 1 }) :=
  ⟨rfl, C8_entries_kept coreFactorHalf exampleDataService hostB standbyLicensed 1
    { Name := "L2", Count := 1 } rfl⟩

/-- C9: when no fetched open primary has both the `DbID` and the `Name` of the
secondary database, `addLicensesToSecondaryDbs` returns the secondary database
unchanged (its licenses in particular), whatever marshalling and posting the
alert answer. -/
theorem C9_no_primary_unchanged (CoreFactor : OracleDatabase → Host → ℚ)
    (hds : HostDataService) (hostInfo : Host) (secondaryDb : OracleDatabase)
    (dbs : List OracleDatabase)
    (hdbs : getPrimaryOpenOracleDatabases hds = .ok dbs)
    (hnone : ∀ db ∈ dbs, ¬ (db.DbID = secondaryDb.DbID ∧ db.Name = secondaryDb.Name))
    (marshal : Alert → Except String String) (post : String → Except String Int) :
    (addLicensesToSecondaryDbs CoreFactor { hds with Marshal := marshal, Post := post }
        hostInfo secondaryDb).1 = secondaryDb ∧
    (addLicensesToSecondaryDbs CoreFactor { hds with Marshal := marshal, Post := post }
        hostInfo secondaryDb).1.Licenses = secondaryDb.Licenses := by
  have hsame : getPrimaryOpenOracleDatabases { hds with Marshal := marshal, Post := post } =
      .ok dbs := by
    rw [← hdbs]
    rfl
  have h := addLicenses_not_found CoreFactor { hds with Marshal := marshal, Post := post }
    hostInfo secondaryDb dbs hsame ((findPrimaryDb_none_iff dbs secondaryDb).mpr hnone)
  exact ⟨h, by rw [h]⟩

/-- C9 on a standby without primary while the alert service is unreachable. -/
theorem C9_no_primary_unchanged_witness :
    (addLicensesToSecondaryDbs coreFactorHalf
        { exampleDataService with
          Marshal := fun alert => .ok alert.Description
          Post := fun _ => .error "connection refused" }
        hostB standbyOrphan).1 = standbyOrphan ∧
    (addLicensesToSecondaryDbs coreFactorHalf
        { exampleDataService with
          Marshal := fun alert => .ok alert.Description
          Post := fun _ => .error "connection refused" }
        hostB standbyOrphan).1.Licenses = standbyOrphan.Licenses :=
  C9_no_primary_unchanged coreFactorHalf exampleDataService hostB standbyOrphan
    [primaryErcole] exampleDataService_primaries
    (by simp [primaryErcole, standbyOrphan])
    (fun alert => .ok alert.Description) (fun _ => .error "connection refused")

/-! ## Claims on `oracleDatabasesChecks` -/

/-- The calls made by the loop from index `start` on. -/
theorem oracleDatabasesChecksFrom_calls (CoreFactor : OracleDatabase → Host → ℚ)
    (hds : Nat → HostDataService) (hostInfo : Host) (start : Nat)
    (dbs : List OracleDatabase) :
    (oracleDatabasesChecksFrom CoreFactor hds hostInfo start dbs).2.map Prod.fst =
      ((dbs.enumFrom start).filter (fun p =>
        decide (p.2.Status = OracleDatabaseStatusMounted ∧
          p.2.Role ≠ OracleDatabaseRolePrimary))).map Prod.fst := by
  induction dbs generalizing start with
  | nil => rfl
  | cons db rest ih =>
    by_cases hc : db.Status = OracleDatabaseStatusMounted ∧ db.Role ≠ OracleDatabaseRolePrimary
    · simp only [oracleDatabasesChecksFrom, hc, List.enumFrom_cons]
      simp [hc, ih (start + 1)]
    · simp only [oracleDatabasesChecksFrom, hc, List.enumFrom_cons]
      simp [hc, ih (start + 1)]

/-- The databases left by the loop from index `start` on. -/
theorem oracleDatabasesChecksFrom_get (CoreFactor : OracleDatabase → Host → ℚ)
    (hds : Nat → HostDataService) (hostInfo : Host) (start : Nat)
    (dbs : List OracleDatabase) (j : Nat) (db : OracleDatabase) (hdb : dbs[j]? = some db) :
    (oracleDatabasesChecksFrom CoreFactor hds hostInfo start dbs).1[j]? =
      some (if db.Status = OracleDatabaseStatusMounted ∧ db.Role ≠ OracleDatabaseRolePrimary
        then (addLicensesToSecondaryDbs CoreFactor (hds (start + j)) hostInfo db).1
        else db) := by
  induction dbs generalizing start j with
  | nil => simp at hdb
  | cons d rest ih =>
    cases j with
    | zero =>
      simp only [List.getElem?_cons_zero, Option.some.injEq] at hdb
      subst hdb
      by_cases hc : d.Status = OracleDatabaseStatusMounted ∧ d.Role ≠ OracleDatabaseRolePrimary
      · simp only [oracleDatabasesChecksFrom]
        rw [if_pos hc, if_pos hc]
        simp
      · simp only [oracleDatabasesChecksFrom]
        rw [if_neg hc, if_neg hc]
        simp
    | succ k =>
      simp only [List.getElem?_cons_succ] at hdb
      have h := ih (start + 1) k hdb
      have hidx : start + 1 + k = start + (k + 1) := by omega
      rw [hidx] at h
      by_cases hc : d.Status = OracleDatabaseStatusMounted ∧ d.Role ≠ OracleDatabaseRolePrimary
      · simp only [oracleDatabasesChecksFrom]
        rw [if_pos hc]
        simpa using h
      · simp only [oracleDatabasesChecksFrom]
        rw [if_neg hc]
        simpa using h

/-- C10 (as stated, refuted): for a host whose only database is an open standby
(`Status = OPEN`, role not primary), `oracleDatabasesChecks` makes no call of
`addLicensesToSecondaryDbs` and leaves the database without licenses, although
the propagation run on that database adds L1. -/
theorem C10_open_standby_counterexample :
    standbyOpen.Status = OracleDatabaseStatusOpen ∧
    standbyOpen.Role ≠ OracleDatabaseRolePrimary ∧
    oracleDatabasesChecks coreFactorHalf (fun _ => exampleDataService) hostB
        { Database := { Databases := [standbyOpen] } } =
      ({ Database := { Databases := [standbyOpen] } }, []) ∧
    (addLicensesToSecondaryDbs coreFactorHalf exampleDataService hostB standbyOpen).1.Licenses
      = [{ Name := "L1", Count := 4 }] := by
  refine ⟨rfl, by decide, ?_, ?_⟩
  · simp [oracleDatabasesChecks, oracleDatabasesChecksFrom, standbyOpen,
      OracleDatabaseStatusMounted]
  · rw [addLicenses_found coreFactorHalf exampleDataService hostB standbyOpen [primaryErcole]
      primaryErcole exampleDataService_primaries (findPrimaryDb_example _ rfl rfl)]
    simp [primaryErcole, standbyOpen, hostB, coreFactorHalf, propagateLicense, overwriteCount]
    norm_num

/-- C10 (amended): `oracleDatabasesChecks` calls `addLicensesToSecondaryDbs`
once, in order, for each database of the host whose `Status` is Mounted and
whose `Role` is not Primary, and for no other database; such a database is
replaced by the outcome of the call and every other database is left as it
was. -/
theorem C10_mounted_non_primary (CoreFactor : OracleDatabase → Host → ℚ)
    (hds : Nat → HostDataService) (hostInfo : Host) (oracleFeature : OracleFeature) :
    (oracleDatabasesChecks CoreFactor hds hostInfo oracleFeature).2.map Prod.fst =
      (oracleFeature.Database.Databases.enum.filter (fun p =>
        decide (p.2.Status = OracleDatabaseStatusMounted ∧
          p.2.Role ≠ OracleDatabaseRolePrimary))).map Prod.fst ∧
    (∀ i, i ∈ (oracleDatabasesChecks CoreFactor hds hostInfo oracleFeature).2.map Prod.fst ↔
      ∃ db, oracleFeature.Database.Databases[i]? = some db ∧
        db.Status = OracleDatabaseStatusMounted ∧ db.Role ≠ OracleDatabaseRolePrimary) ∧
    ∀ i db, oracleFeature.Database.Databases[i]? = some db →
      (oracleDatabasesChecks CoreFactor hds hostInfo oracleFeature).1.Database.Databases[i]? =
        some (if db.Status = OracleDatabaseStatusMounted ∧ db.Role ≠ OracleDatabaseRolePrimary
          then (addLicensesToSecondaryDbs CoreFactor (hds i) hostInfo db).1
          else db) := by
  have hcalls := oracleDatabasesChecksFrom_calls CoreFactor hds hostInfo 0
    oracleFeature.Database.Databases
  refine ⟨hcalls, ?_, ?_⟩
  · intro i
    unfold oracleDatabasesChecks
    simp only
    rw [hcalls]
    constructor
    · intro hi
      obtain ⟨p, hp, rfl⟩ := List.mem_map.mp hi
      obtain ⟨hp1, hp2⟩ := List.mem_filter.mp hp
      refine ⟨p.2, ?_, by simpa using hp2⟩
      have hp3 : (p.1, p.2) ∈ oracleFeature.Database.Databases.enum := hp1
      exact List.mk_mem_enum_iff_getElem?.mp hp3
    · rintro ⟨db, hdb, hc⟩
      refine List.mem_map.mpr ⟨(i, db), List.mem_filter.mpr ⟨?_, by simpa using hc⟩, rfl⟩
      exact List.mk_mem_enum_iff_getElem?.mpr hdb
  · intro i db hdb
    have h := oracleDatabasesChecksFrom_get CoreFactor hds hostInfo 0
      oracleFeature.Database.Databases i db hdb
    rw [Nat.zero_add] at h
    exact h

/-- C10 (amended) on a host with an open standby and a mounted standby: the only
call is for the mounted one, at index 1. -/
theorem C10_mounted_non_primary_witness :
    (oracleDatabasesChecks coreFactorHalf (fun _ => exampleDataService) hostB
        { Database := { Databases := [standbyOpen, standbyErcole] } }).2.map Prod.fst = [1] ∧
    (oracleDatabasesChecks coreFactorHalf (fun _ => exampleDataService) hostB
        { Database := { Databases := [standbyOpen, standbyErcole] } }).1.Database.Databases[1]? =
      some (addLicensesToSecondaryDbs coreFactorHalf exampleDataService hostB standbyErcole).1 := by
  have h := C10_mounted_non_primary coreFactorHalf (fun _ => exampleDataService) hostB
    { Database := { Databases := [standbyOpen, standbyErcole] } }
  refine ⟨?_, ?_⟩
  · rw [h.1]
    simp [List.enum, standbyOpen, standbyErcole, OracleDatabaseStatusMounted,
      OracleDatabaseRolePrimary]
  · rw [h.2.2 1 standbyErcole rfl]
    simp [standbyErcole, OracleDatabaseStatusMounted, OracleDatabaseRolePrimary]

/-! ## Standby license propagation: running it again -/

theorem overwriteCount_of_firstCount (ls : List OracleDatabaseLicense) (name : String) (c : ℚ)
    (h : firstCount ls name = some c) : overwriteCount ls name c = some ls := by
  induction ls with
  | nil => simp [firstCount] at h
  | cons l ls ih =>
    by_cases hl : l.Name = name
    · simp only [firstCount, hl, if_true, Option.some.injEq] at h
      simp only [overwriteCount, hl, if_true, Option.some.injEq, List.cons.injEq, and_true]
      cases l
      simp only at h hl
      simp [h, hl]
    · simp only [firstCount, hl, if_false] at h
      simp [overwriteCount, hl, ih h]

theorem firstCount_append_of_some (ls extra : List OracleDatabaseLicense) (name : String) (c : ℚ)
    (h : firstCount ls name = some c) : firstCount (ls ++ extra) name = some c := by
  induction ls with
  | nil => simp [firstCount] at h
  | cons l ls ih =>
    by_cases hl : l.Name = name
    · simpa [firstCount, hl] using h
    · simp only [firstCount, hl, if_false] at h
      simp [firstCount, hl, ih h]

theorem firstCount_append_of_none (ls extra : List OracleDatabaseLicense) (name : String)
    (h : name ∉ ls.map (fun l => l.Name)) :
    firstCount (ls ++ extra) name = firstCount extra name := by
  induction ls with
  | nil => rfl
  | cons l ls ih =>
    simp only [List.map_cons, List.mem_cons, not_or] at h
    have hl : ¬ l.Name = name := fun e => h.1 e.symm
    simp [firstCount, hl, ih h.2]

theorem firstCount_overwriteCount (ls ls2 : List OracleDatabaseLicense) (m : String) (c : ℚ)
    (h : overwriteCount ls m c = some ls2) (name : String) :
    firstCount ls2 name = if name = m then some c else firstCount ls name := by
  induction ls generalizing ls2 with
  | nil => simp [overwriteCount] at h
  | cons l ls ih =>
    by_cases hl : l.Name = m
    · simp only [overwriteCount, hl, if_true, Option.some.injEq] at h
      subst h
      by_cases hn : name = m
      · simp [firstCount, hn]
      · have hn2 : ¬ m = name := fun e => hn e.symm
        simp [firstCount, hn, hn2, hl]
    · simp only [overwriteCount, hl, if_false, Option.map_eq_some'] at h
      obtain ⟨ls3, h3, rfl⟩ := h
      by_cases hn : name = m
      · subst hn
        simp only [firstCount, hl, if_false, ih ls3 h3, if_true]
      · by_cases hln : l.Name = name
        · simp [firstCount, hln, hn]
        · simp only [firstCount, hln, if_false, ih ls3 h3, hn, if_false]

/-- After its step, the first entry called like a positive-count license of the
primary holds the computed count. -/
theorem firstCount_propagateLicense_self (c : ℚ) (ls : List OracleDatabaseLicense)
    (pl : OracleDatabaseLicense) (hpos : 0 < pl.Count) :
    firstCount (propagateLicense c ls pl) pl.Name = some c := by
  unfold propagateLicense
  rw [if_pos hpos]
  cases hov : overwriteCount ls pl.Name c with
  | none =>
    have hmem : pl.Name ∉ ls.map (fun l => l.Name) := by
      intro hin
      obtain ⟨_, _, _, _, _, _, h⟩ := overwriteCount_some ls pl.Name c hin
      rw [h] at hov
      simp at hov
    simp only
    rw [firstCount_append_of_none ls _ pl.Name hmem]
    simp [firstCount]
  | some ls2 =>
    simp only
    rw [firstCount_overwriteCount ls ls2 pl.Name c hov pl.Name]
    simp

/-- A step keeps a first entry that already holds the computed count. -/
theorem firstCount_propagateLicense_keep (c : ℚ) (ls : List OracleDatabaseLicense)
    (pl : OracleDatabaseLicense) (name : String) (h : firstCount ls name = some c) :
    firstCount (propagateLicense c ls pl) name = some c := by
  unfold propagateLicense
  by_cases hpos : pl.Count > 0
  · rw [if_pos hpos]
    cases hov : overwriteCount ls pl.Name c with
    | none => exact firstCount_append_of_some ls _ name c h
    | some ls2 =>
      simp only
      rw [firstCount_overwriteCount ls ls2 pl.Name c hov name]
      by_cases hn : name = pl.Name
      · simp [hn]
      · simp [hn, h]
  · rw [if_neg hpos]
    exact h

theorem firstCount_propagate_keep (c : ℚ) (prim ls : List OracleDatabaseLicense)
    (name : String) (h : firstCount ls name = some c) :
    firstCount (prim.foldl (propagateLicense c) ls) name = some c := by
  induction prim generalizing ls with
  | nil => exact h
  | cons pl pls ih =>
    rw [List.foldl_cons]
    exact ih _ (firstCount_propagateLicense_keep c ls pl name h)

/-- After the loop, the first entry called like a positive-count license of the
primary holds the computed count. -/
theorem firstCount_propagate (c : ℚ) (prim ls : List OracleDatabaseLicense)
    (pl : OracleDatabaseLicense) (hpl : pl ∈ prim) (hpos : 0 < pl.Count) :
    firstCount (prim.foldl (propagateLicense c) ls) pl.Name = some c := by
  induction prim generalizing ls with
  | nil => simp at hpl
  | cons q qs ih =>
    rw [List.foldl_cons]
    rcases List.mem_cons.mp hpl with hq | hq
    · subst hq
      exact firstCount_propagate_keep c qs _ pl.Name
        (firstCount_propagateLicense_self c ls pl hpos)
    · exact ih _ hq

/-- The loop changes nothing on a list in which those first entries already hold
the computed count. -/
theorem propagate_fixed (c : ℚ) (prim ls : List OracleDatabaseLicense)
    (h : ∀ pl ∈ prim, 0 < pl.Count → firstCount ls pl.Name = some c) :
    prim.foldl (propagateLicense c) ls = ls := by
  induction prim with
  | nil => rfl
  | cons pl pls ih =>
    have hstep : propagateLicense c ls pl = ls := by
      unfold propagateLicense
      by_cases hpos : pl.Count > 0
      · rw [if_pos hpos,
          overwriteCount_of_firstCount ls pl.Name c (h pl (List.mem_cons_self _ _) hpos)]
      · rw [if_neg hpos]
    rw [List.foldl_cons, hstep]
    exact ih (fun q hq => h q (List.mem_cons_of_mem _ hq))

/-- Running the loop on its own result changes nothing. -/
theorem propagate_idempotent (c : ℚ) (prim ls : List OracleDatabaseLicense) :
    prim.foldl (propagateLicense c) (prim.foldl (propagateLicense c) ls) =
      prim.foldl (propagateLicense c) ls :=
  propagate_fixed c prim _ (fun pl hpl hpos => firstCount_propagate c prim ls pl hpl hpos)

theorem findPrimaryDb_licenses (dbs : List OracleDatabase) (secondaryDb : OracleDatabase)
    (ls : List OracleDatabaseLicense) :
    findPrimaryDb dbs { secondaryDb with Licenses := ls } = findPrimaryDb dbs secondaryDb := by
  induction dbs with
  | nil => rfl
  | cons db dbs ih => simp only [findPrimaryDb, ih]

/-- C11: with the same answers of the collaborators, applying
`addLicensesToSecondaryDbs` to its own result yields the same secondary database,
its license list in particular (names, order and counts), provided the core
factor of a database does not depend on its license entries. -/
theorem C11_propagation_idempotent (CoreFactor : OracleDatabase → Host → ℚ)
    (hds : HostDataService) (hostInfo : Host) (secondaryDb : OracleDatabase)
    (hcf : ∀ (db : OracleDatabase) (ls : List OracleDatabaseLicense),
      CoreFactor { db with Licenses := ls } hostInfo = CoreFactor db hostInfo) :
    (addLicensesToSecondaryDbs CoreFactor hds hostInfo
        (addLicensesToSecondaryDbs CoreFactor hds hostInfo secondaryDb).1).1 =
      (addLicensesToSecondaryDbs CoreFactor hds hostInfo secondaryDb).1 ∧
    (addLicensesToSecondaryDbs CoreFactor hds hostInfo
        (addLicensesToSecondaryDbs CoreFactor hds hostInfo secondaryDb).1).1.Licenses =
      (addLicensesToSecondaryDbs CoreFactor hds hostInfo secondaryDb).1.Licenses := by
  have hmain : (addLicensesToSecondaryDbs CoreFactor hds hostInfo
        (addLicensesToSecondaryDbs CoreFactor hds hostInfo secondaryDb).1).1 =
      (addLicensesToSecondaryDbs CoreFactor hds hostInfo secondaryDb).1 := by
    cases hdbs : getPrimaryOpenOracleDatabases hds with
    | error err =>
      rw [addLicenses_fetch_error CoreFactor hds hostInfo secondaryDb err hdbs]
      simp only
      rw [addLicenses_fetch_error CoreFactor hds hostInfo secondaryDb err hdbs]
    | ok dbs =>
      cases hfound : findPrimaryDb dbs secondaryDb with
      | none =>
        rw [addLicenses_not_found CoreFactor hds hostInfo secondaryDb dbs hdbs hfound]
        exact addLicenses_not_found CoreFactor hds hostInfo secondaryDb dbs hdbs hfound
      | some primaryDb =>
        rw [addLicenses_found CoreFactor hds hostInfo secondaryDb dbs primaryDb hdbs hfound]
        simp only
        rw [addLicenses_found CoreFactor hds hostInfo _ dbs primaryDb hdbs
          ((findPrimaryDb_licenses dbs secondaryDb _).trans hfound)]
        simp only [hcf secondaryDb, propagate_idempotent]
  exact ⟨hmain, by rw [hmain]⟩

/-- C11 on the standby holding L1 and L2: a second run leaves L1 at 4 and L2
at 1. -/
theorem C11_propagation_idempotent_witness :
    (addLicensesToSecondaryDbs coreFactorHalf exampleDataService hostB standbyLicensed).1.Licenses
      = [{ Name := "L1", Count := 4 }, { Name := "L2", Count := 1 }] ∧
    (addLicensesToSecondaryDbs coreFactorHalf exampleDataService hostB
        (addLicensesToSecondaryDbs coreFactorHalf exampleDataService hostB
          standbyLicensed).1).1.Licenses =
      (addLicensesToSecondaryDbs coreFactorHalf exampleDataService hostB
        standbyLicensed).1.Licenses :=
  ⟨propagation_standbyLicensed,
    (C11_propagation_idempotent coreFactorHalf exampleDataService hostB standbyLicensed
      (fun _ _ => rfl)).2⟩

theorem findPrimaryDb_eq_find? (dbs : List OracleDatabase) (secondaryDb : OracleDatabase) :
    findPrimaryDb dbs secondaryDb =
      dbs.find? (fun db => decide (db.DbID = secondaryDb.DbID ∧ db.Name = secondaryDb.Name)) := by
  induction dbs with
  | nil => rfl
  | cons db dbs ih =>
    by_cases h : db.DbID = secondaryDb.DbID ∧ db.Name = secondaryDb.Name
    · simp only [findPrimaryDb, List.find?_cons]
      rw [if_pos h]
      simp [h]
    · simp only [findPrimaryDb, List.find?_cons]
      rw [if_neg h, ih]
      simp [h]

theorem findPrimaryDb_first (dbs : List OracleDatabase) (secondaryDb : OracleDatabase)
    (i : Nat) (primaryDb : OracleDatabase) (hi : dbs[i]? = some primaryDb)
    (hmatch : primaryDb.DbID = secondaryDb.DbID ∧ primaryDb.Name = secondaryDb.Name)
    (hfirst : ∀ j db, j < i → dbs[j]? = some db →
      ¬ (db.DbID = secondaryDb.DbID ∧ db.Name = secondaryDb.Name)) :
    findPrimaryDb dbs secondaryDb = some primaryDb := by
  induction dbs generalizing i with
  | nil => simp at hi
  | cons db dbs ih =>
    cases i with
    | zero =>
      simp only [List.getElem?_cons_zero, Option.some.injEq] at hi
      subst hi
      simp only [findPrimaryDb]
      rw [if_pos hmatch]
    | succ k =>
      have h0 := hfirst 0 db (Nat.succ_pos k) (by simp)
      simp only [findPrimaryDb]
      rw [if_neg h0]
      simp only [List.getElem?_cons_succ] at hi
      apply ih k hi
      intro j q hj hq
      exact hfirst (j + 1) q (by omega) (by simpa using hq)

theorem twinDataService_primaries :
    getPrimaryOpenOracleDatabases twinDataService = .ok twinPrimaries := by
  have h3 : filterPrimaryOpen twinPrimaries 3 = twinPrimaries := by
    rw [filterPrimaryOpen]
    simp [twinPrimaries]
  have h2 : filterPrimaryOpen twinPrimaries 2 = twinPrimaries := by
    rw [filterPrimaryOpen]
    simp [twinPrimaries, primaryErcoleTwin, OracleDatabaseRolePrimary, OracleDatabaseStatusOpen]
    exact h3
  have h1 : filterPrimaryOpen twinPrimaries 1 = twinPrimaries := by
    rw [filterPrimaryOpen]
    simp [twinPrimaries, primaryErcole, OracleDatabaseRolePrimary, OracleDatabaseStatusOpen]
    exact h2
  have h0 : filterPrimaryOpen twinPrimaries 0 = twinPrimaries := by
    rw [filterPrimaryOpen]
    simp [twinPrimaries, primaryOther, OracleDatabaseRolePrimary, OracleDatabaseStatusOpen]
    exact h1
  simp [getPrimaryOpenOracleDatabases, twinDataService, h0]

/-- C12: the primary of a secondary database is found by a linear search of the
fetched open primaries for equality of both `DbID` and `Name`; the database at
the lowest matching index is the one found, and its licenses are the ones
propagated. -/
theorem C12_first_match_wins (CoreFactor : OracleDatabase → Host → ℚ)
    (hds : HostDataService) (hostInfo : Host) (secondaryDb : OracleDatabase)
    (dbs : List OracleDatabase)
    (hdbs : getPrimaryOpenOracleDatabases hds = .ok dbs)
    (i : Nat) (primaryDb : OracleDatabase) (hi : dbs[i]? = some primaryDb)
    (hmatch : primaryDb.DbID = secondaryDb.DbID ∧ primaryDb.Name = secondaryDb.Name)
    (hfirst : ∀ j db, j < i → dbs[j]? = some db →
      ¬ (db.DbID = secondaryDb.DbID ∧ db.Name = secondaryDb.Name)) :
    findPrimaryDb dbs secondaryDb =
      dbs.find? (fun db => decide (db.DbID = secondaryDb.DbID ∧ db.Name = secondaryDb.Name)) ∧
    findPrimaryDb dbs secondaryDb = some primaryDb ∧
    (addLicensesToSecondaryDbs CoreFactor hds hostInfo secondaryDb).1.Licenses =
      primaryDb.Licenses.foldl
        (propagateLicense ((hostInfo.CPUCores : ℚ) * CoreFactor secondaryDb hostInfo))
        secondaryDb.Licenses := by
  have hfound := findPrimaryDb_first dbs secondaryDb i primaryDb hi hmatch hfirst
  refine ⟨findPrimaryDb_eq_find? dbs secondaryDb, hfound, ?_⟩
  rw [addLicenses_found CoreFactor hds hostInfo secondaryDb dbs primaryDb hdbs hfound]

/-- C12 on two open primaries of the identity of the standby, at indices 1 and
2: the licenses of the one at index 1 are propagated. -/
theorem C12_first_match_wins_witness :
    twinPrimaries[1]? = some primaryErcole ∧ twinPrimaries[2]? = some primaryErcoleTwin ∧
    (primaryErcoleTwin.DbID = standbyErcole.DbID ∧
      primaryErcoleTwin.Name = standbyErcole.Name) ∧
    findPrimaryDb twinPrimaries standbyErcole = some primaryErcole ∧
    (addLicensesToSecondaryDbs coreFactorHalf twinDataService hostB standbyErcole).1.Licenses =
      primaryErcole.Licenses.foldl
        (propagateLicense ((hostB.CPUCores : ℚ) * coreFactorHalf standbyErcole hostB))
        standbyErcole.Licenses :=
  ⟨rfl, rfl, ⟨rfl, rfl⟩,
    (C12_first_match_wins coreFactorHalf twinDataService hostB standbyErcole twinPrimaries
      twinDataService_primaries 1 primaryErcole rfl ⟨rfl, rfl⟩
      (by
        intro j db hj hdb
        have hj0 : j = 0 := by omega
        subst hj0
        simp only [twinPrimaries, List.getElem?_cons_zero, Option.some.injEq] at hdb
        subst hdb
        simp [primaryOther, standbyErcole])).2⟩

/-! ## The filtering loop of `getPrimaryOpenOracleDatabases` -/

/-- Removing the element that follows the prefix `pre`: the last element takes
its place, or the list just ends there. -/
theorem removeFromDBs_append (pre rest : List OracleDatabase) (x : OracleDatabase) :
    removeFromDBs (pre ++ x :: rest) pre.length =
      pre ++ (match rest.getLast? with
        | none => []
        | some last => last :: rest.dropLast) := by
  rcases List.eq_nil_or_concat rest with hnil | ⟨init, last, hrest⟩
  · subst hnil
    simp [removeFromDBs]
  · rw [List.concat_eq_append] at hrest
    subst hrest
    have hlast : (pre ++ x :: (init ++ [last])).getLast? = some last := by
      have : pre ++ x :: (init ++ [last]) = (pre ++ x :: init) ++ [last] := by simp
      rw [this, List.getLast?_append]
      simp
    simp only [removeFromDBs, hlast]
    have hset : (pre ++ x :: (init ++ [last])).set pre.length last =
        (pre ++ last :: init) ++ [last] := by
      rw [List.set_append_right _ _ (le_refl _)]
      simp
    rw [hset, List.dropLast_concat]
    simp

/-- The loop from index `i`: the first `i` databases stay, the others are
filtered, up to the order. -/
theorem filterPrimaryOpen_perm (dbs : List OracleDatabase) (i : Nat) :
    (filterPrimaryOpen dbs i).Perm
      (dbs.take i ++ (dbs.drop i).filter (fun db =>
        decide (db.Role = OracleDatabaseRolePrimary ∧ db.Status = OracleDatabaseStatusOpen))) := by
  induction dbs, i using filterPrimaryOpen.induct with
  | case1 dbs i h db hkeep ih =>
    rw [filterPrimaryOpen, dif_pos h]
    simp only
    rw [if_pos hkeep]
    refine ih.trans (List.Perm.of_eq ?_)
    have hdrop : dbs.drop i = dbs[i] :: dbs.drop (i + 1) := List.drop_eq_getElem_cons h
    have htake : dbs.take (i + 1) = dbs.take i ++ [dbs[i]] := by
      rw [List.take_succ, List.getElem?_eq_getElem h]
      rfl
    have hkeep2 : dbs[i].Role = OracleDatabaseRolePrimary ∧
        dbs[i].Status = OracleDatabaseStatusOpen := hkeep
    rw [hdrop, htake, List.filter_cons]
    simp only [decide_eq_true_eq]
    rw [if_pos hkeep2, List.append_assoc]
    rfl
  | case2 dbs i h db hdrop ih =>
    rw [filterPrimaryOpen, dif_pos h]
    simp only
    rw [if_neg hdrop]
    refine ih.trans ?_
    have hsplit : dbs = dbs.take i ++ dbs[i] :: dbs.drop (i + 1) := by
      rw [← List.drop_eq_getElem_cons h, List.take_append_drop]
    have hlen : (dbs.take i).length = i := by
      rw [List.length_take]
      omega
    have hdrop2 : ¬ (dbs[i].Role = OracleDatabaseRolePrimary ∧
        dbs[i].Status = OracleDatabaseStatusOpen) := hdrop
    have hfil : (dbs[i] :: dbs.drop (i + 1)).filter (fun db =>
        decide (db.Role = OracleDatabaseRolePrimary ∧ db.Status = OracleDatabaseStatusOpen)) =
        (dbs.drop (i + 1)).filter (fun db =>
        decide (db.Role = OracleDatabaseRolePrimary ∧ db.Status = OracleDatabaseStatusOpen)) := by
      rw [List.filter_cons]
      simp only [decide_eq_true_eq]
      rw [if_neg hdrop2]
    have hrem : removeFromDBs dbs i = dbs.take i ++
        (match (dbs.drop (i + 1)).getLast? with
          | none => []
          | some last => last :: (dbs.drop (i + 1)).dropLast) := by
      have := removeFromDBs_append (dbs.take i) (dbs.drop (i + 1)) dbs[i]
      rw [hlen, ← hsplit] at this
      exact this
    have hdropi : dbs.drop i = dbs[i] :: dbs.drop (i + 1) := List.drop_eq_getElem_cons h
    rw [hrem, hdropi, hfil]
    rw [List.take_left' hlen, List.drop_left' hlen]
    apply List.Perm.append_left
    apply List.Perm.filter
    rcases List.eq_nil_or_concat (dbs.drop (i + 1)) with hnil | ⟨init, last, hrest⟩
    · rw [hnil]
      simp
    · rw [List.concat_eq_append] at hrest
      rw [hrest]
      have hl : (init ++ [last]).getLast? = some last := by simp
      rw [hl, List.dropLast_concat]
      exact (List.perm_append_singleton last init).symm
  | case3 dbs i h =>
    rw [filterPrimaryOpen, dif_neg h]
    have hle : dbs.length ≤ i := by omega
    rw [List.take_of_length_le hle, List.drop_eq_nil_of_le hle]
    simp

/-- C13: when the databases are fetched and decoded, the filtering loop of
`getPrimaryOpenOracleDatabases` ends and returns a permutation of the decoded
databases with `Role = Primary` and `Status = Open`: every returned database
satisfies the predicate, and every decoded database that satisfies it is
returned. -/
theorem C13_filter_primary_open (hds : HostDataService) (resp : DatabasesResponse)
    (dbs : List OracleDatabase)
    (hget : hds.Get = .ok resp)
    (hstatus : 200 ≤ resp.StatusCode ∧ resp.StatusCode ≤ 299)
    (hdecode : resp.Decode = .ok dbs) :
    ∃ result, getPrimaryOpenOracleDatabases hds = .ok result ∧
      result.Perm (dbs.filter (fun db =>
        decide (db.Role = OracleDatabaseRolePrimary ∧ db.Status = OracleDatabaseStatusOpen))) ∧
      (∀ db ∈ result,
        db.Role = OracleDatabaseRolePrimary ∧ db.Status = OracleDatabaseStatusOpen) ∧
      (∀ db ∈ dbs, db.Role = OracleDatabaseRolePrimary → db.Status = OracleDatabaseStatusOpen →
        db ∈ result) := by
  have hperm : (filterPrimaryOpen dbs 0).Perm (dbs.filter (fun db =>
      decide (db.Role = OracleDatabaseRolePrimary ∧ db.Status = OracleDatabaseStatusOpen))) := by
    simpa using filterPrimaryOpen_perm dbs 0
  refine ⟨filterPrimaryOpen dbs 0, ?_, hperm, ?_, ?_⟩
  · unfold getPrimaryOpenOracleDatabases
    rw [hget]
    simp only
    rw [if_neg (by omega), hdecode]
  · intro db hdb
    have := (List.mem_filter.mp (hperm.mem_iff.mp hdb)).2
    simpa using this
  · intro db hdb hrole hst
    exact hperm.mem_iff.mpr (List.mem_filter.mpr ⟨hdb, by simp [hrole, hst]⟩)

/-- C13 on a mounted standby, an open primary and an open standby: only the open
primary is returned. -/
theorem C13_filter_primary_open_witness :
    ∃ result, getPrimaryOpenOracleDatabases mixedDataService = .ok result ∧
      result.Perm ([standbyErcole, primaryErcole, standbyOpen].filter (fun db =>
        decide (db.Role = OracleDatabaseRolePrimary ∧ db.Status = OracleDatabaseStatusOpen))) ∧
      (∀ db ∈ result,
        db.Role = OracleDatabaseRolePrimary ∧ db.Status = OracleDatabaseStatusOpen) ∧
      (∀ db ∈ [standbyErcole, primaryErcole, standbyOpen],
        db.Role = OracleDatabaseRolePrimary → db.Status = OracleDatabaseStatusOpen →
        db ∈ result) :=
  C13_filter_primary_open mixedDataService
    { StatusCode := 200, Decode := .ok [standbyErcole, primaryErcole, standbyOpen] }
    [standbyErcole, primaryErcole, standbyOpen] rfl (by decide) rfl

/-! ## Claims on the failures of `GetOracleDatabaseLicensesCompliance` -/

/-- The result when the four collaborators answer. -/
theorem result_eq (as : APIService) (order : MapOrder)
    (agreements0 : List OracleDatabaseAgreementFE)
    (hosts0 : List HostUsingOracleDatabaseLicenses)
    (hags : as.ListOracleDatabaseAgreements = .ok agreements0)
    (hhs : as.ListHostUsingOracleDatabaseLicenses = .ok hosts0)
    (agreements : List OracleDatabaseAgreementFE)
    (hosts : List HostUsingOracleDatabaseLicenses)
    (hassign : as.assignOracleDatabaseAgreementsToHosts agreements0 hosts0 =
      .ok (agreements, hosts))
    (parts : List OracleDatabasePart) (hparts : as.GetOracleDatabaseParts = .ok parts) :
    GetOracleDatabaseLicensesCompliance as order =
      .ok ((order.iter ((licensesMap agreements hosts).map Prod.snd)).map
        (finishLicense (parts.foldl (fun (partsMap : GoMap OracleDatabasePart) part => partsMap.set part.PartID part) []))) := by
  unfold GetOracleDatabaseLicensesCompliance GetOracleDatabaseAgreementPartsMap
  rw [hags, hhs]
  simp only [hassign, hparts]

theorem mem_keys_partsMap (parts : List OracleDatabasePart) (m : GoMap OracleDatabasePart)
    (k : String) :
    k ∈ (parts.foldl (fun (partsMap : GoMap OracleDatabasePart) part => partsMap.set part.PartID part) m).keys ↔
      k ∈ m.keys ∨ ∃ part ∈ parts, part.PartID = k := by
  induction parts generalizing m with
  | nil => simp
  | cons x xs ih =>
    rw [List.foldl_cons, ih, mem_keys_set]
    simp only [List.mem_cons, exists_eq_or_imp]
    constructor
    · rintro ((h | h) | h)
      · exact Or.inl h
      · exact Or.inr (Or.inl h.symm)
      · exact Or.inr (Or.inr h)
    · rintro (h | h | h)
      · exact Or.inl (Or.inl h)
      · exact Or.inl (Or.inr h.symm)
      · exact Or.inr h

/-- A part identifier absent from the catalogue reads as the zero value. -/
theorem partsAt_missing (parts : List OracleDatabasePart) (k : String)
    (hmiss : ∀ part ∈ parts, part.PartID ≠ k) :
    partsAt (parts.foldl (fun (partsMap : GoMap OracleDatabasePart) part => partsMap.set part.PartID part) []) k = {} := by
  have hnot : k ∉ (parts.foldl (fun (partsMap : GoMap OracleDatabasePart) part => partsMap.set part.PartID part)
      ([] : GoMap OracleDatabasePart)).keys := by
    rw [mem_keys_partsMap]
    rintro (h | ⟨part, hp, hk⟩)
    · simp [GoMap.keys] at h
    · exact hmiss part hp hk
  unfold partsAt
  cases hget : (parts.foldl (fun (partsMap : GoMap OracleDatabasePart) part => partsMap.set part.PartID part)
      ([] : GoMap OracleDatabasePart)).get? k with
  | none => rfl
  | some v => exact absurd ((GoMap.mem_keys_iff_get? _ k).mpr ⟨v, hget⟩) hnot

/-- C19: `GetOracleDatabaseLicensesCompliance` returns the error, and no result,
of the first of its four steps that fails (listing the agreements, listing the
hosts using licenses, assigning agreements to hosts, reading the parts
catalogue); it returns a result, and no error, exactly when the four steps
succeed. -/
theorem C19_error_or_result (as : APIService) (order : MapOrder) :
    (∀ err, as.ListOracleDatabaseAgreements = .error err →
      GetOracleDatabaseLicensesCompliance as order = .error err) ∧
    (∀ agreements0 err, as.ListOracleDatabaseAgreements = .ok agreements0 →
      as.ListHostUsingOracleDatabaseLicenses = .error err →
      GetOracleDatabaseLicensesCompliance as order = .error err) ∧
    (∀ agreements0 hosts0 err2, as.ListOracleDatabaseAgreements = .ok agreements0 →
      as.ListHostUsingOracleDatabaseLicenses = .ok hosts0 →
      as.assignOracleDatabaseAgreementsToHosts agreements0 hosts0 = .error err2 →
      GetOracleDatabaseLicensesCompliance as order =
        .error (NewAdvancedErrorPtr (some err2) "DB ERROR")) ∧
    (∀ agreements0 hosts0 assigned err, as.ListOracleDatabaseAgreements = .ok agreements0 →
      as.ListHostUsingOracleDatabaseLicenses = .ok hosts0 →
      as.assignOracleDatabaseAgreementsToHosts agreements0 hosts0 = .ok assigned →
      as.GetOracleDatabaseParts = .error err →
      GetOracleDatabaseLicensesCompliance as order =
        .error (NewAdvancedErrorPtr (some err) "DB ERROR")) ∧
    ((∃ result, GetOracleDatabaseLicensesCompliance as order = .ok result) ↔
      ∃ agreements0 hosts0 assigned parts,
        as.ListOracleDatabaseAgreements = .ok agreements0 ∧
        as.ListHostUsingOracleDatabaseLicenses = .ok hosts0 ∧
        as.assignOracleDatabaseAgreementsToHosts agreements0 hosts0 = .ok assigned ∧
        as.GetOracleDatabaseParts = .ok parts) := by
  refine ⟨?_, ?_, ?_, ?_, ?_⟩
  · intro err h
    unfold GetOracleDatabaseLicensesCompliance
    rw [h]
  · intro agreements0 err h1 h2
    unfold GetOracleDatabaseLicensesCompliance
    rw [h1, h2]
  · intro agreements0 hosts0 err2 h1 h2 h3
    unfold GetOracleDatabaseLicensesCompliance
    rw [h1, h2]
    simp only [h3]
  · intro agreements0 hosts0 assigned err h1 h2 h3 h4
    obtain ⟨agreements, hosts⟩ := assigned
    unfold GetOracleDatabaseLicensesCompliance GetOracleDatabaseAgreementPartsMap
    rw [h1, h2]
    simp only [h3, h4]
  · constructor
    · rintro ⟨result, hres⟩
      unfold GetOracleDatabaseLicensesCompliance GetOracleDatabaseAgreementPartsMap at hres
      cases h1 : as.ListOracleDatabaseAgreements with
      | error err => simp [h1] at hres
      | ok agreements0 =>
        cases h2 : as.ListHostUsingOracleDatabaseLicenses with
        | error err => simp [h1, h2] at hres
        | ok hosts0 =>
          cases h3 : as.assignOracleDatabaseAgreementsToHosts agreements0 hosts0 with
          | error err => simp [h1, h2, h3] at hres
          | ok assigned =>
            cases h4 : as.GetOracleDatabaseParts with
            | error err => simp [h1, h2, h3, h4] at hres
            | ok parts => exact ⟨agreements0, hosts0, assigned, parts, rfl, rfl, h3, rfl⟩
    · rintro ⟨agreements0, hosts0, ⟨agreements, hosts⟩, parts, h1, h2, h3, h4⟩
      exact ⟨_, result_eq as order agreements0 hosts0 h1 h2 agreements hosts h3 parts h4⟩

/-- C19 on a service whose parts catalogue cannot be read: the call returns the
error of the catalogue and no result. -/
theorem C19_error_or_result_witness :
    GetOracleDatabaseLicensesCompliance failingPartsService MapOrder.insertion =
      .error (NewAdvancedErrorPtr (some "connection closed") "DB ERROR") ∧
    ∃ result, GetOracleDatabaseLicensesCompliance exampleService MapOrder.insertion =
      .ok result :=
  ⟨(C19_error_or_result failingPartsService MapOrder.insertion).2.2.2.1 _ _ _
      "connection closed" rfl rfl rfl rfl,
    (C19_error_or_result exampleService MapOrder.insertion).2.2.2.2.mpr
      ⟨_, _, _, _, rfl, rfl, rfl, rfl⟩⟩

/-- C20: when the four steps succeed and a part identifier occurring among the
host usage records or the agreements has no entry in the parts catalogue, the
call succeeds, the result has an entry for that part, and every entry of that
part has empty `ItemDescription` and `Metric` while its `Consumed`, `Covered`
and `Compliance` are computed as for any part. -/
theorem C20_missing_catalog_entry (as : APIService) (order : MapOrder)
    (agreements0 : List OracleDatabaseAgreementFE)
    (hosts0 : List HostUsingOracleDatabaseLicenses)
    (hags : as.ListOracleDatabaseAgreements = .ok agreements0)
    (hhs : as.ListHostUsingOracleDatabaseLicenses = .ok hosts0)
    (agreements : List OracleDatabaseAgreementFE)
    (hosts : List HostUsingOracleDatabaseLicenses)
    (hassign : as.assignOracleDatabaseAgreementsToHosts agreements0 hosts0 =
      .ok (agreements, hosts))
    (parts : List OracleDatabasePart) (hparts : as.GetOracleDatabaseParts = .ok parts)
    (k : String)
    (hk : (∃ h ∈ hosts, h.PartID = k) ∨ ∃ a ∈ agreements, a.PartID = k)
    (hmiss : ∀ part ∈ parts, part.PartID ≠ k) :
    ∃ result, GetOracleDatabaseLicensesCompliance as order = .ok result ∧
      (∃ e ∈ result, e.PartID = k) ∧
      ∀ e ∈ result, e.PartID = k →
        e.ItemDescription = "" ∧ e.Metric = "" ∧
        e.Consumed =
          ((hosts.filter (fun h => h.PartID = k)).map (fun h => h.OriginalCount)).sum ∧
        e.Covered =
          ((agreements.filter (fun a => a.PartID = k)).map
            (fun a => (a.Hosts.map (fun h => h.CoveredLicensesCount)).sum)).sum ∧
        e.Compliance = (if e.Consumed = 0 then 1 else e.Covered / e.Consumed) := by
  have hres := result_eq as order agreements0 hosts0 hags hhs agreements hosts hassign parts hparts
  refine ⟨_, hres, ?_, ?_⟩
  · exact result_has_entry as order _ hres agreements0 hosts0 hags hhs agreements hosts
      hassign k hk
  · intro e he hid
    obtain ⟨hcons, hcov, _, hr, _⟩ :=
      result_entry as order _ hres agreements0 hosts0 hags hhs agreements hosts hassign e he
    obtain ⟨l, _, hel⟩ := List.mem_map.mp he
    have hlid : l.PartID = k := by
      rw [← hid, ← hel]
      exact ((finishLicense_fields _ l).1).symm
    have hdesc : e.ItemDescription = "" := by
      rw [← hel]
      simp only [finishLicense]
      split <;> simp only [hlid, partsAt_missing parts k hmiss]
    have hmetric : e.Metric = "" := by
      rw [← hel]
      simp only [finishLicense]
      split <;> simp only [hlid, partsAt_missing parts k hmiss]
    rw [hid] at hcons hcov
    exact ⟨hdesc, hmetric, hcons, hcov, hr⟩

/-- C20 on a catalogue that does not list the consumed part A90611. -/
theorem C20_missing_catalog_entry_witness :
    ∃ result, GetOracleDatabaseLicensesCompliance uncataloguedService MapOrder.insertion =
        .ok result ∧
      (∃ e ∈ result, e.PartID = "A90611") ∧
      ∀ e ∈ result, e.PartID = "A90611" →
        e.ItemDescription = "" ∧ e.Metric = "" ∧
        e.Consumed =
          ((([{ Name := "h1", PartID := "A90611", OriginalCount := 5 },
              { Name := "h2", PartID := "A90611", OriginalCount := 7 }] :
              List HostUsingOracleDatabaseLicenses).filter
                (fun h => h.PartID = "A90611")).map (fun h => h.OriginalCount)).sum ∧
        e.Covered =
          ((([{ PartID := "A90611",
                Hosts := [{ Hostname := "h1", CoveredLicensesCount := 10 }] }] :
              List OracleDatabaseAgreementFE).filter (fun a => a.PartID = "A90611")).map
            (fun a => (a.Hosts.map (fun h => h.CoveredLicensesCount)).sum)).sum ∧
        e.Compliance = (if e.Consumed = 0 then 1 else e.Covered / e.Consumed) :=
  C20_missing_catalog_entry uncataloguedService MapOrder.insertion _ _ rfl rfl _ _ rfl _ rfl
    "A90611" (Or.inl ⟨{ Name := "h1", PartID := "A90611", OriginalCount := 5 },
      List.mem_cons_self _ _, rfl⟩)
    (by
      intro part hpart
      rw [List.mem_singleton] at hpart
      subst hpart
      decide)

/-! ## License compliance statistics: hosts and groups -/

theorem foldl_max_ge_init (l : List ℚ) (a : ℚ) :
    a ≤ l.foldl (fun value this => max value this) a := by
  induction l generalizing a with
  | nil => exact le_refl a
  | cons x xs ih => exact le_trans (le_max_left a x) (ih (max a x))

theorem foldl_max_ge_mem (l : List ℚ) (a : ℚ) :
    ∀ x ∈ l, x ≤ l.foldl (fun value this => max value this) a := by
  induction l generalizing a with
  | nil => intro x hx; simp at hx
  | cons y ys ih =>
    intro x hx
    rcases List.mem_cons.mp hx with h | h
    · subst h
      exact le_trans (le_max_right a x) (foldl_max_ge_init ys (max a x))
    · exact ih (max a y) x h

theorem foldl_max_mem (l : List ℚ) (a : ℚ) :
    l.foldl (fun value this => max value this) a = a ∨
      l.foldl (fun value this => max value this) a ∈ l := by
  induction l generalizing a with
  | nil => exact Or.inl rfl
  | cons y ys ih =>
    rcases ih (max a y) with h | h
    · rcases max_choice a y with hm | hm
      · left
        rw [List.foldl_cons, h, hm]
      · right
        rw [List.foldl_cons, h, hm]
        exact List.mem_cons_self _ _
    · right
      exact List.mem_cons_of_mem _ h

theorem mem_positiveCounts (license_name : String) (host : HostDocument) (x : ℚ) :
    x ∈ positiveCounts license_name host ↔
      ∃ db ∈ host.databases, licenseCountOf license_name db = some x ∧ 0 < x := by
  unfold positiveCounts
  rw [List.mem_filterMap]
  constructor
  · rintro ⟨db, hdb, hx⟩
    cases hc : licenseCountOf license_name db with
    | none => simp [hc, Option.filter] at hx
    | some c =>
      simp only [hc, Option.filter] at hx
      by_cases hpos : c > 0
      · simp only [hpos, decide_True, if_true, Option.some.injEq] at hx
        subst hx
        exact ⟨db, hdb, hc, hpos⟩
      · simp [hpos] at hx
  · rintro ⟨db, hdb, hc, hpos⟩
    refine ⟨db, hdb, ?_⟩
    simp [hc, Option.filter, hpos]

/-- A positive `databases.count` is the largest positive count of the license
among the databases of the host. -/
theorem databasesCount_max (license_name : String) (host : HostDocument)
    (hpos : 0 < databasesCount license_name host) :
    (∃ db ∈ host.databases,
      licenseCountOf license_name db = some (databasesCount license_name host)) ∧
    ∀ db ∈ host.databases, ∀ x, licenseCountOf license_name db = some x →
      x ≤ databasesCount license_name host := by
  constructor
  · rcases foldl_max_mem (positiveCounts license_name host) 0 with h | h
    · exfalso
      unfold databasesCount at hpos
      rw [h] at hpos
      exact lt_irrefl 0 hpos
    · obtain ⟨db, hdb, hc, _⟩ := (mem_positiveCounts license_name host _).mp h
      exact ⟨db, hdb, hc⟩
  · intro db hdb x hx
    by_cases hx0 : 0 < x
    · exact foldl_max_ge_mem _ 0 x
        ((mem_positiveCounts license_name host x).mpr ⟨db, hdb, hx, hx0⟩)
    · exact le_trans (not_lt.mp hx0) (le_of_lt hpos)

theorem mem_hostUsages (license_name : String) (hosts : List HostDocument)
    (clusters : List ClusterDocument) (usage : HostUsage) :
    usage ∈ hostUsages license_name hosts clusters ↔
      ∃ host ∈ hosts, host.archived = false ∧ 0 < databasesCount license_name host ∧
        usage = attachCluster clusters (host.hostname, databasesCount license_name host) := by
  unfold hostUsages
  simp only [List.mem_map, List.mem_filter, decide_eq_true_eq]
  constructor
  · rintro ⟨p, ⟨⟨host, ⟨hh, harch⟩, rfl⟩, hpos⟩, rfl⟩
    exact ⟨host, hh, harch, hpos, rfl⟩
  · rintro ⟨host, hh, harch, hpos, rfl⟩
    exact ⟨_, ⟨⟨host, ⟨hh, harch⟩, rfl⟩, hpos⟩, rfl⟩

theorem addToGroup_eq (groups : GoMap UsageGroup) (usage : HostUsage) :
    addToGroup groups usage =
      groups.set (groupKey usage) (mergeGroup (groups.get? (groupKey usage)) usage) := by
  unfold addToGroup mergeGroup
  cases groups.get? (groupKey usage) <;> rfl

theorem get?_addToGroup (groups : GoMap UsageGroup) (usage : HostUsage) (k : String) :
    (addToGroup groups usage).get? k =
      if groupKey usage = k then some (mergeGroup (groups.get? k) usage)
      else groups.get? k := by
  rw [addToGroup_eq]
  by_cases h : groupKey usage = k
  · subst h
    rw [GoMap.get?_set_self, if_pos rfl]
  · rw [GoMap.get?_set_ne _ _ _ _ h, if_neg h]

/-- The group stored under a key is accumulated from the hosts of that key. -/
theorem get?_foldl_addToGroup (usages : List HostUsage) (groups : GoMap UsageGroup)
    (k : String) :
    (usages.foldl addToGroup groups).get? k =
      accumulateGroup (groups.get? k)
        (usages.filter (fun usage => decide (groupKey usage = k))) := by
  induction usages generalizing groups with
  | nil => rfl
  | cons u us ih =>
    rw [List.foldl_cons, ih, get?_addToGroup, List.filter_cons]
    by_cases h : groupKey u = k
    · simp only [h, decide_True, if_true]
      rfl
    · simp only [h, decide_False, if_false]
      rfl

theorem groupUsages_keys_nodup (usages : List HostUsage) :
    (groupUsages usages).keys.Nodup := by
  unfold groupUsages
  have hgen : ∀ (groups : GoMap UsageGroup), groups.keys.Nodup →
      (usages.foldl addToGroup groups).keys.Nodup := by
    induction usages with
    | nil => intro groups h; exact h
    | cons u us ih =>
      intro groups h
      rw [List.foldl_cons]
      apply ih
      rw [addToGroup_eq]
      exact GoMap.keys_set_nodup _ _ _ h
  exact hgen [] (by simp [GoMap.keys])

theorem mem_keys_groupUsages (usages : List HostUsage) (k : String) :
    k ∈ (groupUsages usages).keys ↔ ∃ usage ∈ usages, groupKey usage = k := by
  unfold groupUsages
  have hgen : ∀ (groups : GoMap UsageGroup),
      k ∈ (usages.foldl addToGroup groups).keys ↔
        k ∈ groups.keys ∨ ∃ usage ∈ usages, groupKey usage = k := by
    induction usages with
    | nil => intro groups; simp
    | cons u us ih =>
      intro groups
      rw [List.foldl_cons, ih, addToGroup_eq, mem_keys_set]
      simp only [List.mem_cons, exists_eq_or_imp]
      constructor
      · rintro ((h | h) | h)
        · exact Or.inl h
        · exact Or.inr (Or.inl h.symm)
        · exact Or.inr (Or.inr h)
      · rintro (h | h | h)
        · exact Or.inl (Or.inl h)
        · exact Or.inl (Or.inr h.symm)
        · exact Or.inr h
  rw [hgen]
  simp [GoMap.keys]

/-- A stored group is the accumulation of the hosts of its key. -/
theorem group_of_mem (usages : List HostUsage) (key : String) (group : UsageGroup)
    (hmem : (key, group) ∈ groupUsages usages) :
    accumulateGroup none (usages.filter (fun usage => decide (groupKey usage = key))) =
      some group := by
  have hget := GoMap.get?_of_mem _ (groupUsages_keys_nodup usages) (key, group) hmem
  unfold groupUsages at hget
  rw [get?_foldl_addToGroup] at hget
  exact hget

theorem maxSkippingNull_left (a b : Option ℚ) (c : ℚ) (h : a = some c) :
    ∃ c2, maxSkippingNull a b = some c2 ∧ c ≤ c2 := by
  subst h
  cases b with
  | none => exact ⟨c, rfl, le_refl c⟩
  | some d => exact ⟨max c d, rfl, le_max_left c d⟩

theorem maxSkippingNull_right (a b : Option ℚ) (c : ℚ) (h : b = some c) :
    ∃ c2, maxSkippingNull a b = some c2 ∧ c ≤ c2 := by
  subst h
  cases a with
  | none => exact ⟨c, rfl, le_refl c⟩
  | some d => exact ⟨max d c, rfl, le_max_right d c⟩

theorem maxSkippingNull_choice (a b : Option ℚ) :
    maxSkippingNull a b = a ∨ maxSkippingNull a b = b := by
  cases a with
  | none => exact Or.inr rfl
  | some c =>
    cases b with
    | none => exact Or.inl rfl
    | some d =>
      rcases max_choice c d with h | h
      · left
        simp [maxSkippingNull, h]
      · right
        simp [maxSkippingNull, h]

/-- Accumulating hosts into a stored group: `license` is the largest count seen,
`cluster_cpu` the largest CPU figure seen. -/
theorem accumulateGroup_some (members : List HostUsage) (stored : UsageGroup) :
    ∃ group, accumulateGroup (some stored) members = some group ∧
      stored.license ≤ group.license ∧
      (∀ usage ∈ members, usage.count ≤ group.license) ∧
      (group.license = stored.license ∨ ∃ usage ∈ members, usage.count = group.license) ∧
      (∀ c, stored.cluster_cpu = some c → ∃ c2, group.cluster_cpu = some c2 ∧ c ≤ c2) ∧
      (∀ usage ∈ members, ∀ c, usage.cluster_cpu = some c →
        ∃ c2, group.cluster_cpu = some c2 ∧ c ≤ c2) ∧
      (group.cluster_cpu = stored.cluster_cpu ∨
        ∃ usage ∈ members, usage.cluster_cpu = group.cluster_cpu) := by
  induction members generalizing stored with
  | nil =>
    exact ⟨stored, rfl, le_refl _, by simp, Or.inl rfl, fun c h => ⟨c, h, le_refl c⟩, by simp,
      Or.inl rfl⟩
  | cons u us ih =>
    obtain ⟨group, hacc, hle, hall, hex, hcpu0, hcpuall, hcpuex⟩ :=
      ih (mergeGroup (some stored) u)
    have hlic : (mergeGroup (some stored) u).license = max stored.license u.count := rfl
    have hcpu : (mergeGroup (some stored) u).cluster_cpu =
        maxSkippingNull stored.cluster_cpu u.cluster_cpu := rfl
    rw [hlic] at hle hex
    rw [hcpu] at hcpu0 hcpuex
    refine ⟨group, hacc, le_trans (le_max_left _ _) hle, ?_, ?_, ?_, ?_, ?_⟩
    · intro x hx
      rcases List.mem_cons.mp hx with h | h
      · subst h
        exact le_trans (le_max_right _ _) hle
      · exact hall x h
    · rcases hex with h | ⟨x, hx, hxc⟩
      · rcases max_choice stored.license u.count with hm | hm
        · exact Or.inl (h.trans hm)
        · exact Or.inr ⟨u, List.mem_cons_self _ _, (h.trans hm).symm⟩
      · exact Or.inr ⟨x, List.mem_cons_of_mem _ hx, hxc⟩
    · intro c hc
      obtain ⟨c2, h2, hle2⟩ := maxSkippingNull_left _ u.cluster_cpu c hc
      obtain ⟨c3, h3, hle3⟩ := hcpu0 c2 h2
      exact ⟨c3, h3, le_trans hle2 hle3⟩
    · intro x hx c hc
      rcases List.mem_cons.mp hx with h | h
      · subst h
        obtain ⟨c2, h2, hle2⟩ := maxSkippingNull_right stored.cluster_cpu _ c hc
        obtain ⟨c3, h3, hle3⟩ := hcpu0 c2 h2
        exact ⟨c3, h3, le_trans hle2 hle3⟩
      · exact hcpuall x h c hc
    · rcases hcpuex with h | ⟨x, hx, hxc⟩
      · rcases maxSkippingNull_choice stored.cluster_cpu u.cluster_cpu with hm | hm
        · exact Or.inl (h.trans hm)
        · exact Or.inr ⟨u, List.mem_cons_self _ _, (h.trans hm).symm⟩
      · exact Or.inr ⟨x, List.mem_cons_of_mem _ hx, hxc⟩

/-- A group accumulated from scratch: `license` is the largest count of its
hosts and `cluster_cpu` the largest CPU figure of their clusters. -/
theorem accumulateGroup_none (members : List HostUsage) (group : UsageGroup)
    (h : accumulateGroup none members = some group) :
    (∃ usage ∈ members, usage.count = group.license) ∧
    (∀ usage ∈ members, usage.count ≤ group.license) ∧
    (∀ usage ∈ members, ∀ c, usage.cluster_cpu = some c →
      ∃ c2, group.cluster_cpu = some c2 ∧ c ≤ c2) ∧
    (∃ usage ∈ members, usage.cluster_cpu = group.cluster_cpu) := by
  cases members with
  | nil => simp [accumulateGroup] at h
  | cons u us =>
    obtain ⟨g, hacc, hle, hall, hex, hcpu0, hcpuall, hcpuex⟩ :=
      accumulateGroup_some us (mergeGroup none u)
    have hstep : accumulateGroup none (u :: us) = accumulateGroup (some (mergeGroup none u)) us :=
      rfl
    rw [hstep, hacc] at h
    have hg : g = group := Option.some.inj h
    subst hg
    have hlic : (mergeGroup none u).license = u.count := rfl
    have hcpu : (mergeGroup none u).cluster_cpu = u.cluster_cpu := rfl
    rw [hlic] at hle hex
    rw [hcpu] at hcpu0 hcpuex
    refine ⟨?_, ?_, ?_, ?_⟩
    · rcases hex with h1 | ⟨x, hx, hxc⟩
      · exact ⟨u, List.mem_cons_self _ _, h1.symm⟩
      · exact ⟨x, List.mem_cons_of_mem _ hx, hxc⟩
    · intro x hx
      rcases List.mem_cons.mp hx with h1 | h1
      · subst h1
        exact hle
      · exact hall x h1
    · intro x hx c hc
      rcases List.mem_cons.mp hx with h1 | h1
      · subst h1
        exact hcpu0 c hc
      · exact hcpuall x h1 c hc
    · rcases hcpuex with h1 | ⟨x, hx, hxc⟩
      · exact ⟨u, List.mem_cons_self _ _, h1.symm⟩
      · exact ⟨x, List.mem_cons_of_mem _ hx, hxc⟩

theorem hostUsages_examples (cluster : ClusterDocument) (hname : cluster.name = "X")
    (hvms : cluster.vms = ["h1", "h2"]) :
    hostUsages "L1" [hostThree, hostFive] [cluster] = usagesInCluster cluster.cpu := by
  simp [hostUsages, hostThree, hostFive, databasesCount, positiveCounts, licenseCountOf,
    Option.filter, attachCluster, lookupCluster, usagesInCluster, hname, hvms]

theorem licenseGroups_examples (cluster : ClusterDocument) (hname : cluster.name = "X")
    (hvms : cluster.vms = ["h1", "h2"]) :
    licenseGroups "L1" [hostThree, hostFive] [cluster] =
      [("cluster_§$#$§_X",
        { license := 5, cluster_cpu := maxSkippingNull cluster.cpu cluster.cpu })] := by
  unfold licenseGroups
  rw [hostUsages_examples cluster hname hvms]
  simp [groupUsages, usagesInCluster, addToGroup, groupKey, GoMap.get?, GoMap.set]
  norm_num

theorem string_append_cancel (p a b : String) (h : p ++ a = p ++ b) : a = b := by
  have h2 := congrArg String.data h
  simp only [String.data_append] at h2
  exact String.ext (List.append_cancel_left h2)

theorem cluster_key_ne_host_key (a b : String) :
    "cluster_§$#$§_" ++ a ≠ "hostname_§$#$§_" ++ b := by
  intro h
  have h2 := congrArg String.data h
  simp only [String.data_append] at h2
  have h3 := congrArg List.head? h2
  simp at h3

/-- The facts on a group of a license: its hosts, the largest count and the
largest CPU figure among them. -/
theorem licenseGroups_group (license_name : String) (hosts : List HostDocument)
    (clusters : List ClusterDocument) (key : String) (group : UsageGroup)
    (hgroup : (key, group) ∈ licenseGroups license_name hosts clusters) :
    (∃ usage ∈ hostUsages license_name hosts clusters,
      groupKey usage = key ∧ usage.count = group.license) ∧
    (∀ usage ∈ hostUsages license_name hosts clusters, groupKey usage = key →
      usage.count ≤ group.license) ∧
    (∀ usage ∈ hostUsages license_name hosts clusters, groupKey usage = key →
      ∀ c, usage.cluster_cpu = some c → ∃ c2, group.cluster_cpu = some c2 ∧ c ≤ c2) ∧
    (∃ usage ∈ hostUsages license_name hosts clusters,
      groupKey usage = key ∧ usage.cluster_cpu = group.cluster_cpu) := by
  have hacc := group_of_mem (hostUsages license_name hosts clusters) key group hgroup
  obtain ⟨⟨u, hu, huc⟩, hall, hcpuall, ⟨v, hv, hvc⟩⟩ := accumulateGroup_none _ group hacc
  have hmem : ∀ usage, usage ∈ (hostUsages license_name hosts clusters).filter
      (fun usage => decide (groupKey usage = key)) ↔
      usage ∈ hostUsages license_name hosts clusters ∧ groupKey usage = key := by
    intro usage
    simp [List.mem_filter]
  refine ⟨⟨u, ((hmem u).mp hu).1, ((hmem u).mp hu).2, huc⟩, ?_, ?_,
    ⟨v, ((hmem v).mp hv).1, ((hmem v).mp hv).2, hvc⟩⟩
  · intro usage h1 h2
    exact hall usage ((hmem usage).mpr ⟨h1, h2⟩)
  · intro usage h1 h2
    exact hcpuall usage ((hmem usage).mpr ⟨h1, h2⟩)

/-! ## Claims on `GetDatabaseLicenseComplianceStatusStats` -/

/-- C14: for a group of a license none of whose hosts has a cluster with a CPU
figure, the consumption of the group is the largest `databases.count` among the
hosts of the group (some host of the group has it, none exceeds it), and the
`databases.count` of a host is the largest count of the license among the
databases of the host, which is positive. -/
theorem C14_group_maximum (license_name : String) (hosts : List HostDocument)
    (clusters : List ClusterDocument) (key : String) (group : UsageGroup)
    (hgroup : (key, group) ∈ licenseGroups license_name hosts clusters)
    (hcpu : ∀ usage ∈ hostUsages license_name hosts clusters, groupKey usage = key →
      usage.cluster_cpu = none) :
    (∃ usage ∈ hostUsages license_name hosts clusters,
      groupKey usage = key ∧ usage.count = groupLicense group) ∧
    (∀ usage ∈ hostUsages license_name hosts clusters, groupKey usage = key →
      usage.count ≤ groupLicense group) ∧
    (∀ usage ∈ hostUsages license_name hosts clusters,
      ∃ host ∈ hosts, host.archived = false ∧ host.hostname = usage.hostname ∧
        0 < usage.count ∧
        (∃ db ∈ host.databases, licenseCountOf license_name db = some usage.count) ∧
        ∀ db ∈ host.databases, ∀ x, licenseCountOf license_name db = some x →
          x ≤ usage.count) := by
  obtain ⟨hex, hall, _, ⟨v, hv, hvk, hvc⟩⟩ :=
    licenseGroups_group license_name hosts clusters key group hgroup
  have hnone : group.cluster_cpu = none := by
    rw [← hvc]
    exact hcpu v hv hvk
  have hlic : groupLicense group = group.license := by
    unfold groupLicense
    rw [hnone]
  rw [hlic]
  refine ⟨hex, hall, ?_⟩
  intro usage husage
  obtain ⟨host, hh, harch, hpos, rfl⟩ :=
    (mem_hostUsages license_name hosts clusters usage).mp husage
  obtain ⟨hdb, hmax⟩ := databasesCount_max license_name host hpos
  exact ⟨host, hh, harch, rfl, hpos, hdb, hmax⟩

/-- C14 on two hosts of a cluster without CPU figure whose counts are 3 and 5:
the consumption of the group is 5, not 8. -/
theorem C14_group_maximum_witness :
    licenseGroups "L1" [hostThree, hostFive] [clusterBare] =
      [("cluster_§$#$§_X", { license := 5, cluster_cpu := none })] ∧
    groupLicense { license := 5, cluster_cpu := none } = 5 ∧
    (∃ usage ∈ hostUsages "L1" [hostThree, hostFive] [clusterBare],
      groupKey usage = "cluster_§$#$§_X" ∧
      usage.count = groupLicense { license := 5, cluster_cpu := none }) ∧
    (∀ usage ∈ hostUsages "L1" [hostThree, hostFive] [clusterBare],
      groupKey usage = "cluster_§$#$§_X" →
      usage.count ≤ groupLicense { license := 5, cluster_cpu := none }) := by
  have hgroups : licenseGroups "L1" [hostThree, hostFive] [clusterBare] =
      [("cluster_§$#$§_X", { license := 5, cluster_cpu := none })] := by
    rw [licenseGroups_examples clusterBare rfl rfl]
    rfl
  have h := C14_group_maximum "L1" [hostThree, hostFive] [clusterBare] "cluster_§$#$§_X"
    { license := 5, cluster_cpu := none } (by rw [hgroups]; exact List.mem_singleton.mpr rfl)
    (by
      rw [hostUsages_examples clusterBare rfl rfl]
      intro usage hu _
      simp only [usagesInCluster, List.mem_cons, List.mem_singleton, List.not_mem_nil,
        or_false] at hu
      rcases hu with hu | hu <;> subst hu <;> rfl)
  exact ⟨hgroups, rfl, h.1, h.2.1⟩

/-- C15 (as stated, refuted): two hosts with counts 3 and 5 in a cluster whose
aggregate CPU figure is 0 form a group whose consumption is 5, not 0 / 2. -/
theorem C15_zero_figure_counterexample :
    clusterZero.cpu = some 0 ∧
    hostUsages "L1" [hostThree, hostFive] [clusterZero] = usagesInCluster (some 0) ∧
    licenseGroups "L1" [hostThree, hostFive] [clusterZero] =
      [("cluster_§$#$§_X", { license := 5, cluster_cpu := some 0 })] ∧
    groupLicense { license := 5, cluster_cpu := some 0 } = 5 ∧
    groupLicense { license := 5, cluster_cpu := some 0 } ≠ 0 / 2 := by
  refine ⟨rfl, hostUsages_examples clusterZero rfl rfl, ?_, ?_, ?_⟩
  · rw [licenseGroups_examples clusterZero rfl rfl]
    simp [clusterZero, maxSkippingNull]
  · simp [groupLicense]
  · simp [groupLicense]

/-- C15 (amended): when the largest aggregate CPU figure among the clusters of
the hosts of a group is not 0, the consumption of the group is that figure
divided by 2, whatever the counts of its hosts. -/
theorem C15_cluster_figure_halved (license_name : String) (hosts : List HostDocument)
    (clusters : List ClusterDocument) (key : String) (group : UsageGroup)
    (hgroup : (key, group) ∈ licenseGroups license_name hosts clusters)
    (cpu : ℚ) (hcpu : group.cluster_cpu = some cpu) (hnonzero : cpu ≠ 0) :
    groupLicense group = cpu / 2 ∧
    (∃ usage ∈ hostUsages license_name hosts clusters,
      groupKey usage = key ∧ usage.cluster_cpu = some cpu ∧
      ∃ cluster, lookupCluster clusters usage.hostname = some cluster ∧
        cluster.cpu = some cpu) ∧
    (∀ usage ∈ hostUsages license_name hosts clusters, groupKey usage = key →
      ∀ c, usage.cluster_cpu = some c → c ≤ cpu) := by
  obtain ⟨_, _, hcpuall, ⟨v, hv, hvk, hvc⟩⟩ :=
    licenseGroups_group license_name hosts clusters key group hgroup
  refine ⟨?_, ?_, ?_⟩
  · unfold groupLicense
    rw [hcpu]
    simp only
    rw [if_pos hnonzero]
  · refine ⟨v, hv, hvk, hvc.trans hcpu, ?_⟩
    obtain ⟨host, _, _, _, rfl⟩ := (mem_hostUsages license_name hosts clusters v).mp hv
    have hbind : (lookupCluster clusters host.hostname).bind (fun cluster => cluster.cpu) =
        some cpu := hvc.trans hcpu
    cases hl : lookupCluster clusters host.hostname with
    | none => simp [hl] at hbind
    | some cluster =>
      rw [hl] at hbind
      exact ⟨cluster, hl, hbind⟩
  · intro usage hu hk c hc
    obtain ⟨c2, h2, hle⟩ := hcpuall usage hu hk c hc
    rw [hcpu] at h2
    rw [Option.some.inj h2]
    exact hle

/-- C15 (amended) at the scenario of the specification: a cluster with CPU
figure 16 and observed counts 3 and 5 gives 8. -/
theorem C15_cluster_figure_halved_witness :
    licenseGroups "L1" [hostThree, hostFive] [clusterSixteen] =
      [("cluster_§$#$§_X", { license := 5, cluster_cpu := some 16 })] ∧
    groupLicense { license := 5, cluster_cpu := some 16 } = 8 := by
  have hgroups : licenseGroups "L1" [hostThree, hostFive] [clusterSixteen] =
      [("cluster_§$#$§_X", { license := 5, cluster_cpu := some 16 })] := by
    rw [licenseGroups_examples clusterSixteen rfl rfl]
    simp [clusterSixteen, maxSkippingNull]
  have h := (C15_cluster_figure_halved "L1" [hostThree, hostFive] [clusterSixteen]
    "cluster_§$#$§_X" { license := 5, cluster_cpu := some 16 }
    (by rw [hgroups]; exact List.mem_singleton.mpr rfl) 16 rfl (by norm_num)).1
  refine ⟨hgroups, ?_⟩
  rw [h]
  norm_num

/-- C16: the key of a host is the cluster prefix followed by the name of its
cluster when the lookup finds one, and the host prefix followed by its hostname
otherwise; two hosts have the same key iff they have the same cluster name or,
both without cluster, the same hostname (so a key of a cluster is never the key
of a host without cluster); and the groups of a license have pairwise different
keys, which are exactly the keys of its hosts. -/
theorem C16_group_keys (license_name : String) (hosts : List HostDocument)
    (clusters : List ClusterDocument) :
    (∀ (projected : String × ℚ) (cluster : ClusterDocument),
      lookupCluster clusters projected.1 = some cluster →
      groupKey (attachCluster clusters projected) = "cluster_§$#$§_" ++ cluster.name) ∧
    (∀ (projected : String × ℚ), lookupCluster clusters projected.1 = none →
      groupKey (attachCluster clusters projected) = "hostname_§$#$§_" ++ projected.1) ∧
    (∀ u1 u2 : HostUsage, groupKey u1 = groupKey u2 ↔
      ((∃ n, u1.cluster_name = some n ∧ u2.cluster_name = some n) ∨
        (u1.cluster_name = none ∧ u2.cluster_name = none ∧ u1.hostname = u2.hostname))) ∧
    (licenseGroups license_name hosts clusters).keys.Nodup ∧
    (∀ k, k ∈ (licenseGroups license_name hosts clusters).keys ↔
      ∃ usage ∈ hostUsages license_name hosts clusters, groupKey usage = k) := by
  refine ⟨?_, ?_, ?_, groupUsages_keys_nodup _, mem_keys_groupUsages _⟩
  · intro projected cluster h
    simp [groupKey, attachCluster, h]
  · intro projected h
    simp [groupKey, attachCluster, h]
  · intro u1 u2
    cases h1 : u1.cluster_name with
    | none =>
      cases h2 : u2.cluster_name with
      | none =>
        simp only [groupKey, h1, h2]
        constructor
        · intro h
          exact Or.inr ⟨trivial, trivial, string_append_cancel _ _ _ h⟩
        · rintro (⟨n, hn, _⟩ | ⟨_, _, h⟩)
          · simp at hn
          · rw [h]
      | some n2 =>
        simp only [groupKey, h1, h2]
        constructor
        · intro h
          exact absurd h.symm (cluster_key_ne_host_key _ _)
        · rintro (⟨n, hn, _⟩ | ⟨_, hn, _⟩)
          · simp at hn
          · simp at hn
    | some n1 =>
      cases h2 : u2.cluster_name with
      | none =>
        simp only [groupKey, h1, h2]
        constructor
        · intro h
          exact absurd h (cluster_key_ne_host_key _ _)
        · rintro (⟨n, _, hn⟩ | ⟨hn, _, _⟩)
          · simp at hn
          · simp at hn
      | some n2 =>
        simp only [groupKey, h1, h2]
        constructor
        · intro h
          have := string_append_cancel _ _ _ h
          subst this
          exact Or.inl ⟨n1, rfl, rfl⟩
        · rintro (⟨n, hn1, hn2⟩ | ⟨hn, _, _⟩)
          · rw [Option.some.inj hn1, Option.some.inj hn2]
          · simp at hn

/-- C16 on the two hosts of cluster X: one group, under the key of the
cluster. -/
theorem C16_group_keys_witness :
    (licenseGroups "L1" [hostThree, hostFive] [clusterBare]).keys = ["cluster_§$#$§_X"] ∧
    (licenseGroups "L1" [hostThree, hostFive] [clusterBare]).keys.Nodup ∧
    (licenseGroups "L1" [hostThree, hostFive] []).keys.Nodup := by
  refine ⟨?_, (C16_group_keys "L1" [hostThree, hostFive] [clusterBare]).2.2.2.1,
    (C16_group_keys "L1" [hostThree, hostFive] []).2.2.2.1⟩
  rw [licenseGroups_examples clusterBare rfl rfl]
  rfl

theorem compliant_count_iff (docs : List LicenseCompliance) :
    (docs.map (fun doc => if doc.compliance then 1 else 0)).sum ≤
        (docs.map (fun _ => 1)).sum ∧
    ((docs.map (fun _ => 1)).sum =
        (docs.map (fun doc => if doc.compliance then 1 else 0)).sum ↔
      ∀ doc ∈ docs, doc.compliance = true) := by
  induction docs with
  | nil => simp
  | cons d ds ih =>
    obtain ⟨hle, hiff⟩ := ih
    simp only [List.map_cons, List.sum_cons, List.mem_cons, forall_eq_or_imp]
    cases hd : d.compliance with
    | true =>
      simp only [if_true]
      refine ⟨by omega, ?_⟩
      rw [← hiff]
      constructor
      · intro h
        exact ⟨trivial, by omega⟩
      · rintro ⟨_, h⟩
        omega
    | false =>
      simp only [Bool.false_eq_true, if_false]
      refine ⟨by omega, ?_⟩
      constructor
      · intro h
        omega
      · rintro ⟨h, _⟩
        exact absurd h (by simp)

/-- The value returned by a successful call. -/
theorem stats_ok (md : MongoDatabase) (stats : ComplianceStats)
    (h : GetDatabaseLicenseComplianceStatusStats md = .ok stats) :
    (md.licenses = [] ∧ stats = { count := 0, used := 0, compliant := true }) ∨
    (md.licenses ≠ [] ∧
      stats =
        { count := ((md.licenses.map (licenseCompliance md.hosts md.currentClusters)).map
            (fun doc => doc.count)).sum
          used := ((md.licenses.map (licenseCompliance md.hosts md.currentClusters)).map
            (fun doc => doc.used)).sum
          compliant := decide
            (((md.licenses.map (licenseCompliance md.hosts md.currentClusters)).map
                (fun _ => 1)).sum =
              ((md.licenses.map (licenseCompliance md.hosts md.currentClusters)).map
                (fun doc => if doc.compliance then 1 else 0)).sum) }) := by
  unfold GetDatabaseLicenseComplianceStatusStats at h
  cases hagg : md.AggregateError with
  | some err => simp [hagg] at h
  | none =>
    simp only [hagg] at h
    cases hl : md.licenses with
    | nil =>
      left
      simp only [hl, List.map_nil, aggregateStats, Except.ok.injEq] at h
      exact ⟨rfl, h.symm⟩
    | cons l ls =>
      right
      refine ⟨by simp, ?_⟩
      simp only [hl, List.map_cons, aggregateStats] at h
      cases hdec : md.DecodeError with
      | some err => simp [hdec] at h
      | none =>
        simp only [hdec, Except.ok.injEq] at h
        rw [← h]
        simp

theorem statsStore_sixteen_result :
    GetDatabaseLicenseComplianceStatusStats (statsStore [clusterSixteen]) =
      .ok { count := 10, used := 8, compliant := true } := by
  have hused : usedOf "L1" [hostThree, hostFive] [clusterSixteen] = 8 := by
    unfold usedOf usedValue
    rw [licenseGroups_examples clusterSixteen rfl rfl]
    simp [groupLicense, clusterSixteen, maxSkippingNull]
    norm_num
  simp [GetDatabaseLicenseComplianceStatusStats, statsStore, aggregateStats,
    licenseCompliance, hused]
  norm_num

/-- C17: in a successful result `compliant` is true iff every license document
has a `count` that is at least its `used`; it is true when there is no license
document. -/
theorem C17_compliant_iff_all (md : MongoDatabase) (stats : ComplianceStats)
    (h : GetDatabaseLicenseComplianceStatusStats md = .ok stats) :
    (stats.compliant = true ↔
      ∀ license ∈ md.licenses,
        license.count ≥ usedOf license.id md.hosts md.currentClusters) ∧
    (md.licenses = [] → stats.compliant = true) := by
  rcases stats_ok md stats h with ⟨hnil, hstats⟩ | ⟨_, hstats⟩
  · rw [hstats, hnil]
    simp
  · constructor
    · rw [hstats]
      simp only [decide_eq_true_eq]
      rw [(compliant_count_iff _).2]
      simp [licenseCompliance]
    · intro hnil
      rw [hstats, hnil]
      simp

/-- C17 on a store with 10 licenses L1 and a group consuming 8. -/
theorem C17_compliant_iff_all_witness :
    GetDatabaseLicenseComplianceStatusStats (statsStore [clusterSixteen]) =
      .ok { count := 10, used := 8, compliant := true } ∧
    (true = true ↔
      ∀ license ∈ (statsStore [clusterSixteen]).licenses,
        license.count ≥ usedOf license.id (statsStore [clusterSixteen]).hosts
          (statsStore [clusterSixteen]).currentClusters) :=
  ⟨statsStore_sixteen_result,
    (C17_compliant_iff_all (statsStore [clusterSixteen]) _ statsStore_sixteen_result).1⟩

/-- C18 (as stated, refuted): a store with the single license document L1 whose
`count` is 10 yields a result whose `count` is 10, while there is one license
part. -/
theorem C18_count_counterexample :
    (statsStore [clusterSixteen]).licenses = [{ id := "L1", count := 10 }] ∧
    (statsStore [clusterSixteen]).licenses.length = 1 ∧
    GetDatabaseLicenseComplianceStatusStats (statsStore [clusterSixteen]) =
      .ok { count := 10, used := 8, compliant := true } ∧
    ({ count := 10, used := 8, compliant := true } : ComplianceStats).count ≠
      ((statsStore [clusterSixteen]).licenses.length : ℚ) := by
  refine ⟨rfl, rfl, statsStore_sixteen_result, ?_⟩
  simp [statsStore]

/-- C18 (amended): the `count` of a successful result is the sum of the `count`
of the license documents (0 when there is none). -/
theorem C18_count_is_sum (md : MongoDatabase) (stats : ComplianceStats)
    (h : GetDatabaseLicenseComplianceStatusStats md = .ok stats) :
    stats.count = (md.licenses.map (fun license => license.count)).sum := by
  rcases stats_ok md stats h with ⟨hnil, hstats⟩ | ⟨_, hstats⟩
  · rw [hstats, hnil]
    simp
  · rw [hstats]
    simp only [List.map_map]
    rfl

/-- C18 (amended) on the store with the single license document L1 of 10
licenses. -/
theorem C18_count_is_sum_witness :
    GetDatabaseLicenseComplianceStatusStats (statsStore [clusterSixteen]) =
      .ok { count := 10, used := 8, compliant := true } ∧
    ({ count := 10, used := 8, compliant := true } : ComplianceStats).count =
      ((statsStore [clusterSixteen]).licenses.map (fun license => license.count)).sum :=
  ⟨statsStore_sixteen_result,
    C18_count_is_sum (statsStore [clusterSixteen]) _ statsStore_sixteen_result⟩

/-! ## Claims on the entries and their order -/

/-- The outcome of a call, up to the order in which the map is visited: an error
that does not depend on the order, or the finished values of one list. -/
theorem result_shape (as : APIService) :
    (∃ err, ∀ order, GetOracleDatabaseLicensesCompliance as order = .error err) ∨
    (∃ (values : List OracleDatabaseLicenseUsage) (parts : GoMap OracleDatabasePart),
      ∀ order, GetOracleDatabaseLicensesCompliance as order =
        .ok ((order.iter values).map (finishLicense parts))) := by
  cases h1 : as.ListOracleDatabaseAgreements with
  | error err =>
    exact Or.inl ⟨err, fun order => by simp only [GetOracleDatabaseLicensesCompliance, h1]⟩
  | ok agreements0 =>
    cases h2 : as.ListHostUsingOracleDatabaseLicenses with
    | error err =>
      exact Or.inl ⟨err, fun order => by simp only [GetOracleDatabaseLicensesCompliance, h1, h2]⟩
    | ok hosts0 =>
      cases h3 : as.assignOracleDatabaseAgreementsToHosts agreements0 hosts0 with
      | error err2 =>
        exact Or.inl ⟨NewAdvancedErrorPtr (some err2) "DB ERROR",
          fun order => by simp only [GetOracleDatabaseLicensesCompliance, h1, h2, h3]⟩
      | ok assigned =>
        obtain ⟨agreements, hosts⟩ := assigned
        cases h4 : GetOracleDatabaseAgreementPartsMap as with
        | error err =>
          exact Or.inl ⟨err,
            fun order => by simp only [GetOracleDatabaseLicensesCompliance, h1, h2, h3, h4]⟩
        | ok parts =>
          exact Or.inr ⟨(licensesMap agreements hosts).map Prod.snd, parts,
            fun order => by simp only [GetOracleDatabaseLicensesCompliance, h1, h2, h3, h4]⟩

theorem licensesMap_partIDs (agreements : List OracleDatabaseAgreementFE)
    (hosts : List HostUsingOracleDatabaseLicenses) :
    ((licensesMap agreements hosts).map Prod.snd).map (fun l => l.PartID) =
      (licensesMap agreements hosts).keys := by
  unfold GoMap.keys
  rw [List.map_map]
  apply List.map_congr_left
  intro p hp
  have hget := GoMap.get?_of_mem _ (licensesMap_keys_nodup agreements hosts) p hp
  have hu := usageAt_licensesMap agreements hosts p.1
  simp only [usageAt, hget, Option.getD_some] at hu
  simp only [Function.comp_apply]
  rw [hu]

theorem twoPartsService_insertion :
    GetOracleDatabaseLicensesCompliance twoPartsService MapOrder.insertion =
      .ok [uncoveredUsage, secondUsage] := by
  simp [GetOracleDatabaseLicensesCompliance, twoPartsService, uncoveredUsage, secondUsage,
    assignNothing, MapOrder.insertion, licensesMap,
    consumeHost, coverAgreement, addCovered, markUnlimited, finishLicense, partsAt,
    GetOracleDatabaseAgreementPartsMap, GoMap.get?, GoMap.set]

theorem twoPartsService_reversed :
    GetOracleDatabaseLicensesCompliance twoPartsService MapOrder.reversed =
      .ok [secondUsage, uncoveredUsage] := by
  simp [GetOracleDatabaseLicensesCompliance, twoPartsService, uncoveredUsage, secondUsage,
    assignNothing, MapOrder.reversed, licensesMap,
    consumeHost, coverAgreement, addCovered, markUnlimited, finishLicense, partsAt,
    GetOracleDatabaseAgreementPartsMap, GoMap.get?, GoMap.set]

/-- C21 (as stated, refuted): for the same agreements, host usage records and
parts catalogue, two visiting orders of the map of licenses give the two entries
of the result in two different orders. -/
theorem C21_order_counterexample :
    GetOracleDatabaseLicensesCompliance twoPartsService MapOrder.insertion =
      .ok [uncoveredUsage, secondUsage] ∧
    GetOracleDatabaseLicensesCompliance twoPartsService MapOrder.reversed =
      .ok [secondUsage, uncoveredUsage] ∧
    [uncoveredUsage, secondUsage] ≠ [secondUsage, uncoveredUsage] := by
  refine ⟨twoPartsService_insertion, twoPartsService_reversed, ?_⟩
  intro h
  have h2 := congrArg (fun l => l.map (fun u => u.PartID)) h
  simp [uncoveredUsage, secondUsage] at h2

/-- C21 (amended): for the same answers of the collaborators, two runs return the
same error, or results that hold the same entries with the same multiplicities;
only the order of the entries depends on the order in which the map of licenses
is visited. -/
theorem C21_same_entries (as : APIService) (order1 order2 : MapOrder) :
    (∀ err, GetOracleDatabaseLicensesCompliance as order1 = .error err →
      GetOracleDatabaseLicensesCompliance as order2 = .error err) ∧
    (∀ result1, GetOracleDatabaseLicensesCompliance as order1 = .ok result1 →
      ∃ result2, GetOracleDatabaseLicensesCompliance as order2 = .ok result2 ∧
        result1.Perm result2) := by
  rcases result_shape as with ⟨err, herr⟩ | ⟨values, parts, hok⟩
  · constructor
    · intro e h1
      rw [herr order1] at h1
      rw [herr order2]
      exact h1
    · intro r h1
      rw [herr order1] at h1
      simp at h1
  · constructor
    · intro e h1
      rw [hok order1] at h1
      simp at h1
    · intro r h1
      rw [hok order1, Except.ok.injEq] at h1
      subst h1
      refine ⟨_, hok order2, ?_⟩
      exact ((order1.perm values).trans (order2.perm values).symm).map _

/-- C21 (amended) on the two orders of `twoPartsService`. -/
theorem C21_same_entries_witness :
    ∃ result2, GetOracleDatabaseLicensesCompliance twoPartsService MapOrder.reversed =
        .ok result2 ∧
      [uncoveredUsage, secondUsage].Perm result2 :=
  (C21_same_entries twoPartsService MapOrder.insertion MapOrder.reversed).2 _
    twoPartsService_insertion

/-- C27: a successful result has exactly one entry for each `PartID` occurring
among the host usage records or the agreements and no other entry; its length is
the number of distinct such `PartID`s. -/
theorem C27_one_entry_per_part (as : APIService) (order : MapOrder)
    (result : List OracleDatabaseLicenseUsage)
    (hres : GetOracleDatabaseLicensesCompliance as order = .ok result)
    (agreements0 : List OracleDatabaseAgreementFE)
    (hosts0 : List HostUsingOracleDatabaseLicenses)
    (hags : as.ListOracleDatabaseAgreements = .ok agreements0)
    (hhs : as.ListHostUsingOracleDatabaseLicenses = .ok hosts0)
    (agreements : List OracleDatabaseAgreementFE)
    (hosts : List HostUsingOracleDatabaseLicenses)
    (hassign : as.assignOracleDatabaseAgreementsToHosts agreements0 hosts0 =
      .ok (agreements, hosts)) :
    (result.map (fun e => e.PartID)).Nodup ∧
    (∀ k, k ∈ result.map (fun e => e.PartID) ↔
      ((∃ h ∈ hosts, h.PartID = k) ∨ ∃ a ∈ agreements, a.PartID = k)) ∧
    result.length =
      ((hosts.map (fun h => h.PartID) ++ agreements.map (fun a => a.PartID)).dedup).length := by
  have hperm : (result.map (fun e => e.PartID)).Perm (licensesMap agreements hosts).keys := by
    unfold GetOracleDatabaseLicensesCompliance at hres
    rw [hags, hhs] at hres
    simp only [hassign] at hres
    cases hp : GetOracleDatabaseAgreementPartsMap as with
    | error err => simp [hp] at hres
    | ok parts =>
      simp only [hp, Except.ok.injEq] at hres
      subst hres
      rw [List.map_map]
      have hfun : ((fun e : OracleDatabaseLicenseUsage => e.PartID) ∘ finishLicense parts) =
          (fun e => e.PartID) := by
        funext l
        exact (finishLicense_fields parts l).1
      rw [hfun, ← licensesMap_partIDs]
      exact (order.perm _).map _
  have hnodup : (result.map (fun e => e.PartID)).Nodup :=
    hperm.nodup_iff.mpr (licensesMap_keys_nodup agreements hosts)
  have hmem : ∀ k, k ∈ result.map (fun e => e.PartID) ↔
      ((∃ h ∈ hosts, h.PartID = k) ∨ ∃ a ∈ agreements, a.PartID = k) := by
    intro k
    rw [hperm.mem_iff, mem_keys_licensesMap]
  refine ⟨hnodup, hmem, ?_⟩
  have hp2 : (result.map (fun e => e.PartID)).Perm
      ((hosts.map (fun h => h.PartID) ++ agreements.map (fun a => a.PartID)).dedup) := by
    rw [List.perm_ext_iff_of_nodup hnodup (List.nodup_dedup _)]
    intro k
    rw [hmem, List.mem_dedup, List.mem_append, List.mem_map, List.mem_map]
  have := hp2.length_eq
  rw [List.length_map] at this
  exact this

/-- C27 on two hosts consuming two different parts: two entries. -/
theorem C27_one_entry_per_part_witness :
    ([uncoveredUsage, secondUsage].map (fun e => e.PartID)).Nodup ∧
    (∀ k, k ∈ [uncoveredUsage, secondUsage].map (fun e => e.PartID) ↔
      ((∃ h ∈ ([{ Name := "h1", PartID := "A90611", OriginalCount := 4 },
          { Name := "h2", PartID := "L76084", OriginalCount := 2 }] :
          List HostUsingOracleDatabaseLicenses), h.PartID = k) ∨
        ∃ a ∈ ([] : List OracleDatabaseAgreementFE), a.PartID = k)) ∧
    [uncoveredUsage, secondUsage].length =
      ((([{ Name := "h1", PartID := "A90611", OriginalCount := 4 },
          { Name := "h2", PartID := "L76084", OriginalCount := 2 }] :
          List HostUsingOracleDatabaseLicenses).map (fun h => h.PartID) ++
        ([] : List OracleDatabaseAgreementFE).map (fun a => a.PartID)).dedup).length :=
  C27_one_entry_per_part twoPartsService MapOrder.insertion _ twoPartsService_insertion
    _ _ rfl rfl _ _ rfl

/-! ## Claims on `GetOraclePart` -/

theorem findPart_none_iff (parts : List OracleDatabasePart) (partID : String) :
    findPart parts partID = none ↔ ∀ part ∈ parts, part.PartID ≠ partID := by
  induction parts with
  | nil => simp [findPart]
  | cons p ps ih =>
    by_cases h : partID = p.PartID
    · simp [findPart, h]
    · have h2 : ¬ p.PartID = partID := fun e => h e.symm
      simp [findPart, h, h2, ih]

/-- A part found by the loop is the first of the catalogue with that `PartID`. -/
theorem findPart_some (parts : List OracleDatabasePart) (partID : String)
    (part : OracleDatabasePart) (h : findPart parts partID = some part) :
    ∃ i : Nat, parts[i]? = some part ∧ part.PartID = partID ∧
      ∀ (j : Nat) (q : OracleDatabasePart), j < i → parts[j]? = some q →
        q.PartID ≠ partID := by
  induction parts with
  | nil => simp [findPart] at h
  | cons p ps ih =>
    by_cases hp : partID = p.PartID
    · simp only [findPart, hp, if_true, Option.some.injEq] at h
      subst h
      exact ⟨0, by simp, hp.symm, fun j q hj => absurd hj (Nat.not_lt_zero j)⟩
    · simp only [findPart, hp, if_false] at h
      obtain ⟨i, hi, hid, hfirst⟩ := ih h
      refine ⟨i + 1, by simpa using hi, hid, ?_⟩
      intro j q hj hq
      cases j with
      | zero =>
        simp only [List.getElem?_cons_zero, Option.some.injEq] at hq
        subst hq
        exact fun e => hp e.symm
      | succ k =>
        simp only [List.getElem?_cons_succ] at hq
        exact hfirst k q (by omega) hq

/-- C22: when the catalogue is read, `GetOraclePart partID` returns a part iff
the catalogue holds a part with that `PartID`; the part returned is the first
such part of the catalogue; when there is none the call returns
`AerrOracleDatabaseAgreementInvalidPartID`, and when the catalogue cannot be
read it returns a "DB ERROR" error. -/
theorem C22_get_oracle_part (as : APIService) (partID : String) :
    (∀ parts, as.GetOracleDatabaseParts = .ok parts →
      ((∃ part, GetOraclePart as partID = .ok part) ↔
        ∃ part ∈ parts, part.PartID = partID) ∧
      (∀ part, GetOraclePart as partID = .ok part →
        ∃ i : Nat, parts[i]? = some part ∧ part.PartID = partID ∧
          ∀ (j : Nat) (q : OracleDatabasePart), j < i → parts[j]? = some q →
            q.PartID ≠ partID) ∧
      ((∀ part ∈ parts, part.PartID ≠ partID) →
        GetOraclePart as partID = .error AerrOracleDatabaseAgreementInvalidPartID)) ∧
    (∀ err, as.GetOracleDatabaseParts = .error err →
      GetOraclePart as partID = .error (NewAdvancedErrorPtr (some err) "DB ERROR")) := by
  constructor
  · intro parts hparts
    have hdef : GetOraclePart as partID =
        match findPart parts partID with
        | some part => .ok part
        | none => .error AerrOracleDatabaseAgreementInvalidPartID := by
      unfold GetOraclePart
      rw [hparts]
    refine ⟨?_, ?_, ?_⟩
    · constructor
      · rintro ⟨part, hpart⟩
        rw [hdef] at hpart
        cases hf : findPart parts partID with
        | none => simp [hf] at hpart
        | some found =>
          obtain ⟨i, hi, hid, _⟩ := findPart_some parts partID found hf
          exact ⟨found, List.mem_iff_getElem?.mpr ⟨i, hi⟩, hid⟩
      · rintro ⟨part, hmem, hid⟩
        cases hf : findPart parts partID with
        | none => exact absurd hid ((findPart_none_iff parts partID).mp hf part hmem)
        | some found => exact ⟨found, by rw [hdef, hf]⟩
    · intro part hpart
      rw [hdef] at hpart
      cases hf : findPart parts partID with
      | none => simp [hf] at hpart
      | some found =>
        simp only [hf, Except.ok.injEq] at hpart
        subst hpart
        exact findPart_some parts partID found hf
    · intro hnone
      rw [hdef, (findPart_none_iff parts partID).mpr hnone]
  · intro err herr
    unfold GetOraclePart
    rw [herr]

/-- C22 on the catalogue of `exampleService` and on a catalogue that cannot be
read. -/
theorem C22_get_oracle_part_witness :
    GetOraclePart exampleService "L76084" = .error AerrOracleDatabaseAgreementInvalidPartID ∧
    GetOraclePart failingPartsService "A90611" =
      .error (NewAdvancedErrorPtr (some "connection closed") "DB ERROR") ∧
    ((∃ part, GetOraclePart exampleService "A90611" = .ok part) ↔
      ∃ part ∈ exampleCatalogue, part.PartID = "A90611") :=
  ⟨(C22_get_oracle_part exampleService "L76084").1 _ rfl |>.2.2 (by
      intro part hpart
      rw [List.mem_singleton] at hpart
      subst hpart
      decide),
    (C22_get_oracle_part failingPartsService "A90611").2 _ rfl,
    ((C22_get_oracle_part exampleService "A90611").1 _ rfl).1⟩

/-! ## `GetOraclePart` against `GetOracleDatabaseAgreementPartsMap` -/

theorem lastPart_mem (parts : List OracleDatabasePart) (partID : String)
    (part : OracleDatabasePart) (h : lastPart parts partID = some part) :
    part ∈ parts ∧ part.PartID = partID := by
  induction parts with
  | nil => simp [lastPart] at h
  | cons p ps ih =>
    cases hl : lastPart ps partID with
    | some later =>
      simp only [lastPart, hl, Option.some.injEq] at h
      subst h
      exact ⟨List.mem_cons_of_mem _ (ih hl).1, (ih hl).2⟩
    | none =>
      simp only [lastPart, hl] at h
      by_cases hp : p.PartID = partID
      · simp only [hp, if_true, Option.some.injEq] at h
        subst h
        exact ⟨List.mem_cons_self _ _, hp⟩
      · simp [hp] at h

theorem lastPart_none_iff (parts : List OracleDatabasePart) (partID : String) :
    lastPart parts partID = none ↔ ∀ part ∈ parts, part.PartID ≠ partID := by
  induction parts with
  | nil => simp [lastPart]
  | cons p ps ih =>
    cases hl : lastPart ps partID with
    | some later =>
      have hmem := lastPart_mem ps partID later hl
      simp only [lastPart, hl, List.mem_cons, forall_eq_or_imp]
      constructor
      · intro h
        simp at h
      · intro h
        exact absurd hmem.2 (h.2 later hmem.1)
    | none =>
      have hall := ih.mp hl
      by_cases hp : p.PartID = partID
      · simp [lastPart, hl, hp]
      · simp only [lastPart, hl, hp, if_false, List.mem_cons, forall_eq_or_imp, true_iff]
        exact ⟨hp, hall⟩

/-- What the map built from the catalogue holds under a part identifier: the
last part of the catalogue with that identifier. -/
theorem partsMap_get? (parts : List OracleDatabasePart) (m : GoMap OracleDatabasePart)
    (k : String) :
    (parts.foldl (fun (partsMap : GoMap OracleDatabasePart) part =>
        partsMap.set part.PartID part) m).get? k =
      match lastPart parts k with
      | some later => some later
      | none => m.get? k := by
  induction parts generalizing m with
  | nil => rfl
  | cons p ps ih =>
    rw [List.foldl_cons, ih]
    cases hl : lastPart ps k with
    | some later => simp [lastPart, hl]
    | none =>
      by_cases hp : p.PartID = k
      · subst hp
        simp [lastPart, hl, GoMap.get?_set_self]
      · simp [lastPart, hl, hp, GoMap.get?_set_ne _ _ _ _ hp]

/-- C29 (as stated, refuted): on a catalogue listing part A90611 twice,
`GetOraclePart` returns the first entry while the map of
`GetOracleDatabaseAgreementPartsMap` holds the second. -/
theorem C29_duplicate_counterexample :
    duplicateCatalogueService.GetOracleDatabaseParts = .ok duplicateCatalogue ∧
    GetOraclePart duplicateCatalogueService "A90611" =
      .ok { PartID := "A90611", ItemDescription := "Oracle Database Enterprise Edition",
            Metric := "Processor Perpetual" } ∧
    GetOracleDatabaseAgreementPartsMap duplicateCatalogueService =
      .ok [("A90611",
        { PartID := "A90611", ItemDescription := "Oracle Database Enterprise Edition",
          Metric := "Named User Plus Perpetual" })] ∧
    ({ PartID := "A90611", ItemDescription := "Oracle Database Enterprise Edition",
       Metric := "Processor Perpetual" } : OracleDatabasePart) ≠
      { PartID := "A90611", ItemDescription := "Oracle Database Enterprise Edition",
        Metric := "Named User Plus Perpetual" } := by
  refine ⟨rfl, ?_, ?_, by decide⟩
  · simp [GetOraclePart, duplicateCatalogueService, duplicateCatalogue, findPart]
  · simp [GetOracleDatabaseAgreementPartsMap, duplicateCatalogueService, duplicateCatalogue,
      GoMap.set]

/-- C29 (amended): when the catalogue is read and holds a part with the given
`PartID`, `GetOraclePart` returns the first part of the catalogue with that
`PartID` and the map of `GetOracleDatabaseAgreementPartsMap` holds the last one;
the two are the same part when all the parts of the catalogue with that `PartID`
are equal, in particular when there is only one. -/
theorem C29_first_and_last (as : APIService) (parts : List OracleDatabasePart)
    (hparts : as.GetOracleDatabaseParts = .ok parts) (partID : String)
    (hoccurs : ∃ part ∈ parts, part.PartID = partID) :
    ∃ first last partsMap,
      GetOraclePart as partID = .ok first ∧
      GetOracleDatabaseAgreementPartsMap as = .ok partsMap ∧
      partsMap.get? partID = some last ∧
      findPart parts partID = some first ∧ lastPart parts partID = some last ∧
      first ∈ parts ∧ first.PartID = partID ∧ last ∈ parts ∧ last.PartID = partID ∧
      ((∀ p ∈ parts, ∀ q ∈ parts, p.PartID = partID → q.PartID = partID → p = q) →
        first = last) := by
  obtain ⟨witness, hwmem, hwid⟩ := hoccurs
  cases hf : findPart parts partID with
  | none => exact absurd hwid ((findPart_none_iff parts partID).mp hf witness hwmem)
  | some first =>
    cases hl : lastPart parts partID with
    | none => exact absurd hwid ((lastPart_none_iff parts partID).mp hl witness hwmem)
    | some last =>
      obtain ⟨i, hi, hfid, _⟩ := findPart_some parts partID first hf
      have hfmem : first ∈ parts := List.mem_iff_getElem?.mpr ⟨i, hi⟩
      obtain ⟨hlmem, hlid⟩ := lastPart_mem parts partID last hl
      refine ⟨first, last,
        parts.foldl (fun (partsMap : GoMap OracleDatabasePart) part =>
          partsMap.set part.PartID part) [],
        ?_, ?_, ?_, rfl, rfl, hfmem, hfid, hlmem, hlid, ?_⟩
      · unfold GetOraclePart
        rw [hparts]
        simp only [hf]
      · unfold GetOracleDatabaseAgreementPartsMap
        rw [hparts]
      · rw [partsMap_get?, hl]
      · intro hsame
        exact hsame first hfmem last hlmem hfid hlid

/-- C29 (amended) on the catalogue of `exampleService`, which lists part A90611
once. -/
theorem C29_first_and_last_witness :
    ∃ first last partsMap,
      GetOraclePart exampleService "A90611" = .ok first ∧
      GetOracleDatabaseAgreementPartsMap exampleService = .ok partsMap ∧
      partsMap.get? "A90611" = some last ∧
      findPart exampleCatalogue "A90611" = some first ∧
      lastPart exampleCatalogue "A90611" = some last ∧
      first ∈ exampleCatalogue ∧ first.PartID = "A90611" ∧
      last ∈ exampleCatalogue ∧ last.PartID = "A90611" ∧
      ((∀ p ∈ exampleCatalogue, ∀ q ∈ exampleCatalogue,
          p.PartID = "A90611" → q.PartID = "A90611" → p = q) →
        first = last) :=
  C29_first_and_last exampleService exampleCatalogue rfl "A90611"
    ⟨_, List.mem_singleton.mpr rfl, rfl⟩

/-! ## Claim on the failure to fetch the primaries -/

/-- C28: when the open primaries cannot be fetched (the request fails, the status
is outside 200..299, or the body cannot be decoded), `addLicensesToSecondaryDbs`
returns the secondary database unchanged and its only event is the logged error,
whatever marshalling and posting an alert would answer. -/
theorem C28_fetch_failure (CoreFactor : OracleDatabase → Host → ℚ)
    (hds : HostDataService) (hostInfo : Host) (secondaryDb : OracleDatabase)
    (hfail : (∃ err, hds.Get = .error err) ∨
      (∃ resp, hds.Get = .ok resp ∧ (resp.StatusCode < 200 ∨ resp.StatusCode > 299)) ∨
      (∃ resp err, hds.Get = .ok resp ∧ resp.Decode = .error err))
    (marshal : Alert → Except String String) (post : String → Except String Int) :
    ∃ err, getPrimaryOpenOracleDatabases hds = .error err ∧
      addLicensesToSecondaryDbs CoreFactor { hds with Marshal := marshal, Post := post }
        hostInfo secondaryDb = (secondaryDb, [Event.logErr err]) ∧
      (addLicensesToSecondaryDbs CoreFactor { hds with Marshal := marshal, Post := post }
        hostInfo secondaryDb).1.Licenses = secondaryDb.Licenses ∧
      ∀ body, Event.alertDelivered body ∉
        (addLicensesToSecondaryDbs CoreFactor { hds with Marshal := marshal, Post := post }
          hostInfo secondaryDb).2 := by
  have herr : ∃ err, getPrimaryOpenOracleDatabases hds = .error err := by
    unfold getPrimaryOpenOracleDatabases
    rcases hfail with ⟨err, h⟩ | ⟨resp, h, hst⟩ | ⟨resp, err, h, hdec⟩
    · rw [h]
      exact ⟨_, rfl⟩
    · rw [h]
      simp only
      rw [if_pos hst]
      exact ⟨_, rfl⟩
    · rw [h]
      simp only
      by_cases hst : resp.StatusCode < 200 ∨ resp.StatusCode > 299
      · rw [if_pos hst]
        exact ⟨_, rfl⟩
      · rw [if_neg hst, hdec]
        exact ⟨_, rfl⟩
  obtain ⟨err, he⟩ := herr
  have hsame : getPrimaryOpenOracleDatabases { hds with Marshal := marshal, Post := post } =
      .error err := by
    rw [← he]
    rfl
  have hcall := addLicenses_fetch_error CoreFactor { hds with Marshal := marshal, Post := post }
    hostInfo secondaryDb err hsame
  refine ⟨err, he, hcall, by rw [hcall], ?_⟩
  intro body
  rw [hcall]
  simp

/-- C28 on an inventory that answers with status 500. -/
theorem C28_fetch_failure_witness :
    ∃ err, getPrimaryOpenOracleDatabases
        { exampleDataService with Get := .ok { StatusCode := 500, Decode := .ok [] } } =
        .error err ∧
      addLicensesToSecondaryDbs coreFactorHalf
        { exampleDataService with
          Get := .ok { StatusCode := 500, Decode := .ok [] }
          Marshal := fun alert => .ok alert.Description
          Post := fun _ => .ok 200 }
        hostB standbyLicensed = (standbyLicensed, [Event.logErr err]) :=
  let ⟨err, h1, h2, _⟩ := C28_fetch_failure coreFactorHalf
    { exampleDataService with Get := .ok { StatusCode := 500, Decode := .ok [] } }
    hostB standbyLicensed (Or.inr (Or.inl ⟨_, rfl, Or.inr (by decide)⟩))
    (fun alert => .ok alert.Description) (fun _ => .ok 200)
  ⟨err, h1, h2⟩

/-! ## Claims on `utils` -/

theorem difference_set_get? (b : List String) (m : GoMap Unit) (x : String) :
    ((b.foldl (fun (mb : GoMap Unit) y => mb.set y ()) m).get? x).isSome =
      (decide (x ∈ b) || (m.get? x).isSome) := by
  induction b generalizing m with
  | nil => simp
  | cons y ys ih =>
    rw [List.foldl_cons, ih]
    by_cases h : y = x
    · subst h
      simp [GoMap.get?_set_self]
    · have h2 : ¬ x = y := fun e => h e.symm
      simp [GoMap.get?_set_ne _ _ _ _ h, h2]

theorem difference_loop (mb : GoMap Unit) (a init : List String) :
    a.foldl (fun diff x =>
      match mb.get? x with
      | some _ => diff
      | none => diff ++ [x]) init =
      init ++ a.filter (fun x => !(mb.get? x).isSome) := by
  induction a generalizing init with
  | nil => simp
  | cons y ys ih =>
    rw [List.foldl_cons, ih, List.filter_cons]
    cases h : mb.get? y with
    | none => simp
    | some u => simp

/-- C23: `Difference a b` is `a` without the elements that occur in `b`: a
sublist of `a` in which an element of `b` does not occur and any other element
occurs as often as in `a`. -/
theorem C23_difference (a b : List String) :
    Difference a b = a.filter (fun x => decide (x ∉ b)) ∧
    (Difference a b).Sublist a ∧
    (∀ x, x ∈ b → (Difference a b).count x = 0) ∧
    (∀ x, x ∉ b → (Difference a b).count x = a.count x) := by
  have heq : Difference a b = a.filter (fun x => decide (x ∉ b)) := by
    unfold Difference
    simp only
    rw [difference_loop, List.nil_append]
    apply List.filter_congr
    intro x _
    rw [difference_set_get?]
    simp [GoMap.get?]
  refine ⟨heq, ?_, ?_, ?_⟩
  · rw [heq]
    exact List.filter_sublist a
  · intro x hx
    rw [heq, List.count_eq_zero]
    intro hmem
    have := (List.mem_filter.mp hmem).2
    simp [hx] at this
  · intro x hx
    rw [heq, List.count_filter]
    simp [hx]

/-- C23 on a list with a repeated element that occurs once in the other. -/
theorem C23_difference_witness :
    Difference ["a", "b", "a", "c", "b"] ["a"] = ["b", "c", "b"] := by
  rw [(C23_difference ["a", "b", "a", "c", "b"] ["a"]).1]
  decide

/-- C24: for `0 <= i < len(slice)`, `Remove slice i` is the elements before
position `i` followed by the elements after it; its length is `len(slice) - 1`,
the elements before `i` keep their position and the later ones move down by
one. -/
theorem C24_remove (slice : List String) (i : Int) (h0 : 0 ≤ i) (hlen : i < slice.length) :
    ∃ result, Remove slice i = some result ∧
      result = slice.take i.toNat ++ slice.drop (i.toNat + 1) ∧
      result.length = slice.length - 1 ∧
      (∀ j : Nat, j < i.toNat → result[j]? = slice[j]?) ∧
      (∀ j : Nat, i.toNat ≤ j → result[j]? = slice[j + 1]?) := by
  have hi : i.toNat < slice.length := by omega
  refine ⟨slice.take i.toNat ++ slice.drop (i.toNat + 1), ?_, rfl, ?_, ?_, ?_⟩
  · unfold Remove
    rw [if_pos ⟨h0, hlen⟩]
  · simp only [List.length_append, List.length_take, List.length_drop]
    omega
  · intro j hj
    rw [List.getElem?_append_left (by simp; omega), List.getElem?_take_of_lt hj]
  · intro j hj
    have hl : (slice.take i.toNat).length = i.toNat := by
      rw [List.length_take]
      omega
    rw [List.getElem?_append_right (by omega), hl, List.getElem?_drop]
    congr 1
    omega

/-- C24 on a list of four elements and position 1. -/
theorem C24_remove_witness :
    ∃ result, Remove ["a", "b", "c", "d"] 1 = some result ∧
      result = ["a", "c", "d"] ∧ result.length = 3 := by
  obtain ⟨result, h1, h2, h3, _⟩ := C24_remove ["a", "b", "c", "d"] 1 (by decide) (by decide)
  exact ⟨result, h1, by rw [h2]; rfl, by rw [h3]; rfl⟩

/-- A value accepted by `ParseInt` lies between -2^31 and 2^31 - 1. -/
theorem ParseInt_range (s : String) (n : Int) (h : ParseInt s = .ok n) :
    -(2 : Int) ^ 31 ≤ n ∧ n ≤ (2 : Int) ^ 31 - 1 := by
  have hparse : ∀ (neg : Bool) (digits : List Char),
      (match digits with
        | [] => (Except.error "invalid syntax" : Except String Int)
        | _ =>
          match parseDigits digits 0 with
          | none => .error "invalid syntax"
          | some un =>
            if !neg ∧ un ≥ 2 ^ 31 then .error "value out of range"
            else if neg ∧ un > 2 ^ 31 then .error "value out of range"
            else .ok (if neg then -(un : Int) else (un : Int))) = .ok n →
      -(2 : Int) ^ 31 ≤ n ∧ n ≤ (2 : Int) ^ 31 - 1 := by
    intro neg digits hd
    cases digits with
    | nil => simp at hd
    | cons c cs =>
      simp only at hd
      cases hp : parseDigits (c :: cs) 0 with
      | none => simp [hp] at hd
      | some un =>
        simp only [hp] at hd
        split at hd
        · simp at hd
        · split at hd
          · simp at hd
          · rename_i h1 h2
            simp only [Except.ok.injEq] at hd
            cases neg with
            | true =>
              simp only [Bool.true_eq_false, not_false_eq_true, true_and, gt_iff_lt, not_lt,
                if_true] at h2 hd
              subst hd
              have : ((un : Nat) : Int) ≤ 2 ^ 31 := by exact_mod_cast h2
              omega
            | false =>
              simp only [Bool.not_false, true_and, ge_iff_le, not_le] at h1
              simp only [Bool.false_eq_true, if_false] at hd
              subst hd
              have : ((un : Nat) : Int) < 2 ^ 31 := by exact_mod_cast h1
              omega
  unfold ParseInt at h
  split at h
  · simp at h
  · exact hparse false _ h
  · exact hparse true _ h
  · exact hparse false _ h

/-- C25: `Str2int` returns the default and no error for the empty string; for a
non-empty string it returns `n` and no error exactly when `ParseInt` accepts the
string as the base-10 integer `n`, which then lies in the signed 32-bit range,
and it returns -1 and an error, whatever the default, when `ParseInt` rejects
the string. -/
theorem C25_str2int (defaultValue : Int) :
    Str2int "" defaultValue = (defaultValue, none) ∧
    (∀ str, str ≠ "" →
      (∀ n, ParseInt str = .ok n →
        Str2int str defaultValue = (n, none) ∧
        -(2 : Int) ^ 31 ≤ n ∧ n ≤ (2 : Int) ^ 31 - 1) ∧
      (∀ err, ParseInt str = .error err →
        Str2int str defaultValue =
          (-1, some (NewError err "Unable to parse string to int"))) ∧
      (∀ n, Str2int str defaultValue = (n, none) ↔ ParseInt str = .ok n)) := by
  refine ⟨by simp [Str2int], ?_⟩
  intro str hne
  refine ⟨?_, ?_, ?_⟩
  · intro n hn
    refine ⟨?_, ParseInt_range str n hn⟩
    unfold Str2int
    rw [if_neg hne, hn]
  · intro err herr
    unfold Str2int
    rw [if_neg hne, herr]
  · intro n
    unfold Str2int
    rw [if_neg hne]
    cases hp : ParseInt str with
    | error err => simp
    | ok val => simp

/-- C25 on the empty string, a number, a word and a number beyond the 32-bit
range, with the default 7. -/
theorem C25_str2int_witness :
    Str2int "" 7 = (7, none) ∧
    Str2int "42" 7 = (42, none) ∧
    Str2int "-15" 7 = (-15, none) ∧
    Str2int "abc" 7 = (-1, some (NewError "invalid syntax" "Unable to parse string to int")) ∧
    Str2int "2147483648" 7 =
      (-1, some (NewError "value out of range" "Unable to parse string to int")) := by
  have h42 : ParseInt "42" = .ok 42 := by rfl
  have h15 : ParseInt "-15" = .ok (-15) := by rfl
  have habc : ParseInt "abc" = .error "invalid syntax" := by rfl
  have hbig : ParseInt "2147483648" = .error "value out of range" := by rfl
  exact ⟨(C25_str2int 7).1,
    (((C25_str2int 7).2 "42" (by decide)).1 42 h42).1,
    (((C25_str2int 7).2 "-15" (by decide)).1 (-15) h15).1,
    ((C25_str2int 7).2 "abc" (by decide)).2.1 _ habc,
    ((C25_str2int 7).2 "2147483648" (by decide)).2.1 _ hbig⟩

/-! ## Claim on the read-only mode -/

/-- C26: in read-only mode the three handlers answer 403 with the read-only
error, call no operation of the service and leave the store as it was, whatever
the request and whatever the service would do. -/
theorem C26_read_only_forbidden {σ : Type} (ctrl : APIController σ)
    (hro : ctrl.ReadOnly = true) (r : LicenseTypeRequest) (store : σ) :
    (ctrl.DeleteOracleDatabaseLicenseType r store).Status = 403 ∧
    (ctrl.DeleteOracleDatabaseLicenseType r store).Body = .error readOnlyError ∧
    (ctrl.DeleteOracleDatabaseLicenseType r store).Calls = [] ∧
    (ctrl.DeleteOracleDatabaseLicenseType r store).Store = store ∧
    (ctrl.AddOracleDatabaseLicenseType r store).Status = 403 ∧
    (ctrl.AddOracleDatabaseLicenseType r store).Body = .error readOnlyError ∧
    (ctrl.AddOracleDatabaseLicenseType r store).Calls = [] ∧
    (ctrl.AddOracleDatabaseLicenseType r store).Store = store ∧
    (ctrl.UpdateOracleDatabaseLicenseType r store).Status = 403 ∧
    (ctrl.UpdateOracleDatabaseLicenseType r store).Body = .error readOnlyError ∧
    (ctrl.UpdateOracleDatabaseLicenseType r store).Calls = [] ∧
    (ctrl.UpdateOracleDatabaseLicenseType r store).Store = store := by
  simp [APIController.DeleteOracleDatabaseLicenseType,
    APIController.AddOracleDatabaseLicenseType,
    APIController.UpdateOracleDatabaseLicenseType, hro]

/-- C26 on a store of one license type: in read-only mode a delete request for
it is refused and the store keeps it, while the same request is served when the
mode is off. -/
theorem C26_read_only_forbidden_witness :
    (APIController.DeleteOracleDatabaseLicenseType
      { ReadOnly := true, Service := listService } { id := "A90611" } oneLicenseType).Status
        = 403 ∧
    (APIController.DeleteOracleDatabaseLicenseType
      { ReadOnly := true, Service := listService } { id := "A90611" } oneLicenseType).Calls
        = [] ∧
    (APIController.DeleteOracleDatabaseLicenseType
      { ReadOnly := true, Service := listService } { id := "A90611" } oneLicenseType).Store
        = oneLicenseType ∧
    (APIController.DeleteOracleDatabaseLicenseType
      { ReadOnly := false, Service := listService } { id := "A90611" } oneLicenseType).Store
        = [] := by
  have h := C26_read_only_forbidden { ReadOnly := true, Service := listService } rfl
    { id := "A90611" } oneLicenseType
  refine ⟨h.1, h.2.2.1, h.2.2.2.1, ?_⟩
  simp [APIController.DeleteOracleDatabaseLicenseType, listService, oneLicenseType]

/-! ## Claim on `GetOciUnusedLoadBalancers` -/

/-- C30 (the code at the failing input): with one compartment whose load
balancer `lb1`, called `frontend`, is CRITICAL and every listing call
succeeding, the call returns two recommendations for `lb1`, the first without
name and the second with the display name, and no error. -/
theorem C30_two_recommendations :
    GetOciUnusedLoadBalancers oneCompartmentService [] =
      (some
        [{ RecommendationType := RecommendationTypeUnusedResource, CompartmentID := "c1", Name := "",
           ResourceID := "lb1" },
         { RecommendationType := RecommendationTypeUnusedResource, CompartmentID := "c1",
           Name := "frontend", ResourceID := "lb1" }],
        []) := by
  simp [GetOciUnusedLoadBalancers, oneCompartmentService, visitCompartment, recordUnhealthy,
    nameRecorded, GoMap.get?, GoMap.set]

end Ercole
